import Mathlib

/-!
# MEM_MGR: memory access and file transfer engine

A shallow embedding of `fsw/src/memory.c`, `fsw/src/mem_size8.c`, `fsw/src/mem_size16.c`,
`fsw/src/mem_size32.c` and `fsw/src/mem_file.c`.

* The C globals `Memory` and `MemFile`, physical memory and the file store are fields of
  an explicit `World` that every function takes and returns.
* The collaborators outside the application (PSP memory primitives, OSAL files and symbols,
  cFE services, the application framework) are a `Platform` record.  Each of its answers
  is a function of the history of platform calls made so far, so a provider may succeed,
  fault, or transfer short counts at any call.
* Every platform call is appended (newest first) to `World.trace`; `Ev.call` entries mark
  the entry of an application function.
* Byte counts, addresses and data words are natural numbers; a wrap is written
  explicitly where the C arithmetic can wrap.
-/

namespace MemMgr

/-! ## Types of mem_mgr_eds_typedefs.h -/

/-- Memory type of a command or file header; `unmapped` is any other encoded value. -/
inductive MEM_MGR_MemType_Enum_t where
  | MemType_UNDEF
  | MemType_NONVOL
  | MemType_RAM
  | unmapped (code : Nat)
  deriving DecidableEq

/-- Memory access width; `unmapped` is any other encoded value. -/
inductive MEM_MGR_MemSize_Enum_t where
  | MemSize_UNDEF
  | MemSize_8
  | MemSize_16
  | MemSize_32
  | MemSize_VOID
  | unmapped (code : Nat)
  deriving DecidableEq

/-- Last memory function recorded in the command status. -/
inductive MEM_MGR_MemFunction_Enum_t where
  | NONE_PERFORMED
  | PEEK
  | POKE
  | LOAD_FROM_FILE
  | LOAD_INT_DIS
  | DUMP_TO_FILE
  | DUMP_TO_EVENT
  | FILL
  deriving DecidableEq

/-- Symbolic address: a symbol name (character array) and an offset. -/
structure MEM_MGR_SymbolAddr_t where
  Name : List Nat
  Offset : Nat
  deriving DecidableEq

/-- Secondary file header that precedes the payload of a load or dump file. -/
structure MEM_MGR_SecFileHdr_t where
  SymbolAddr : MEM_MGR_SymbolAddr_t
  MemType : MEM_MGR_MemType_Enum_t
  MemSize : MEM_MGR_MemSize_Enum_t
  ByteCnt : Nat
  CrcType : Nat
  Crc : Nat
  deriving DecidableEq

/-- Payload of the dump-to-file command. -/
structure MEM_MGR_DumpToFile_CmdPayload_t where
  Filename : String
  SymbolAddr : MEM_MGR_SymbolAddr_t
  MemType : MEM_MGR_MemType_Enum_t
  MemSize : MEM_MGR_MemSize_Enum_t
  ByteCnt : Nat

/-- Payload of the load-from-file command. -/
structure MEM_MGR_LoadFromFile_CmdPayload_t where
  Filename : String

/-- Payload of the load-with-interrupts-disabled command. -/
structure MEM_MGR_LoadWithIntDis_CmdPayload_t where
  SymbolAddr : MEM_MGR_SymbolAddr_t
  MemType : MEM_MGR_MemType_Enum_t
  MemSize : MEM_MGR_MemSize_Enum_t
  ByteCnt : Nat
  CrcType : Nat
  Crc : Nat
  Data : List Nat

/-- Payload of the fill command. -/
structure MEM_MGR_Fill_CmdPayload_t where
  SymbolAddr : MEM_MGR_SymbolAddr_t
  MemType : MEM_MGR_MemType_Enum_t
  MemSize : MEM_MGR_MemSize_Enum_t
  Data : Nat
  ByteCnt : Nat

/-- Payload of the poke command. -/
structure MEM_MGR_Poke_CmdPayload_t where
  SymbolAddr : MEM_MGR_SymbolAddr_t
  MemType : MEM_MGR_MemType_Enum_t
  MemSize : MEM_MGR_MemSize_Enum_t
  Data : Nat

/-- Payload of the command that enables writes to an EEPROM bank. -/
structure MEM_MGR_EnaEepromWrite_CmdPayload_t where
  Bank : Nat

/-- Payload of the command that disables writes to an EEPROM bank. -/
structure MEM_MGR_DisEepromWrite_CmdPayload_t where
  Bank : Nat

/-- Payload of the peek command. -/
structure MEM_MGR_Peek_CmdPayload_t where
  SymbolAddr : MEM_MGR_SymbolAddr_t
  MemType : MEM_MGR_MemType_Enum_t
  MemSize : MEM_MGR_MemSize_Enum_t

/-- Payload of the dump-to-event command. -/
structure MEM_MGR_DumpToEvent_CmdPayload_t where
  SymbolAddr : MEM_MGR_SymbolAddr_t
  MemType : MEM_MGR_MemType_Enum_t
  MemSize : MEM_MGR_MemSize_Enum_t
  ByteCnt : Nat

/-! ## Platform interface -/

/-- PSP memory range domains. -/
inductive PspMemType where
  | CFE_PSP_MEM_RAM
  | CFE_PSP_MEM_EEPROM
  | CFE_PSP_MEM_ANY
  | CFE_PSP_MEM_INVALID
  deriving DecidableEq

/-- Severity of an event message. -/
inductive EventType where
  | INFORMATION
  | ERROR
  deriving DecidableEq

/-- Application functions whose entry is marked in the trace. -/
inductive AppFn where
  | MEMORY_VerifyAddr
  | ComputeFileCrc
  deriving DecidableEq

/-- One platform interaction, or the entry of an application function (`call`). -/
inductive Ev where
  | MemRead (bytes addr : Nat)
  | MemWrite (bytes addr val : Nat)
  | EepromWrite (bytes addr val : Nat)
  | MemCpyFromMem (src n : Nat)
  | MemCpyToMem (dest n : Nat)
  | MemSet (dest val n : Nat)
  | MemValidateRange (addr n : Nat) (t : PspMemType)
  | EepromWriteEnable (bank : Nat)
  | EepromWriteDisable (bank : Nat)
  | SymbolLookup (name : List Nat)
  | VerifyDirForWrite (file : String)
  | VerifyFileForRead (file : String)
  | OpenCreate (file : String)
  | Close
  | Stat (file : String)
  | Lseek (off : Nat)
  | Read (req : Nat) (ret : Int)
  | Write (data : List Nat) (ret : Int)
  | ReadHeader (ret : Int)
  | WriteHeader (ret : Int)
  | CalculateCRC (n : Nat)
  | PauseTask
  | TaskDelay (ticks : Nat)
  | SendEvent (eid : String) (sev : EventType) (args : List Nat)
  | call (fn : AppFn)
  deriving DecidableEq

/-- Outcome a file provider chooses for one read or write. -/
inductive IoOutcome where
  | full
  | short (k : Nat)
  | fail
  deriving DecidableEq

/-- Build configuration and behaviour of the collaborators.  Every behaviour takes the
history of platform calls (`World.trace`) as its first argument. -/
structure Platform where
  /-- Build option `MEM_MGR_OPT_INCL_MEM_SIZE8`. -/
  INCL_MEM_SIZE8 : Bool
  /-- Build option `MEM_MGR_OPT_INCL_MEM_SIZE16`. -/
  INCL_MEM_SIZE16 : Bool
  /-- Build option `MEM_MGR_OPT_INCL_MEM_SIZE32`. -/
  INCL_MEM_SIZE32 : Bool
  /-- Width in bits of `MEM_MGR_CpuAddr_Atom_t`. -/
  addrBits : Nat
  /-- Width in bits of `size_t`. -/
  sizeBits : Nat
  /-- Byte order of the CPU: true when the first byte of a multi-byte object is its most
  significant byte.  Target memory and the transfer buffers hold elements in the layout of
  `loadLE` and `storeLE`, which block transfers and fills do not depend on; the byte order
  decides what the program sees where it reads the bytes of one object as another type. -/
  bigEndian : Bool
  MEM_MGR_MAX_SYM_LEN : Nat
  /-- Numeric value of a width enumerator (mem_mgr_eds_typedefs.h). -/
  MemSizeValue : MEM_MGR_MemSize_Enum_t → Nat
  /-- Mission configuration of cFE: the maximum length of an event text. -/
  CFE_MISSION_EVS_MAX_MESSAGE_LENGTH : Nat
  /-- Value of `sizeof(CFE_FS_Header_t)`. -/
  FILE_PRI_HDR_BYTES : Nat
  /-- Value of `sizeof(MEM_MGR_SecFileHdr_t)`. -/
  FILE_SEC_HDR_BYTES : Nat
  /-- CRC type accepted by `ComputeFileCrc` (mem_mgr_platform_cfg.h). -/
  MEM_MGR_CRC : Nat
  APP_C_FW_CrcUint8_CRC_16 : Nat
  /-- Bytes of the primary header as `CFE_FS_WriteHeader` writes them. -/
  cfeHdrByte : Nat → Nat
  /-- Bytes of a secondary header structure in memory, from its first byte on. -/
  secHdrImage : MEM_MGR_SecFileHdr_t → List Nat
  /-- Structure held by a memory image of `FILE_SEC_HDR_BYTES` bytes. -/
  secHdrParse : List Nat → MEM_MGR_SecFileHdr_t
  memReadOk : List Ev → Nat → Nat → Bool
  memWriteOk : List Ev → Nat → Nat → Bool
  eepromWriteOk : List Ev → Nat → Nat → Bool
  memCpyOk : List Ev → Bool
  memSetOk : List Ev → Bool
  memValidateRange : List Ev → Nat → Nat → PspMemType → Bool
  eepromWriteEnableOk : List Ev → Nat → Bool
  eepromWriteDisableOk : List Ev → Nat → Bool
  symbolLookup : List Ev → List Nat → Option Nat
  verifyDirForWrite : List Ev → String → Bool
  verifyFileForRead : List Ev → String → Bool
  openOk : List Ev → String → Bool
  closeOk : List Ev → Bool
  statOk : List Ev → String → Bool
  lseekOk : List Ev → Bool
  readOutcome : List Ev → IoOutcome
  writeOutcome : List Ev → IoOutcome
  /-- External `CFE_ES_CalculateCRC(data, inputCrc, type)`. -/
  CFE_ES_CalculateCRC : List Nat → Nat → Nat → Nat

/-! ## Application state -/

/-- Command status of memory.h (`Type_` is the C field `Type`). -/
structure MEMORY_CmdStatus_t where
  Function : MEM_MGR_MemFunction_Enum_t
  Type_ : MEM_MGR_MemType_Enum_t
  Size : MEM_MGR_MemSize_Enum_t
  Addr : Nat
  Data : Nat
  ByteCnt : Nat
  deriving DecidableEq

/-- Result structure of `MEMORY_VerifyAddr`. -/
structure MEMORY_VerifiedMemory_t where
  CpuAddr : Nat
  TypeStr : String
  deriving DecidableEq

/-- Class data of memory.h. -/
structure MEMORY_Class_t where
  EepromWriteEna : Bool
  CmdStatus : MEMORY_CmdStatus_t
  deriving DecidableEq

/-- Values the JSON initialisation table supplies to `MEM_FILE_Constructor`. -/
structure INITBL_Class_t where
  MEM_FILE_TASK_BLOCK_LIMIT : Nat
  MEM_FILE_TASK_BLOCK_DELAY : Nat
  MEM_FILE_CHILD_PERF_ID : Nat
  MEM_FILE_LOAD_BLOCK_SIZE : Nat
  MEM_FILE_DUMP_BLOCK_SIZE : Nat
  MEM_FILE_FILL_BLOCK_SIZE : Nat

/-- Class data of mem_file.h; `IoBuf` is indexed by byte offset. -/
structure MEM_FILE_Class_t where
  CmdStatus : MEMORY_CmdStatus_t
  TaskBlockCount : Nat
  TaskBlockLimit : Nat
  TaskBlockDelay : Nat
  TaskPerfId : Nat
  LoadBlockSize : Nat
  DumpBlockSize : Nat
  FillBlockSize : Nat
  Filename : String
  IoBuf : Nat → Nat

/-- Whole state: application objects, byte-addressed physical memory, the file store with
the single open handle (`openFile`, `pos`), and the trace of platform calls. -/
structure World where
  Memory : MEMORY_Class_t
  MemFile : MEM_FILE_Class_t
  mem : Nat → Nat
  fs : String → List Nat
  openFile : String
  pos : Nat
  trace : List Ev

/-- Append one entry to the trace. -/
def World.log (w : World) (e : Ev) : World :=
  { w with trace := e :: w.trace }

/-- Model of `CFE_EVS_SendEvent`: the event id, severity and numeric arguments are recorded. -/
def CFE_EVS_SendEvent (eid : String) (sev : EventType) (args : List Nat) (w : World) : World :=
  w.log (Ev.SendEvent eid sev args)

/-- Does the entry invoke a primitive that writes target memory? -/
def Ev.isMemWrite : Ev → Bool
  | Ev.MemWrite _ _ _ => true
  | Ev.EepromWrite _ _ _ => true
  | Ev.MemCpyToMem _ _ => true
  | Ev.MemSet _ _ _ => true
  | _ => false

/-- Does the entry write target memory or enter `MEMORY_VerifyAddr`? -/
def Ev.isLoadAction : Ev → Bool
  | Ev.call AppFn.MEMORY_VerifyAddr => true
  | e => e.isMemWrite

/-- Is the entry a file write of payload or secondary header bytes (`OS_write`)? -/
def Ev.isFileWrite : Ev → Bool
  | Ev.Write _ _ => true
  | _ => false

/-- Is the entry a read of target memory? -/
def Ev.isMemRead : Ev → Bool
  | Ev.MemRead _ _ => true
  | Ev.MemCpyFromMem _ _ => true
  | _ => false

/-- Is the entry a call of the EEPROM write primitive? -/
def Ev.isEepromWrite : Ev → Bool
  | Ev.EepromWrite _ _ _ => true
  | _ => false

/-- Is the entry a call of the platform range validation? -/
def Ev.isRangeCheck : Ev → Bool
  | Ev.MemValidateRange _ _ _ => true
  | _ => false

/-! ## Byte-level helpers -/

/-- Size of `MemFile->IoBuf` (app_cfg.h). -/
def MEM_FILE_IO_BLOCK_SIZE : Nat := 2048

/-- Little-endian value of the `n` bytes of `m` that start at `a`. -/
def loadLE (m : Nat → Nat) (a : Nat) : Nat → Nat
  | 0 => 0
  | n + 1 => m a + 256 * loadLE m (a + 1) n

/-- Store the `n` low bytes of `v`, little-endian, at `a`. -/
def storeLE (m : Nat → Nat) (a : Nat) : Nat → Nat → Nat → Nat
  | 0, _ => m
  | n + 1, v => storeLE (fun x => if x = a then v % 256 else m x) (a + 1) n (v / 256)

/-- Big-endian value of the `n` bytes of `m` that start at `a`. -/
def loadBE (m : Nat → Nat) (a : Nat) : Nat → Nat
  | 0 => 0
  | n + 1 => m a * 256 ^ n + loadBE m (a + 1) n

/-- Store the `n` low bytes of `v`, big-endian, at `a`. -/
def storeBE (m : Nat → Nat) (a : Nat) : Nat → Nat → Nat → Nat
  | 0, _ => m
  | n + 1, v => storeBE (fun x => if x = a then v / 256 ^ n % 256 else m x) (a + 1) n v

/-- Value of the object of `n` bytes at `a` in the byte order `bigEndian` of the CPU. -/
def loadObj (bigEndian : Bool) (m : Nat → Nat) (a n : Nat) : Nat :=
  if bigEndian then loadBE m a n else loadLE m a n

/-- Store `v` in the object of `n` bytes at `a` in the byte order `bigEndian` of the CPU. -/
def storeObj (bigEndian : Bool) (m : Nat → Nat) (a n v : Nat) : Nat → Nat :=
  if bigEndian then storeBE m a n v else storeLE m a n v

/-- Value of an `int32` that is assigned the unsigned value `n` of a wider type: the low 32
bits, read as two's complement. -/
def toInt32 (n : Nat) : Int :=
  if n % 2 ^ 32 < 2 ^ 31 then ((n % 2 ^ 32 : Nat) : Int) else ((n % 2 ^ 32 : Nat) : Int) - 2 ^ 32

/-- Value of an `int32` converted to `size_t` for a comparison with a `size_t`, for a
`size_t` of at least 32 bits: the value modulo 2 ^ `sizeBits`. -/
def toSizeT (P : Platform) (i : Int) : Nat :=
  (i % ((2 ^ P.sizeBits : Nat) : Int)).toNat

/-- The `n` bytes of `m` that start at `a`, in address order. -/
def bytesAt (m : Nat → Nat) (a n : Nat) : List Nat :=
  (List.range n).map (fun i => m (a + i))

/-- Copy the list `bs` into `m` starting at `a`. -/
def storeBytes (m : Nat → Nat) (a : Nat) (bs : List Nat) : Nat → Nat :=
  fun x => if a ≤ x ∧ x < a + bs.length then bs.getD (x - a) 0 else m x

/-- Model of `MEM_MGR_strnlen` (app_cfg.h) on a character array; positions beyond the
end of the list read as NUL. -/
def MEM_MGR_strnlen (s : List Nat) (maxlen : Nat) : Nat :=
  min (s.takeWhile (fun c => c != 0)).length maxlen

/-! ## PSP memory primitives -/

/-- Model of `CFE_PSP_MemRead8/16/32` (`bytes` = 1, 2, 4): on success the value stored at
`addr`, on a fault nothing. -/
def CFE_PSP_MemRead (P : Platform) (bytes addr : Nat) (w : World) : Option Nat × World :=
  if P.memReadOk w.trace bytes addr then
    (some (loadLE w.mem addr bytes), w.log (Ev.MemRead bytes addr))
  else
    (none, w.log (Ev.MemRead bytes addr))

/-- Model of `CFE_PSP_MemWrite8/16/32`: on success the value is stored at `addr`. -/
def CFE_PSP_MemWrite (P : Platform) (bytes addr val : Nat) (w : World) : Bool × World :=
  if P.memWriteOk w.trace bytes addr then
    (true, { w.log (Ev.MemWrite bytes addr val) with mem := storeLE w.mem addr bytes val })
  else
    (false, w.log (Ev.MemWrite bytes addr val))

/-- Model of `CFE_PSP_EepromWrite8/16/32`: on success the value is stored at `addr`. -/
def CFE_PSP_EepromWrite (P : Platform) (bytes addr val : Nat) (w : World) : Bool × World :=
  if P.eepromWriteOk w.trace bytes addr then
    (true, { w.log (Ev.EepromWrite bytes addr val) with mem := storeLE w.mem addr bytes val })
  else
    (false, w.log (Ev.EepromWrite bytes addr val))

/-- Model of `CFE_PSP_MemSet`: on success `n` bytes at `dest` hold `val`. -/
def CFE_PSP_MemSet (P : Platform) (dest val n : Nat) (w : World) : Bool × World :=
  if P.memSetOk w.trace then
    (true, { w.log (Ev.MemSet dest val n) with
             mem := storeBytes w.mem dest (List.replicate n (val % 256)) })
  else
    (false, w.log (Ev.MemSet dest val n))

/-- Model of `CFE_PSP_EepromWriteEnable`. -/
def CFE_PSP_EepromWriteEnable (P : Platform) (Bank : Nat) (w : World) : Bool × World :=
  (P.eepromWriteEnableOk w.trace Bank, w.log (Ev.EepromWriteEnable Bank))

/-- Model of `CFE_PSP_EepromWriteDisable`. -/
def CFE_PSP_EepromWriteDisable (P : Platform) (Bank : Nat) (w : World) : Bool × World :=
  (P.eepromWriteDisableOk w.trace Bank, w.log (Ev.EepromWriteDisable Bank))

/-- Model of `CFE_PSP_MemCpy` from target memory into a program buffer: on success the
`n` bytes at `src`. -/
def CFE_PSP_MemCpy_FromMem (P : Platform) (src n : Nat) (w : World) : Option (List Nat) × World :=
  if P.memCpyOk w.trace then
    (some (bytesAt w.mem src n), w.log (Ev.MemCpyFromMem src n))
  else
    (none, w.log (Ev.MemCpyFromMem src n))

/-- Model of `CFE_PSP_MemCpy` from a program buffer into target memory. -/
def CFE_PSP_MemCpy_ToMem (P : Platform) (dest : Nat) (data : List Nat) (w : World) : Bool × World :=
  if P.memCpyOk w.trace then
    (true, { w.log (Ev.MemCpyToMem dest data.length) with mem := storeBytes w.mem dest data })
  else
    (false, w.log (Ev.MemCpyToMem dest data.length))

/-- Model of `CFE_PSP_MemValidateRange`. -/
def CFE_PSP_MemValidateRange (P : Platform) (addr n : Nat) (t : PspMemType) (w : World) :
    Bool × World :=
  (P.memValidateRange w.trace addr n t, w.log (Ev.MemValidateRange addr n t))

/-- Model of `OS_SymbolLookup` on the NUL-terminated name. -/
def OS_SymbolLookup (P : Platform) (name : List Nat) (w : World) : Option Nat × World :=
  (P.symbolLookup w.trace name, w.log (Ev.SymbolLookup name))

/-! ## mem_size8.c, mem_size16.c, mem_size32.c: block read and write, address check

The three files have the same loops; the shared loop takes the element size in bytes and
the event id of the width. -/

/-- Loop of `MEM_SIZEn_ReadBlock`: `n` elements left, `i` the loop index, `Dest` the
destination buffer and `DestOff` the byte offset of `DestAddr` in it. -/
def ReadBlockLoop (P : Platform) (bytes : Nat) (eid : String) :
    Nat → Nat → Nat → (Nat → Nat) → Nat → World → Bool × (Nat → Nat) × World
  | 0, _, _, Dest, _, w => (true, Dest, w)
  | n + 1, i, MemAddr, Dest, DestOff, w =>
    match CFE_PSP_MemRead P bytes MemAddr w with
    | (some v, w1) =>
      ReadBlockLoop P bytes eid n (i + 1) (MemAddr + bytes) (storeLE Dest DestOff bytes v)
        (DestOff + bytes) w1
    | (none, w1) => (false, Dest, CFE_EVS_SendEvent eid EventType.ERROR [MemAddr, i] w1)

/-- Loop of `MEM_SIZEn_WriteBlock`: `Src` is the source buffer and `SrcOff` the byte
offset of `SrcAddr` in it. -/
def WriteBlockLoop (P : Platform) (bytes : Nat) (eid : String) :
    Nat → Nat → Nat → (Nat → Nat) → Nat → World → Bool × World
  | 0, _, _, _, _, w => (true, w)
  | n + 1, i, MemAddr, Src, SrcOff, w =>
    match CFE_PSP_MemWrite P bytes MemAddr (loadLE Src SrcOff bytes) w with
    | (true, w1) => WriteBlockLoop P bytes eid n (i + 1) (MemAddr + bytes) Src (SrcOff + bytes) w1
    | (false, w1) => (false, CFE_EVS_SendEvent eid EventType.ERROR [MemAddr, i] w1)

/-- Model of `MEM_SIZE8_ReadBlock`: status, destination buffer and state. -/
def MEM_SIZE8_ReadBlock (P : Platform) (MemAddr : Nat) (Dest : Nat → Nat) (ByteCnt : Nat)
    (w : World) : Bool × (Nat → Nat) × World :=
  if P.INCL_MEM_SIZE8 then
    ReadBlockLoop P 1 "MEM_SIZE8_READ_BLOCK_EID" ByteCnt 0 MemAddr Dest 0 w
  else
    (false, Dest, CFE_EVS_SendEvent "MEM_SIZE8_OPT_INCL_EID" EventType.ERROR [] w)

/-- Model of `MEM_SIZE16_ReadBlock`; `ByteCnt` counts 16-bit elements, as in the source. -/
def MEM_SIZE16_ReadBlock (P : Platform) (MemAddr : Nat) (Dest : Nat → Nat) (ByteCnt : Nat)
    (w : World) : Bool × (Nat → Nat) × World :=
  if P.INCL_MEM_SIZE16 then
    ReadBlockLoop P 2 "MEM_SIZE16_READ_BLOCK_EID" ByteCnt 0 MemAddr Dest 0 w
  else
    (false, Dest, CFE_EVS_SendEvent "MEM_SIZE16_OPT_INCL_EID" EventType.ERROR [] w)

/-- Model of `MEM_SIZE32_ReadBlock`; `ByteCnt` counts 32-bit elements, as in the source. -/
def MEM_SIZE32_ReadBlock (P : Platform) (MemAddr : Nat) (Dest : Nat → Nat) (ByteCnt : Nat)
    (w : World) : Bool × (Nat → Nat) × World :=
  if P.INCL_MEM_SIZE32 then
    ReadBlockLoop P 4 "MEM_SIZE32_READ_BLOCK_EID" ByteCnt 0 MemAddr Dest 0 w
  else
    (false, Dest, CFE_EVS_SendEvent "MEM_SIZE32_OPT_INCL_EID" EventType.ERROR [] w)

/-- Model of `MEM_SIZE8_WriteBlock`. -/
def MEM_SIZE8_WriteBlock (P : Platform) (MemAddr : Nat) (Src : Nat → Nat) (ByteCnt : Nat)
    (w : World) : Bool × World :=
  if P.INCL_MEM_SIZE8 then
    WriteBlockLoop P 1 "MEM_SIZE8_WRITE_BLOCK_EID" ByteCnt 0 MemAddr Src 0 w
  else
    (false, CFE_EVS_SendEvent "MEM_SIZE8_OPT_INCL_EID" EventType.ERROR [] w)

/-- Model of `MEM_SIZE16_WriteBlock`; `ByteCnt` counts 16-bit elements, as in the source. -/
def MEM_SIZE16_WriteBlock (P : Platform) (MemAddr : Nat) (Src : Nat → Nat) (ByteCnt : Nat)
    (w : World) : Bool × World :=
  if P.INCL_MEM_SIZE16 then
    WriteBlockLoop P 2 "MEM_SIZE16_WRITE_BLOCK_EID" ByteCnt 0 MemAddr Src 0 w
  else
    (false, CFE_EVS_SendEvent "MEM_SIZE16_OPT_INCL_EID" EventType.ERROR [] w)

/-- The 32-bit block write reports its fault under `MEM_SIZE32_READ_BLOCK_EID`, as the source does. -/
def MEM_SIZE32_WriteBlock (P : Platform) (MemAddr : Nat) (Src : Nat → Nat) (ByteCnt : Nat)
    (w : World) : Bool × World :=
  if P.INCL_MEM_SIZE32 then
    WriteBlockLoop P 4 "MEM_SIZE32_READ_BLOCK_EID" ByteCnt 0 MemAddr Src 0 w
  else
    (false, CFE_EVS_SendEvent "MEM_SIZE32_OPT_INCL_EID" EventType.ERROR [] w)

/-- Loop of `MEM_SIZEn_FillBlock`: `n` elements left, `i` the loop index. -/
def FillBlockLoop (P : Platform) (bytes : Nat) (eid : String) :
    Nat → Nat → Nat → Nat → World → Bool × World
  | 0, _, _, _, w => (true, w)
  | n + 1, i, MemAddr, FillData, w =>
    match CFE_PSP_MemWrite P bytes MemAddr FillData w with
    | (true, w1) => FillBlockLoop P bytes eid n (i + 1) (MemAddr + bytes) FillData w1
    | (false, w1) => (false, CFE_EVS_SendEvent eid EventType.ERROR [MemAddr, i] w1)

/-- Model of `MEM_SIZE8_FillBlock`. -/
def MEM_SIZE8_FillBlock (P : Platform) (MemAddr FillData ByteCnt : Nat) (w : World) :
    Bool × World :=
  if P.INCL_MEM_SIZE8 then
    FillBlockLoop P 1 "MEM_SIZE8_FILL_BLOCK_EID" ByteCnt 0 MemAddr FillData w
  else
    (false, CFE_EVS_SendEvent "MEM_SIZE8_OPT_INCL_EID" EventType.ERROR [] w)

/-- Model of `MEM_SIZE16_FillBlock`; `ByteCnt` counts 16-bit elements, and a fault is
reported under `MEM_SIZE16_READ_BLOCK_EID`, as in the source. -/
def MEM_SIZE16_FillBlock (P : Platform) (MemAddr FillData ByteCnt : Nat) (w : World) :
    Bool × World :=
  if P.INCL_MEM_SIZE16 then
    FillBlockLoop P 2 "MEM_SIZE16_READ_BLOCK_EID" ByteCnt 0 MemAddr FillData w
  else
    (false, CFE_EVS_SendEvent "MEM_SIZE16_OPT_INCL_EID" EventType.ERROR [] w)

/-- Model of `MEM_SIZE32_FillBlock`; `ByteCnt` counts 32-bit elements, and a fault is
reported under `MEM_SIZE32_READ_BLOCK_EID`, as in the source. -/
def MEM_SIZE32_FillBlock (P : Platform) (MemAddr FillData ByteCnt : Nat) (w : World) :
    Bool × World :=
  if P.INCL_MEM_SIZE32 then
    FillBlockLoop P 4 "MEM_SIZE32_READ_BLOCK_EID" ByteCnt 0 MemAddr FillData w
  else
    (false, CFE_EVS_SendEvent "MEM_SIZE32_OPT_INCL_EID" EventType.ERROR [] w)

/-- Model of `MEM_SIZE8_Peek`.  `Data` holds the bytes of the object that the C parameter
`Data` points to, from its first byte on; the value read is stored there as an object of
the element type, in the byte order of the CPU; a fault leaves it unchanged. -/
def MEM_SIZE8_Peek (P : Platform) (MemAddr : Nat) (Data : Nat → Nat) (w : World) :
    Bool × (Nat → Nat) × World :=
  if P.INCL_MEM_SIZE8 then
    match CFE_PSP_MemRead P 1 MemAddr w with
    | (some v, w1) => (true, storeObj P.bigEndian Data 0 1 v, w1)
    | (none, w1) => (false, Data, CFE_EVS_SendEvent "MEM_SIZE8_PEEK_EID" EventType.ERROR [MemAddr] w1)
  else
    (false, Data, CFE_EVS_SendEvent "MEM_SIZE8_OPT_INCL_EID" EventType.ERROR [] w)

/-- Model of `MEM_SIZE16_Peek`; a fault stores 0 in `*Data`. -/
def MEM_SIZE16_Peek (P : Platform) (MemAddr : Nat) (Data : Nat → Nat) (w : World) :
    Bool × (Nat → Nat) × World :=
  if P.INCL_MEM_SIZE16 then
    match CFE_PSP_MemRead P 2 MemAddr w with
    | (some v, w1) => (true, storeObj P.bigEndian Data 0 2 v, w1)
    | (none, w1) =>
      (false, storeObj P.bigEndian Data 0 2 0,
        CFE_EVS_SendEvent "MEM_SIZE16_PEEK_EID" EventType.ERROR [MemAddr] w1)
  else
    (false, Data, CFE_EVS_SendEvent "MEM_SIZE16_OPT_INCL_EID" EventType.ERROR [] w)

/-- Model of `MEM_SIZE32_Peek`; a fault stores 0 in `*Data`. -/
def MEM_SIZE32_Peek (P : Platform) (MemAddr : Nat) (Data : Nat → Nat) (w : World) :
    Bool × (Nat → Nat) × World :=
  if P.INCL_MEM_SIZE32 then
    match CFE_PSP_MemRead P 4 MemAddr w with
    | (some v, w1) => (true, storeObj P.bigEndian Data 0 4 v, w1)
    | (none, w1) =>
      (false, storeObj P.bigEndian Data 0 4 0,
        CFE_EVS_SendEvent "MEM_SIZE32_PEEK_EID" EventType.ERROR [MemAddr] w1)
  else
    (false, Data, CFE_EVS_SendEvent "MEM_SIZE32_OPT_INCL_EID" EventType.ERROR [] w)

/-- Body shared by `MEM_SIZE8_Poke`, `MEM_SIZE16_Poke` and `MEM_SIZE32_Poke`: the
`switch (MemType)` selects the write primitive, then the status is tested.  The C local
`PspStatus` is not initialised and the `default` case leaves it alone: `PspStatus` is
whether that value equals `CFE_PSP_SUCCESS`. -/
def PokeElement (P : Platform) (bytes : Nat) (eid : String) (MemAddr : Nat)
    (MemType : MEM_MGR_MemType_Enum_t) (Data : Nat) (PspStatus : Bool) (w : World) :
    Bool × World :=
  let r := match MemType with
    | MEM_MGR_MemType_Enum_t.MemType_NONVOL => CFE_PSP_EepromWrite P bytes MemAddr Data w
    | MEM_MGR_MemType_Enum_t.MemType_RAM => CFE_PSP_MemWrite P bytes MemAddr Data w
    | _ => (PspStatus, w)
  match r with
  | (true, w1) => (true, w1)
  | (false, w1) => (false, CFE_EVS_SendEvent eid EventType.ERROR [MemAddr] w1)

/-- Model of `MEM_SIZE8_Poke`. -/
def MEM_SIZE8_Poke (P : Platform) (MemAddr : Nat) (MemType : MEM_MGR_MemType_Enum_t)
    (Data : Nat) (PspStatus : Bool) (w : World) : Bool × World :=
  if P.INCL_MEM_SIZE8 then
    PokeElement P 1 "MEM_SIZE8_POKE_EID" MemAddr MemType Data PspStatus w
  else
    (false, CFE_EVS_SendEvent "MEM_SIZE8_OPT_INCL_EID" EventType.ERROR [] w)

/-- Model of `MEM_SIZE16_Poke`. -/
def MEM_SIZE16_Poke (P : Platform) (MemAddr : Nat) (MemType : MEM_MGR_MemType_Enum_t)
    (Data : Nat) (PspStatus : Bool) (w : World) : Bool × World :=
  if P.INCL_MEM_SIZE16 then
    PokeElement P 2 "MEM_SIZE16_POKE_EID" MemAddr MemType Data PspStatus w
  else
    (false, CFE_EVS_SendEvent "MEM_SIZE16_OPT_INCL_EID" EventType.ERROR [] w)

/-- Model of `MEM_SIZE32_Poke`. -/
def MEM_SIZE32_Poke (P : Platform) (MemAddr : Nat) (MemType : MEM_MGR_MemType_Enum_t)
    (Data : Nat) (PspStatus : Bool) (w : World) : Bool × World :=
  if P.INCL_MEM_SIZE32 then
    PokeElement P 4 "MEM_SIZE32_POKE_EID" MemAddr MemType Data PspStatus w
  else
    (false, CFE_EVS_SendEvent "MEM_SIZE32_OPT_INCL_EID" EventType.ERROR [] w)

/-- Model of `MEM_SIZE8_VerifyCpuAddr`: the PSP range validation only. -/
def MEM_SIZE8_VerifyCpuAddr (P : Platform) (MemAddr : Nat) (PspMemType_ : PspMemType)
    (ByteCnt : Nat) (w : World) : Bool × World :=
  if P.INCL_MEM_SIZE8 then
    match CFE_PSP_MemValidateRange P MemAddr ByteCnt PspMemType_ w with
    | (true, w1) => (true, w1)
    | (false, w1) =>
      (false, CFE_EVS_SendEvent "MEM_SIZE8_VER_CPU_ADDR_EID" EventType.ERROR [MemAddr] w1)
  else
    (false, CFE_EVS_SendEvent "MEM_SIZE8_OPT_INCL_EID" EventType.ERROR [] w)

/-- Body shared by `MEM_SIZE16_VerifyCpuAddr` and `MEM_SIZE32_VerifyCpuAddr`: alignment to
`bytes`, then the PSP range validation. -/
def VerifyAlignedCpuAddr (P : Platform) (bytes : Nat) (eid : String) (MemAddr : Nat)
    (PspMemType_ : PspMemType) (ByteCnt : Nat) (w : World) : Bool × World :=
  if MemAddr % bytes = 0 then
    match CFE_PSP_MemValidateRange P MemAddr ByteCnt PspMemType_ w with
    | (true, w1) => (true, w1)
    | (false, w1) => (false, CFE_EVS_SendEvent eid EventType.ERROR [MemAddr] w1)
  else
    (false, CFE_EVS_SendEvent eid EventType.ERROR [MemAddr] w)

/-- Model of `MEM_SIZE16_VerifyCpuAddr`. -/
def MEM_SIZE16_VerifyCpuAddr (P : Platform) (MemAddr : Nat) (PspMemType_ : PspMemType)
    (ByteCnt : Nat) (w : World) : Bool × World :=
  if P.INCL_MEM_SIZE16 then
    VerifyAlignedCpuAddr P 2 "MEM_SIZE16_VER_CPU_ADDR_EID" MemAddr PspMemType_ ByteCnt w
  else
    (false, CFE_EVS_SendEvent "MEM_SIZE16_OPT_INCL_EID" EventType.ERROR [] w)

/-- Model of `MEM_SIZE32_VerifyCpuAddr`. -/
def MEM_SIZE32_VerifyCpuAddr (P : Platform) (MemAddr : Nat) (PspMemType_ : PspMemType)
    (ByteCnt : Nat) (w : World) : Bool × World :=
  if P.INCL_MEM_SIZE32 then
    VerifyAlignedCpuAddr P 4 "MEM_SIZE32_VER_CPU_ADDR_EID" MemAddr PspMemType_ ByteCnt w
  else
    (false, CFE_EVS_SendEvent "MEM_SIZE32_OPT_INCL_EID" EventType.ERROR [] w)

/-! ## memory.c -/

/-- Label of non-volatile memory in event texts. -/
def MEM_TYPE_EEPROM : String := "EEPROM"

/-- Label of RAM in event texts. -/
def MEM_TYPE_RAM : String := "RAM"

/-- Label of an undefined memory type. -/
def MEM_TYPE_UNDEF : String := "UNDEF"

/-- Model of `CreateCpuAddr`: `CpuAddr` is the value of the output word on entry. -/
def CreateCpuAddr (P : Platform) (SymbolAddr : MEM_MGR_SymbolAddr_t) (CpuAddr : Nat) (w : World) :
    Bool × Nat × World :=
  let Name := SymbolAddr.Name.set (P.MEM_MGR_MAX_SYM_LEN - 1) 0
  if MEM_MGR_strnlen Name P.MEM_MGR_MAX_SYM_LEN = 0 then
    (true, SymbolAddr.Offset, w)
  else
    match OS_SymbolLookup P (Name.takeWhile (fun c => c != 0)) w with
    | (some a, w1) => (true, (a + SymbolAddr.Offset) % 2 ^ P.addrBits, w1)
    | (none, w1) =>
      (false, CpuAddr, CFE_EVS_SendEvent "MEMORY_CREATE_CPU_ADDR_EID" EventType.ERROR [] w1)

/-- Model of `GetPspMemType`: status, PSP memory type and type label. -/
def GetPspMemType (MemType : MEM_MGR_MemType_Enum_t) (w : World) :
    Bool × PspMemType × String × World :=
  match MemType with
  | MEM_MGR_MemType_Enum_t.MemType_NONVOL =>
    (true, PspMemType.CFE_PSP_MEM_EEPROM, MEM_TYPE_EEPROM, w)
  | MEM_MGR_MemType_Enum_t.MemType_RAM =>
    (true, PspMemType.CFE_PSP_MEM_RAM, MEM_TYPE_RAM, w)
  | _ =>
    (false, PspMemType.CFE_PSP_MEM_INVALID, MEM_TYPE_UNDEF,
      CFE_EVS_SendEvent "MEMORY_GET_PSP_MEM_TYPE_EID" EventType.ERROR [] w)

/-- Model of the static `VerifyCpuAddr` dispatcher of memory.c. -/
def VerifyCpuAddr (P : Platform) (CpuAddr : Nat) (PspMemType_ : PspMemType)
    (MemSize : MEM_MGR_MemSize_Enum_t) (ByteCnt : Nat) (w : World) : Bool × World :=
  match MemSize with
  | MEM_MGR_MemSize_Enum_t.MemSize_8 => MEM_SIZE8_VerifyCpuAddr P CpuAddr PspMemType_ ByteCnt w
  | MEM_MGR_MemSize_Enum_t.MemSize_16 => MEM_SIZE16_VerifyCpuAddr P CpuAddr PspMemType_ ByteCnt w
  | MEM_MGR_MemSize_Enum_t.MemSize_32 => MEM_SIZE32_VerifyCpuAddr P CpuAddr PspMemType_ ByteCnt w
  | _ => (false, w)

/-- Model of `MEMORY_VerifyAddr`; the entry is marked in the trace. -/
def MEMORY_VerifyAddr (P : Platform) (SymbolAddr : MEM_MGR_SymbolAddr_t)
    (MemType : MEM_MGR_MemType_Enum_t) (MemSize : MEM_MGR_MemSize_Enum_t) (ByteCnt : Nat)
    (w : World) : Bool × MEMORY_VerifiedMemory_t × World :=
  let w0 := w.log (Ev.call AppFn.MEMORY_VerifyAddr)
  match CreateCpuAddr P SymbolAddr 0 w0 with
  | (true, CpuAddr, w1) =>
    match GetPspMemType MemType w1 with
    | (true, PspMemType_, TypeStr, w2) =>
      match VerifyCpuAddr P CpuAddr PspMemType_ MemSize ByteCnt w2 with
      | (RetStatus, w3) => (RetStatus, { CpuAddr := CpuAddr, TypeStr := TypeStr }, w3)
    | (false, _, TypeStr, w2) => (false, { CpuAddr := CpuAddr, TypeStr := TypeStr }, w2)
  | (false, CpuAddr, w1) => (false, { CpuAddr := CpuAddr, TypeStr := MEM_TYPE_UNDEF }, w1)

/-- Model of `MEMORY_SetCmdStatus`. -/
def MEMORY_SetCmdStatus (CmdStatus : MEMORY_CmdStatus_t) (w : World) : World :=
  { w with Memory := { w.Memory with CmdStatus := CmdStatus } }

/-- The `ByteCnt` bytes of the command data array that the CRC and the copy read. -/
def cmdDataBytes (Data : List Nat) (ByteCnt : Nat) : List Nat :=
  (List.range ByteCnt).map (fun i => Data.getD i 0)

/-- Model of `CFE_ES_CalculateCRC`. -/
def CFE_ES_CalculateCRC (P : Platform) (data : List Nat) (InputCRC CrcType : Nat) (w : World) :
    Nat × World :=
  (P.CFE_ES_CalculateCRC data InputCRC CrcType, w.log (Ev.CalculateCRC data.length))

/-- Model of `MEMORY_LoadWithIntDisCmd`.  `RetStatus` is the C local: it is assigned by
`MEMORY_VerifyAddr` and again only where the copy succeeds. -/
def MEMORY_LoadWithIntDisCmd (P : Platform) (Cmd : MEM_MGR_LoadWithIntDis_CmdPayload_t)
    (w : World) : Bool × World :=
  match MEMORY_VerifyAddr P Cmd.SymbolAddr Cmd.MemType Cmd.MemSize Cmd.ByteCnt w with
  | (RetStatus, VerifiedMemory, w1) =>
    if RetStatus = true then
      match CFE_ES_CalculateCRC P (cmdDataBytes Cmd.Data Cmd.ByteCnt) 0 Cmd.CrcType w1 with
      | (ComputedCRC, w2) =>
        if ComputedCRC = Cmd.Crc then
          match CFE_PSP_MemCpy_ToMem P VerifiedMemory.CpuAddr
              (cmdDataBytes Cmd.Data Cmd.ByteCnt) w2 with
          | (true, w3) =>
            let w4 : World := { w3 with Memory := { w3.Memory with CmdStatus :=
              { Function := MEM_MGR_MemFunction_Enum_t.LOAD_INT_DIS
                Type_ := Cmd.MemType
                Size := Cmd.MemSize
                Addr := VerifiedMemory.CpuAddr
                Data := 0
                ByteCnt := Cmd.ByteCnt } } }
            (true, CFE_EVS_SendEvent "MEMORY_LOAD_INT_DIS_EID" EventType.INFORMATION
              [Cmd.ByteCnt, VerifiedMemory.CpuAddr] w4)
          | (false, w3) =>
            (RetStatus, CFE_EVS_SendEvent "MEMORY_LOAD_INT_DIS_EID" EventType.ERROR
              [VerifiedMemory.CpuAddr] w3)
        else
          (RetStatus, CFE_EVS_SendEvent "MEMORY_LOAD_INT_DIS_EID" EventType.ERROR
            [Cmd.Crc, ComputedCRC] w2)
    else
      (RetStatus, w1)

/-- Model of the static `FillMemBlock` dispatcher; the casts of `FillData` to the width
are the remainders. -/
def FillMemBlock (P : Platform) (DestAddr : Nat) (MemSize : MEM_MGR_MemSize_Enum_t)
    (FillData ByteCnt : Nat) (w : World) : Bool × World :=
  match MemSize with
  | MEM_MGR_MemSize_Enum_t.MemSize_8 =>
    MEM_SIZE8_FillBlock P DestAddr (FillData % 256) ByteCnt w
  | MEM_MGR_MemSize_Enum_t.MemSize_16 =>
    MEM_SIZE16_FillBlock P DestAddr (FillData % 65536) (ByteCnt / 2) w
  | MEM_MGR_MemSize_Enum_t.MemSize_32 =>
    MEM_SIZE32_FillBlock P DestAddr FillData (ByteCnt / 4) w
  | MEM_MGR_MemSize_Enum_t.MemSize_VOID =>
    CFE_PSP_MemSet P DestAddr (FillData % 256) ByteCnt w
  | _ => (false, w)

/-- Model of the static `Poke` dispatcher.  On success the command status is recorded with
the function `MEM_MGR_MemFunction_PEEK` and the event is sent under `MEMORY_PEEK_CMD_EID`,
as in the source.  `PspStatus` stands for the uninitialised local of the width function. -/
def Poke (P : Platform) (CpuAddr : Nat) (MemType : MEM_MGR_MemType_Enum_t)
    (MemSize : MEM_MGR_MemSize_Enum_t) (Data : Nat) (PspStatus : Bool) (w : World) :
    Bool × World :=
  let r : Nat × Bool × World := match MemSize with
    | MEM_MGR_MemSize_Enum_t.MemSize_8 =>
      (1, MEM_SIZE8_Poke P CpuAddr MemType (Data % 256) PspStatus w)
    | MEM_MGR_MemSize_Enum_t.MemSize_16 =>
      (2, MEM_SIZE16_Poke P CpuAddr MemType (Data % 65536) PspStatus w)
    | MEM_MGR_MemSize_Enum_t.MemSize_32 =>
      (4, MEM_SIZE32_Poke P CpuAddr MemType Data PspStatus w)
    | _ => (0, false, w)
  match r with
  | (ByteCnt, true, w1) =>
    let w2 : World := { w1 with Memory := { w1.Memory with CmdStatus :=
      { Function := MEM_MGR_MemFunction_Enum_t.PEEK
        Type_ := MemType
        Size := MemSize
        Addr := CpuAddr
        Data := Data
        ByteCnt := ByteCnt } } }
    (true, CFE_EVS_SendEvent "MEMORY_PEEK_CMD_EID" EventType.INFORMATION
      [CpuAddr, ByteCnt, Data] w2)
  | (_, false, w1) => (false, w1)

/-- Model of `MEMORY_DisEepromWriteCmd`. -/
def MEMORY_DisEepromWriteCmd (P : Platform) (Cmd : MEM_MGR_DisEepromWrite_CmdPayload_t)
    (w : World) : Bool × World :=
  match CFE_PSP_EepromWriteDisable P Cmd.Bank w with
  | (true, w1) =>
    let w2 : World := { w1 with Memory := { w1.Memory with EepromWriteEna := false } }
    (true, CFE_EVS_SendEvent "MEMORY_DIS_EEPROM_WRITE_EID" EventType.INFORMATION [Cmd.Bank] w2)
  | (false, w1) =>
    (false, CFE_EVS_SendEvent "MEMORY_DIS_EEPROM_WRITE_EID" EventType.ERROR [Cmd.Bank] w1)

/-- Model of `MEMORY_EnaEepromWriteCmd`. -/
def MEMORY_EnaEepromWriteCmd (P : Platform) (Cmd : MEM_MGR_EnaEepromWrite_CmdPayload_t)
    (w : World) : Bool × World :=
  match CFE_PSP_EepromWriteEnable P Cmd.Bank w with
  | (true, w1) =>
    let w2 : World := { w1 with Memory := { w1.Memory with EepromWriteEna := true } }
    (true, CFE_EVS_SendEvent "MEMORY_ENA_EEPROM_WRITE_EID" EventType.INFORMATION [Cmd.Bank] w2)
  | (false, w1) =>
    (false, CFE_EVS_SendEvent "MEMORY_ENA_EEPROM_WRITE_EID" EventType.ERROR [Cmd.Bank] w1)

/-- Model of `MEMORY_FillCmd`. -/
def MEMORY_FillCmd (P : Platform) (FillCmd : MEM_MGR_Fill_CmdPayload_t) (w : World) :
    Bool × World :=
  match MEMORY_VerifyAddr P FillCmd.SymbolAddr FillCmd.MemType FillCmd.MemSize FillCmd.ByteCnt
      w with
  | (true, VerifiedMemory, w1) =>
    match FillMemBlock P VerifiedMemory.CpuAddr FillCmd.MemSize FillCmd.Data FillCmd.ByteCnt
        w1 with
    | (true, w2) =>
      let w3 : World := { w2 with Memory := { w2.Memory with CmdStatus :=
        { Function := MEM_MGR_MemFunction_Enum_t.FILL
          Type_ := FillCmd.MemType
          Size := FillCmd.MemSize
          Addr := VerifiedMemory.CpuAddr
          Data := FillCmd.Data
          ByteCnt := FillCmd.ByteCnt } } }
      (true, CFE_EVS_SendEvent "MEMORY_FILL_CMD_EID" EventType.INFORMATION
        [FillCmd.ByteCnt, FillCmd.Data, VerifiedMemory.CpuAddr] w3)
    | (false, w2) => (false, w2)
  | (false, _, w1) => (false, w1)

/-- Model of `MEMORY_PokeCmd`: the numeric value of the width enumerator is the byte count
of the address verification, as in the source. -/
def MEMORY_PokeCmd (P : Platform) (PokeCmd : MEM_MGR_Poke_CmdPayload_t) (PspStatus : Bool)
    (w : World) : Bool × World :=
  match MEMORY_VerifyAddr P PokeCmd.SymbolAddr PokeCmd.MemType PokeCmd.MemSize
      (P.MemSizeValue PokeCmd.MemSize) w with
  | (true, VerifiedMemory, w1) =>
    match Poke P VerifiedMemory.CpuAddr PokeCmd.MemType PokeCmd.MemSize PokeCmd.Data PspStatus
        w1 with
    | (true, w2) => (true, w2)
    | (false, w2) =>
      (false, CFE_EVS_SendEvent "MEMORY_POKE_CMD_EID" EventType.ERROR [VerifiedMemory.CpuAddr] w2)
  | (false, _, w1) => (false, w1)

/-- Value of `MEMORY_DUMP_TOEVENT_MAX_BYTES` (app_cfg.h). -/
def MEMORY_DUMP_TOEVENT_MAX_BYTES (P : Platform) : Nat :=
  (P.CFE_MISSION_EVS_MAX_MESSAGE_LENGTH - (13 + 33)) / 5

/-- Value of `MEMORY_DUMP_TOEVENT_MAX_DWORDS` (app_cfg.h): the number of 32-bit words of
the array `DumpToEventBuf`. -/
def MEMORY_DUMP_TOEVENT_MAX_DWORDS (P : Platform) : Nat :=
  (MEMORY_DUMP_TOEVENT_MAX_BYTES P + 3) / 4

/-- Model of the static `Peek` dispatcher.  The local `uint32 Data = 0` is four zero bytes;
the width function receives the address of its first byte (`(uint8*)&Data`,
`(uint16*)&Data`, `&Data`) and stores an object of the element type there; the value of
`Data` afterwards is the value of the four bytes as one object, in the byte order of the
CPU. -/
def Peek (P : Platform) (CpuAddr : Nat) (MemType : MEM_MGR_MemType_Enum_t)
    (MemSize : MEM_MGR_MemSize_Enum_t) (w : World) : Bool × World :=
  let r : Nat × Bool × (Nat → Nat) × World := match MemSize with
    | MEM_MGR_MemSize_Enum_t.MemSize_8 => (1, MEM_SIZE8_Peek P CpuAddr (fun _ => 0) w)
    | MEM_MGR_MemSize_Enum_t.MemSize_16 => (2, MEM_SIZE16_Peek P CpuAddr (fun _ => 0) w)
    | MEM_MGR_MemSize_Enum_t.MemSize_32 => (4, MEM_SIZE32_Peek P CpuAddr (fun _ => 0) w)
    | _ => (0, false, fun _ => 0, w)
  match r with
  | (ByteCnt, true, Data, w1) =>
    let w2 : World := { w1 with Memory := { w1.Memory with CmdStatus :=
      { Function := MEM_MGR_MemFunction_Enum_t.PEEK
        Type_ := MemType
        Size := MemSize
        Addr := CpuAddr
        Data := loadObj P.bigEndian Data 0 4
        ByteCnt := ByteCnt } } }
    (true, CFE_EVS_SendEvent "MEMORY_PEEK_CMD_EID" EventType.INFORMATION
      [CpuAddr, ByteCnt, loadObj P.bigEndian Data 0 4] w2)
  | (_, false, _, w1) => (false, w1)

/-- Model of the static `ReadMemBlock` dispatcher: status, destination buffer and state. -/
def ReadMemBlock (P : Platform) (Dest : Nat → Nat) (SrcCpuAddr : Nat)
    (SrcMemSize : MEM_MGR_MemSize_Enum_t) (ByteCnt : Nat) (w : World) :
    Bool × (Nat → Nat) × World :=
  match SrcMemSize with
  | MEM_MGR_MemSize_Enum_t.MemSize_8 => MEM_SIZE8_ReadBlock P SrcCpuAddr Dest ByteCnt w
  | MEM_MGR_MemSize_Enum_t.MemSize_16 => MEM_SIZE16_ReadBlock P SrcCpuAddr Dest (ByteCnt / 2) w
  | MEM_MGR_MemSize_Enum_t.MemSize_32 => MEM_SIZE32_ReadBlock P SrcCpuAddr Dest (ByteCnt / 4) w
  | MEM_MGR_MemSize_Enum_t.MemSize_VOID =>
    match CFE_PSP_MemCpy_FromMem P SrcCpuAddr ByteCnt w with
    | (some bytes, w1) => (true, storeBytes Dest 0 bytes, w1)
    | (none, w1) => (false, Dest, w1)
  | _ => (false, Dest, w)

/-- Model of the static `SendDumpBufToEvent`.  The event text is built from the first
`ByteCnt` bytes of `DumpToEventBuf` and the address and is cut to the length of an event
text by the string functions; the event records the values the text is built from.
`RetStatus` is never assigned after its initialisation to false, as in the source. -/
def SendDumpBufToEvent (CpuAddr : Nat) (DumpToEventBuf : Nat → Nat) (ByteCnt : Nat)
    (w : World) : Bool × World :=
  (false, CFE_EVS_SendEvent "MEMORY_DUMP_TO_EVENT_EID" EventType.INFORMATION
    (bytesAt DumpToEventBuf 0 ByteCnt ++ [CpuAddr]) w)

/-- Model of `MEMORY_DumpToEventCmd`.  `DumpToEventBuf` holds the bytes of the static
array of `MEMORY_DUMP_TOEVENT_MAX_DWORDS` words on entry, followed by the bytes of the
objects behind it; the second component of the result is their content on return. -/
def MEMORY_DumpToEventCmd (P : Platform) (DumpToEventCmd : MEM_MGR_DumpToEvent_CmdPayload_t)
    (DumpToEventBuf : Nat → Nat) (w : World) : Bool × (Nat → Nat) × World :=
  match MEMORY_VerifyAddr P DumpToEventCmd.SymbolAddr DumpToEventCmd.MemType
      DumpToEventCmd.MemSize DumpToEventCmd.ByteCnt w with
  | (true, VerifiedMemory, w1) =>
    match ReadMemBlock P DumpToEventBuf VerifiedMemory.CpuAddr DumpToEventCmd.MemSize
        DumpToEventCmd.ByteCnt w1 with
    | (true, buf, w2) =>
      match SendDumpBufToEvent VerifiedMemory.CpuAddr buf DumpToEventCmd.ByteCnt w2 with
      | (true, w3) =>
        (true, buf, { w3 with Memory := { w3.Memory with CmdStatus :=
          { Function := MEM_MGR_MemFunction_Enum_t.DUMP_TO_EVENT
            Type_ := DumpToEventCmd.MemType
            Size := DumpToEventCmd.MemSize
            Addr := VerifiedMemory.CpuAddr
            Data := 0
            ByteCnt := DumpToEventCmd.ByteCnt } } })
      | (false, w3) => (false, buf, w3)
    | (false, buf, w2) => (false, buf, w2)
  | (false, _, w1) => (false, DumpToEventBuf, w1)

/-- Model of `MEMORY_PeekCmd`: the numeric value of the width enumerator is the byte count
of the address verification, as in the source. -/
def MEMORY_PeekCmd (P : Platform) (PeekCmd : MEM_MGR_Peek_CmdPayload_t) (w : World) :
    Bool × World :=
  match MEMORY_VerifyAddr P PeekCmd.SymbolAddr PeekCmd.MemType PeekCmd.MemSize
      (P.MemSizeValue PeekCmd.MemSize) w with
  | (true, VerifiedMemory, w1) =>
    match Peek P VerifiedMemory.CpuAddr PeekCmd.MemType PeekCmd.MemSize w1 with
    | (true, w2) => (true, w2)
    | (false, w2) =>
      (false, CFE_EVS_SendEvent "MEMORY_PEEK_CMD_EID" EventType.ERROR [VerifiedMemory.CpuAddr] w2)
  | (false, _, w1) => (false, w1)

/-! ## File provider (OSAL, cFE file services, application framework) -/

/-- Content of a file after `bs` is written at offset `pos`. -/
def writeAt (content : List Nat) (pos : Nat) (bs : List Nat) : List Nat :=
  content.take pos ++ List.replicate (pos - content.length) 0 ++ bs
    ++ content.drop (pos + bs.length)

/-- Number of bytes a read or write of `n` bytes transfers under an outcome, when
`avail` bytes can be transferred. -/
def IoOutcome.count (o : IoOutcome) (n avail : Nat) : Nat :=
  match o with
  | IoOutcome.full => min n avail
  | IoOutcome.short k => min k (min n avail)
  | IoOutcome.fail => 0

/-- Model of `OS_read` on the open handle: return value (negative on error) and the bytes
stored in the caller's buffer. -/
def OS_read (P : Platform) (n : Nat) (w : World) : Int × List Nat × World :=
  match P.readOutcome w.trace with
  | IoOutcome.fail => (-1, [], w.log (Ev.Read n (-1)))
  | o =>
    let k := o.count n ((w.fs w.openFile).length - w.pos)
    ((k : Int), ((w.fs w.openFile).drop w.pos).take k,
      { w.log (Ev.Read n k) with pos := w.pos + k })

/-- Model of `OS_write` of the bytes `data` on the open handle: return value (negative on
error). -/
def OS_write (P : Platform) (data : List Nat) (w : World) : Int × World :=
  match P.writeOutcome w.trace with
  | IoOutcome.fail => (-1, w.log (Ev.Write data (-1)))
  | o =>
    let k := o.count data.length data.length
    ((k : Int),
      { w.log (Ev.Write data k) with
        fs := fun f => if f = w.openFile then writeAt (w.fs w.openFile) w.pos (data.take k)
                       else w.fs f
        pos := w.pos + k })

/-- Model of `OS_lseek(FileHandle, off, OS_SEEK_SET)`: the new offset, negative on error. -/
def OS_lseek (P : Platform) (off : Nat) (w : World) : Int × World :=
  if P.lseekOk w.trace then
    ((off : Int), { w.log (Ev.Lseek off) with pos := off })
  else
    (-1, w.log (Ev.Lseek off))

/-- Model of `OS_stat`: on success the size of the named file, as `OS_FILESTAT_SIZE` gives
it: a natural number, in a type wide enough for the file. -/
def OS_stat (P : Platform) (Filename : String) (w : World) : Option Nat × World :=
  if P.statOk w.trace Filename then
    (some (w.fs Filename).length, w.log (Ev.Stat Filename))
  else
    (none, w.log (Ev.Stat Filename))

/-- Model of `OS_OpenCreate` with `OS_FILE_FLAG_NONE`: on success the handle is at offset 0
of the named file, whose content is kept. -/
def OS_OpenCreate (P : Platform) (Filename : String) (w : World) : Bool × World :=
  if P.openOk w.trace Filename then
    (true, { w.log (Ev.OpenCreate Filename) with openFile := Filename, pos := 0 })
  else
    (false, w.log (Ev.OpenCreate Filename))

/-- Model of `OS_close`. -/
def OS_close (P : Platform) (w : World) : Bool × World :=
  (P.closeOk w.trace, w.log Ev.Close)

/-- The `FILE_PRI_HDR_BYTES` bytes of the primary header. -/
def cfeHdrBytes (P : Platform) : List Nat :=
  (List.range P.FILE_PRI_HDR_BYTES).map P.cfeHdrByte

/-- The `FILE_SEC_HDR_BYTES` bytes that hold the secondary header structure `h` in memory. -/
def secHdrBytes (P : Platform) (h : MEM_MGR_SecFileHdr_t) : List Nat :=
  (List.range P.FILE_SEC_HDR_BYTES).map (fun i => (P.secHdrImage h).getD i 0)

/-- Model of `CFE_FS_WriteHeader`: the primary header is written at offset 0; the result is
the number of bytes written, negative on error. -/
def CFE_FS_WriteHeader (P : Platform) (w : World) : Int × World :=
  let hdr := cfeHdrBytes P
  match P.writeOutcome w.trace with
  | IoOutcome.fail => (-1, { w.log (Ev.WriteHeader (-1)) with pos := 0 })
  | o =>
    let k := o.count hdr.length hdr.length
    ((k : Int),
      { w.log (Ev.WriteHeader k) with
        fs := fun f => if f = w.openFile then writeAt (w.fs w.openFile) 0 (hdr.take k)
                       else w.fs f
        pos := k })

/-- Model of `CFE_FS_ReadHeader`: the primary header is read from offset 0; the result is
the number of bytes read, negative on error. -/
def CFE_FS_ReadHeader (P : Platform) (w : World) : Int × World :=
  match P.readOutcome w.trace with
  | IoOutcome.fail => (-1, { w.log (Ev.ReadHeader (-1)) with pos := 0 })
  | o =>
    let k := o.count P.FILE_PRI_HDR_BYTES (w.fs w.openFile).length
    ((k : Int), { w.log (Ev.ReadHeader k) with pos := k })

/-- Model of `FileUtil_VerifyDirForWrite`. -/
def FileUtil_VerifyDirForWrite (P : Platform) (Filename : String) (w : World) : Bool × World :=
  (P.verifyDirForWrite w.trace Filename, w.log (Ev.VerifyDirForWrite Filename))

/-- Model of `FileUtil_VerifyFileForRead`. -/
def FileUtil_VerifyFileForRead (P : Platform) (Filename : String) (w : World) : Bool × World :=
  (P.verifyFileForRead w.trace Filename, w.log (Ev.VerifyFileForRead Filename))

/-- Modelled from the spec: `CHILDMGR_PauseTask` of the application framework, which is not
part of the sources.  The counter is incremented; when it reaches the limit it is reset to
zero and the task sleeps for the delay.  The result is the new counter. -/
def CHILDMGR_PauseTask (TaskBlockCount TaskBlockLimit TaskBlockDelay : Nat) (w : World) :
    Nat × World :=
  if TaskBlockLimit ≤ TaskBlockCount + 1 then
    (0, (w.log Ev.PauseTask).log (Ev.TaskDelay TaskBlockDelay))
  else
    (TaskBlockCount + 1, w.log Ev.PauseTask)

/-- The call `CHILDMGR_PauseTask(&MemFile->TaskBlockCount, ...)` of mem_file.c. -/
def PauseTask (w : World) : World :=
  match CHILDMGR_PauseTask w.MemFile.TaskBlockCount w.MemFile.TaskBlockLimit
      w.MemFile.TaskBlockDelay w with
  | (c, w1) => { w1 with MemFile := { w1.MemFile with TaskBlockCount := c } }

/-- Model of `CFE_SB_MessageStringGet` into a zeroed destination of `DestMaxSize` characters. -/
def CFE_SB_MessageStringGet (Src : List Nat) (DestMaxSize SrcMaxSize : Nat) : List Nat :=
  let s := (((Src.take SrcMaxSize).takeWhile (fun c => c != 0)).take (DestMaxSize - 1))
  s ++ List.replicate (DestMaxSize - s.length) 0

/-! ## mem_file.c -/

/-- Store bytes in `MemFile->IoBuf` from offset 0. -/
def World.setIoBuf (w : World) (buf : Nat → Nat) : World :=
  { w with MemFile := { w.MemFile with IoBuf := buf } }

/-- The assignment `MemFile->TaskBlockCount = 0`. -/
def World.resetTaskBlockCount (w : World) : World :=
  { w with MemFile := { w.MemFile with TaskBlockCount := 0 } }

/-- Model of `MEM_FILE_Constructor`: the object is zeroed, the configuration is read and
each block size is limited to `MEM_FILE_IO_BLOCK_SIZE`. -/
def MEM_FILE_Constructor (IniTbl : INITBL_Class_t) (w : World) : World :=
  let lim := fun (v : Nat) (w : World) =>
    if v > MEM_FILE_IO_BLOCK_SIZE then
      (MEM_FILE_IO_BLOCK_SIZE,
        CFE_EVS_SendEvent "MEM_FILE_CONSTRUCTOR_EID" EventType.ERROR [v, MEM_FILE_IO_BLOCK_SIZE] w)
    else (v, w)
  match lim IniTbl.MEM_FILE_LOAD_BLOCK_SIZE w with
  | (LoadBlockSize, w1) =>
    match lim IniTbl.MEM_FILE_DUMP_BLOCK_SIZE w1 with
    | (DumpBlockSize, w2) =>
      match lim IniTbl.MEM_FILE_FILL_BLOCK_SIZE w2 with
      | (FillBlockSize, w3) =>
        { w3 with MemFile :=
          { CmdStatus :=
              { Function := MEM_MGR_MemFunction_Enum_t.NONE_PERFORMED
                Type_ := MEM_MGR_MemType_Enum_t.MemType_UNDEF
                Size := MEM_MGR_MemSize_Enum_t.MemSize_UNDEF
                Addr := 0, Data := 0, ByteCnt := 0 }
            TaskBlockCount := 0
            TaskBlockLimit := IniTbl.MEM_FILE_TASK_BLOCK_LIMIT
            TaskBlockDelay := IniTbl.MEM_FILE_TASK_BLOCK_DELAY
            TaskPerfId := IniTbl.MEM_FILE_CHILD_PERF_ID
            LoadBlockSize := LoadBlockSize
            DumpBlockSize := DumpBlockSize
            FillBlockSize := FillBlockSize
            Filename := ""
            IoBuf := fun _ => 0 } }

/-- Loop of `ComputeFileCrc`; the first argument bounds the number of reads.  A read that
returns a positive count advances the file offset, so the bound chosen by `ComputeFileCrc`
is never reached.  The result is `CrcComputed`, `*Crc` and the state. -/
def ComputeFileCrcLoop (P : Platform) (CrcType : Nat) : Nat → Nat → World → Bool × Nat × World
  | 0, _, w => (false, 0, w)
  | fuel + 1, CurrentCrc, w =>
    match OS_read P MEM_FILE_IO_BLOCK_SIZE w with
    | (FileBytesRead, bytes, w1) =>
      let w2 := w1.setIoBuf (storeBytes w1.MemFile.IoBuf 0 bytes)
      if FileBytesRead = 0 then
        (true, CurrentCrc, w2)
      else if FileBytesRead < 0 then
        (false, 0, CFE_EVS_SendEvent "MEM_FILE_COMPUTE_FILE_CRC_EID" EventType.ERROR [] w2)
      else
        match CFE_ES_CalculateCRC P (bytesAt w2.MemFile.IoBuf 0 FileBytesRead.toNat)
            CurrentCrc CrcType w2 with
        | (NextCrc, w3) => ComputeFileCrcLoop P CrcType fuel NextCrc (PauseTask w3)

/-- Model of `ComputeFileCrc`; the entry is marked in the trace. -/
def ComputeFileCrc (P : Platform) (CrcType : Nat) (w : World) : Bool × Nat × World :=
  let w0 := (w.log (Ev.call AppFn.ComputeFileCrc)).resetTaskBlockCount
  if CrcType = P.MEM_MGR_CRC then
    ComputeFileCrcLoop P CrcType ((w0.fs w0.openFile).length - w0.pos + 1) 0 w0
  else
    (false, 0, CFE_EVS_SendEvent "MEM_FILE_COMPUTE_FILE_CRC_EID" EventType.ERROR [CrcType] w0)

/-- The `switch (MemSize)` of `DumpMemToFile`: one block of `FileWriteBlockSize` bytes is
read from `SrcCpuAddr` into `IoBuf`.  `RetStatus` is the C local, kept by `default`. -/
def DumpMemToFile_ReadBlock (P : Platform) (SrcCpuAddr : Nat) (MemSize : MEM_MGR_MemSize_Enum_t)
    (FileWriteBlockSize : Nat) (RetStatus : Bool) (w : World) : Bool × World :=
  match MemSize with
  | MEM_MGR_MemSize_Enum_t.MemSize_8 =>
    match MEM_SIZE8_ReadBlock P SrcCpuAddr w.MemFile.IoBuf FileWriteBlockSize w with
    | (r, buf, w1) => (r, w1.setIoBuf buf)
  | MEM_MGR_MemSize_Enum_t.MemSize_16 =>
    match MEM_SIZE16_ReadBlock P SrcCpuAddr w.MemFile.IoBuf (FileWriteBlockSize / 2) w with
    | (r, buf, w1) => (r, w1.setIoBuf buf)
  | MEM_MGR_MemSize_Enum_t.MemSize_32 =>
    match MEM_SIZE32_ReadBlock P SrcCpuAddr w.MemFile.IoBuf (FileWriteBlockSize / 4) w with
    | (r, buf, w1) => (r, w1.setIoBuf buf)
  | MEM_MGR_MemSize_Enum_t.MemSize_VOID =>
    match CFE_PSP_MemCpy_FromMem P SrcCpuAddr FileWriteBlockSize w with
    | (some bytes, w1) => (true, w1.setIoBuf (storeBytes w1.MemFile.IoBuf 0 bytes))
    | (none, w1) => (false, w1)
  | _ => (RetStatus, w)

/-- The `while (BytesRemaining != 0)` loop of `DumpMemToFile`.  The first argument bounds
the number of evaluations of the loop condition; `none` means the loop is still running
when the bound is used up.  The result is `RetStatus`, `BytesProcessed` and the state. -/
def DumpMemToFileLoop (P : Platform) (SrcCpuAddr : Nat) (MemSize : MEM_MGR_MemSize_Enum_t) :
    Nat → Bool → Nat → Nat → Nat → World → Option (Bool × Nat × World)
  | 0, _, _, _, _, _ => none
  | fuel + 1, RetStatus, BytesRemaining, FileWriteBlockSize, BytesProcessed, w =>
    if BytesRemaining = 0 then
      some (RetStatus, BytesProcessed, w)
    else
      let FileWriteBlockSize :=
        if BytesRemaining < FileWriteBlockSize then BytesRemaining else FileWriteBlockSize
      match DumpMemToFile_ReadBlock P SrcCpuAddr MemSize FileWriteBlockSize RetStatus w with
      | (true, w1) =>
        match OS_write P (bytesAt w1.MemFile.IoBuf 0 FileWriteBlockSize) w1 with
        | (FileWriteLength, w2) =>
          if FileWriteLength = (FileWriteBlockSize : Int) then
            let w3 := if BytesRemaining - FileWriteBlockSize ≠ 0 then PauseTask w2 else w2
            DumpMemToFileLoop P SrcCpuAddr MemSize fuel true
              (BytesRemaining - FileWriteBlockSize) FileWriteBlockSize
              (BytesProcessed + FileWriteBlockSize) w3
          else
            DumpMemToFileLoop P SrcCpuAddr MemSize fuel true BytesRemaining FileWriteBlockSize
              BytesProcessed w2
      | (false, w1) =>
        DumpMemToFileLoop P SrcCpuAddr MemSize fuel false 0 FileWriteBlockSize BytesProcessed w1

/-- Model of `DumpMemToFile` for byte counts below 2^31 (where the `int32` counter
`BytesRemaining` holds `ByteCnt` itself). -/
def DumpMemToFile (P : Platform) (fuel : Nat) (SrcCpuAddr : Nat)
    (MemSize : MEM_MGR_MemSize_Enum_t) (ByteCnt : Nat) (w : World) : Option (Bool × World) :=
  match DumpMemToFileLoop P SrcCpuAddr MemSize fuel false ByteCnt w.MemFile.DumpBlockSize 0
      w.resetTaskBlockCount with
  | none => none
  | some (RetStatus, BytesProcessed, w1) =>
    if RetStatus = true then some (decide (BytesProcessed = ByteCnt), w1)
    else some (RetStatus, w1)

/-- The `switch (MemSize)` of `LoadMemFromFile`: the block in `IoBuf` is written to
`DestAddr`.  `RetStatus` is the C local, kept by `default`. -/
def LoadMemFromFile_WriteBlock (P : Platform) (DestAddr : Nat) (MemSize : MEM_MGR_MemSize_Enum_t)
    (FileReadBlockSize : Nat) (RetStatus : Bool) (w : World) : Bool × World :=
  match MemSize with
  | MEM_MGR_MemSize_Enum_t.MemSize_8 =>
    MEM_SIZE8_WriteBlock P DestAddr w.MemFile.IoBuf FileReadBlockSize w
  | MEM_MGR_MemSize_Enum_t.MemSize_16 =>
    MEM_SIZE16_WriteBlock P DestAddr w.MemFile.IoBuf (FileReadBlockSize / 2) w
  | MEM_MGR_MemSize_Enum_t.MemSize_32 =>
    MEM_SIZE32_WriteBlock P DestAddr w.MemFile.IoBuf (FileReadBlockSize / 4) w
  | MEM_MGR_MemSize_Enum_t.MemSize_VOID =>
    CFE_PSP_MemCpy_ToMem P DestAddr (bytesAt w.MemFile.IoBuf 0 FileReadBlockSize) w
  | _ => (RetStatus, w)

/-- The `while (BytesRemaining != 0)` loop of `LoadMemFromFile`, bounded as
`DumpMemToFileLoop` is. -/
def LoadMemFromFileLoop (P : Platform) (DestAddr : Nat) (MemSize : MEM_MGR_MemSize_Enum_t) :
    Nat → Bool → Nat → Nat → Nat → World → Option (Bool × Nat × World)
  | 0, _, _, _, _, _ => none
  | fuel + 1, RetStatus, BytesRemaining, FileReadBlockSize, BytesProcessed, w =>
    if BytesRemaining = 0 then
      some (RetStatus, BytesProcessed, w)
    else
      let FileReadBlockSize :=
        if BytesRemaining < FileReadBlockSize then BytesRemaining else FileReadBlockSize
      match OS_read P FileReadBlockSize w with
      | (FileReadLength, bytes, w0) =>
        let w1 := w0.setIoBuf (storeBytes w0.MemFile.IoBuf 0 bytes)
        if FileReadLength = (FileReadBlockSize : Int) then
          match LoadMemFromFile_WriteBlock P DestAddr MemSize FileReadBlockSize RetStatus w1 with
          | (true, w2) =>
            let w3 := if BytesRemaining - FileReadBlockSize ≠ 0 then PauseTask w2 else w2
            LoadMemFromFileLoop P DestAddr MemSize fuel true
              (BytesRemaining - FileReadBlockSize) FileReadBlockSize
              (BytesProcessed + FileReadBlockSize) w3
          | (false, w2) =>
            LoadMemFromFileLoop P DestAddr MemSize fuel false BytesRemaining FileReadBlockSize
              BytesProcessed w2
        else
          LoadMemFromFileLoop P DestAddr MemSize fuel false 0 FileReadBlockSize BytesProcessed w1

/-- Model of `LoadMemFromFile` for byte counts below 2^31. -/
def LoadMemFromFile (P : Platform) (fuel : Nat) (DestAddr : Nat)
    (MemSize : MEM_MGR_MemSize_Enum_t) (ByteCnt : Nat) (w : World) : Option (Bool × World) :=
  match OS_lseek P (P.FILE_PRI_HDR_BYTES + P.FILE_SEC_HDR_BYTES) w.resetTaskBlockCount with
  | (OsStatus, w1) =>
    if OsStatus = ((P.FILE_PRI_HDR_BYTES + P.FILE_SEC_HDR_BYTES : Nat) : Int) then
      match LoadMemFromFileLoop P DestAddr MemSize fuel false ByteCnt w.MemFile.LoadBlockSize 0
          w1 with
      | none => none
      | some (RetStatus, BytesProcessed, w2) =>
        if RetStatus = true then some (decide (BytesProcessed = ByteCnt), w2)
        else some (RetStatus, w2)
    else
      some (false, CFE_EVS_SendEvent "MEM_FILE_LOAD_MEM_FROM_FILE_EID" EventType.ERROR [] w1)

/-- Model of `ValidLoadFile`.  The local `int32 SizeFromOs` receives the size reported by
the OS, cut to 32 bits; the local `size_t SizeFromHdr` receives the sum of the header byte
count and the two header sizes, computed in `size_t`; the comparison converts `SizeFromOs`
to `size_t`.  The size-error event carries the 32 bits of `SizeFromOs`. -/
def ValidLoadFile (P : Platform) (Filename : String) (SecFileHdr : MEM_MGR_SecFileHdr_t)
    (w : World) : Bool × World :=
  match OS_stat P Filename w with
  | (some FileSize, w1) =>
    let SizeFromOs : Int := toInt32 FileSize
    let SizeFromHdr : Nat :=
      (SecFileHdr.ByteCnt + (P.FILE_PRI_HDR_BYTES + P.FILE_SEC_HDR_BYTES)) % 2 ^ P.sizeBits
    if toSizeT P SizeFromOs = SizeFromHdr then
      match ComputeFileCrc P SecFileHdr.CrcType w1 with
      | (true, FileCrc, w2) =>
        if FileCrc = SecFileHdr.Crc then (true, w2)
        else (false, CFE_EVS_SendEvent "MEM_FILE_VALID_LOAD_FILE_EID" EventType.ERROR [] w2)
      | (false, _, w2) => (false, w2)
    else
      (false, CFE_EVS_SendEvent "MEM_FILE_VALID_LOAD_FILE_EID" EventType.ERROR
        [FileSize % 2 ^ 32] w1)
  | (none, w1) =>
    (false, CFE_EVS_SendEvent "MEM_FILE_VALID_LOAD_FILE_EID" EventType.ERROR [] w1)

/-- The two header reads that open `ProcessLoadFile`, with their error events: status,
the value of the caller's header variable afterwards, and the state.  `SecFileHdr` is the
value of that variable on entry; a read of fewer bytes overwrites the front of its image. -/
def ReadLoadFileHeaders (P : Platform) (SecFileHdr : MEM_MGR_SecFileHdr_t) (w : World) :
    Bool × MEM_MGR_SecFileHdr_t × World :=
  match CFE_FS_ReadHeader P w with
  | (OsStatus, w1) =>
    if OsStatus = (P.FILE_PRI_HDR_BYTES : Int) then
      match OS_read P P.FILE_SEC_HDR_BYTES w1 with
      | (OsStatus2, bytes, w2) =>
        let SecFileHdr1 :=
          if bytes.length = 0 then SecFileHdr
          else P.secHdrParse (bytes ++ (secHdrBytes P SecFileHdr).drop bytes.length)
        if OsStatus2 = (P.FILE_SEC_HDR_BYTES : Int) then
          (true, SecFileHdr1, w2)
        else
          (false, SecFileHdr1,
            CFE_EVS_SendEvent "MEM_FILE_PROCESS_LOAD_FILE_EID" EventType.ERROR [] w2)
    else
      (false, SecFileHdr,
        CFE_EVS_SendEvent "MEM_FILE_PROCESS_LOAD_FILE_EID" EventType.ERROR [] w1)

/-- Model of `ProcessLoadFile`.  `SecFileHdr` is the value of the caller's header variable
on entry; the result carries its value on return.  The `CpuAddr` output of the C function
is never assigned and is therefore absent. -/
def ProcessLoadFile (P : Platform) (fuel : Nat) (Filename : String)
    (SecFileHdr : MEM_MGR_SecFileHdr_t) (w : World) :
    Option (Bool × MEM_MGR_SecFileHdr_t × World) :=
  match ReadLoadFileHeaders P SecFileHdr w with
  | (true, SecFileHdr1, w2) =>
    match ValidLoadFile P Filename SecFileHdr1 w2 with
    | (true, w3) =>
      match MEMORY_VerifyAddr P SecFileHdr1.SymbolAddr SecFileHdr1.MemType
          SecFileHdr1.MemSize SecFileHdr1.ByteCnt w3 with
      | (true, VerifiedMemory, w4) =>
        match LoadMemFromFile P fuel VerifiedMemory.CpuAddr SecFileHdr1.MemSize
            SecFileHdr1.ByteCnt w4 with
        | none => none
        | some (RetStatus, w5) => some (RetStatus, SecFileHdr1, w5)
      | (false, _, w4) => some (false, SecFileHdr1, w4)
    | (false, w3) => some (false, SecFileHdr1, w3)
  | (false, SecFileHdr1, w2) => some (false, SecFileHdr1, w2)

/-- The block `if (RetStatus == true)` that ends `MEM_FILE_LoadCmd` and `MEM_FILE_DumpCmd`. -/
def MEM_FILE_RecordCmd (Function : MEM_MGR_MemFunction_Enum_t) (SecFileHdr : MEM_MGR_SecFileHdr_t)
    (CpuAddr : Nat) (Filename : String) (w : World) : World :=
  let CmdStatus : MEMORY_CmdStatus_t :=
    { Function := Function
      Type_ := SecFileHdr.MemType
      Size := SecFileHdr.MemSize
      Addr := CpuAddr
      Data := 0
      ByteCnt := SecFileHdr.ByteCnt }
  MEMORY_SetCmdStatus CmdStatus
    { w with MemFile := { w.MemFile with CmdStatus := CmdStatus, Filename := Filename } }

/-- Model of `MEM_FILE_LoadCmd`.  `SecFileHdr` and `CpuAddr` are the values the two
uninitialised locals of the C function hold on entry. -/
def MEM_FILE_LoadCmd (P : Platform) (fuel : Nat) (LoadCmd : MEM_MGR_LoadFromFile_CmdPayload_t)
    (SecFileHdr : MEM_MGR_SecFileHdr_t) (CpuAddr : Nat) (w : World) : Option (Bool × World) :=
  match FileUtil_VerifyFileForRead P LoadCmd.Filename w with
  | (true, w1) =>
    match OS_OpenCreate P LoadCmd.Filename w1 with
    | (true, w2) =>
      match ProcessLoadFile P fuel LoadCmd.Filename SecFileHdr w2 with
      | none => none
      | some (_, SecFileHdr1, w3) =>
        match OS_close P w3 with
        | (true, w4) =>
          some (true, MEM_FILE_RecordCmd MEM_MGR_MemFunction_Enum_t.LOAD_FROM_FILE SecFileHdr1
            CpuAddr LoadCmd.Filename w4)
        | (false, w4) =>
          some (false, CFE_EVS_SendEvent "MEM_FILE_LOAD_CMD_EID" EventType.ERROR [] w4)
    | (false, w2) =>
      some (false, CFE_EVS_SendEvent "MEM_FILE_LOAD_CMD_EID" EventType.ERROR [] w2)
  | (false, w1) => some (false, w1)

/-- Model of `CreateDumpFile`. -/
def CreateDumpFile (P : Platform) (fuel : Nat) (SecFileHdr : MEM_MGR_SecFileHdr_t)
    (SrcCpuAddr : Nat) (w : World) : Option (Bool × World) :=
  match CFE_FS_WriteHeader P w with
  | (OsStatus, w1) =>
    if OsStatus = (P.FILE_PRI_HDR_BYTES : Int) then
      match OS_write P (secHdrBytes P SecFileHdr) w1 with
      | (OsStatus2, w2) =>
        if OsStatus2 = (P.FILE_SEC_HDR_BYTES : Int) then
          DumpMemToFile P fuel SrcCpuAddr SecFileHdr.MemSize SecFileHdr.ByteCnt w2
        else
          some (false, CFE_EVS_SendEvent "MEM_FILE_CREATE_DUMP_FILE_EID" EventType.ERROR [] w2)
    else
      some (false, CFE_EVS_SendEvent "MEM_FILE_CREATE_DUMP_FILE_EID" EventType.ERROR [] w1)

/-- The secondary header that `MEM_FILE_DumpCmd` builds: the structure is zeroed, then every
field but `Crc` is assigned.  `sizeof(MEM_MGR_SymbolName_String_t)` is taken to be
`MEM_MGR_MAX_SYM_LEN`. -/
def DumpSecFileHdr (P : Platform) (DumpCmd : MEM_MGR_DumpToFile_CmdPayload_t) :
    MEM_MGR_SecFileHdr_t :=
  { SymbolAddr :=
      { Name := CFE_SB_MessageStringGet DumpCmd.SymbolAddr.Name P.MEM_MGR_MAX_SYM_LEN
          P.MEM_MGR_MAX_SYM_LEN
        Offset := DumpCmd.SymbolAddr.Offset }
    MemType := DumpCmd.MemType
    MemSize := DumpCmd.MemSize
    ByteCnt := DumpCmd.ByteCnt
    CrcType := P.APP_C_FW_CrcUint8_CRC_16
    Crc := 0 }

/-- Model of `MEM_FILE_DumpCmd`. -/
def MEM_FILE_DumpCmd (P : Platform) (fuel : Nat) (DumpCmd : MEM_MGR_DumpToFile_CmdPayload_t)
    (w : World) : Option (Bool × World) :=
  match FileUtil_VerifyDirForWrite P DumpCmd.Filename w with
  | (true, w1) =>
    match MEMORY_VerifyAddr P DumpCmd.SymbolAddr DumpCmd.MemType DumpCmd.MemSize
        DumpCmd.ByteCnt w1 with
    | (true, VerifiedMemory, w2) =>
      match OS_OpenCreate P DumpCmd.Filename w2 with
      | (true, w3) =>
        match CreateDumpFile P fuel (DumpSecFileHdr P DumpCmd) VerifiedMemory.CpuAddr w3 with
        | none => none
        | some (_, w4) =>
          match OS_close P w4 with
          | (true, w5) =>
            some (true, MEM_FILE_RecordCmd MEM_MGR_MemFunction_Enum_t.DUMP_TO_FILE
              (DumpSecFileHdr P DumpCmd) VerifiedMemory.CpuAddr DumpCmd.Filename w5)
          | (false, w5) =>
            some (false, CFE_EVS_SendEvent "MEM_FILE_DUMP_CMD_EID" EventType.ERROR [] w5)
      | (false, w3) =>
        some (false, CFE_EVS_SendEvent "MEM_FILE_DUMP_CMD_EID" EventType.ERROR [] w3)
    | (false, _, w2) => some (false, w2)
  | (false, w1) => some (false, w1)

/-! ## A reference platform

A concrete platform on which the functions can be evaluated: all three widths built, 64-bit
addresses, a 64-byte primary header, a packed little-endian secondary header, the CRC-16
of cFE, and providers that always succeed.  Faulty providers are obtained from it by
overriding single behaviours. -/

/-- One bit step of the reflected CRC-16 with polynomial 0xA001. -/
def crc16Bit (c : Nat) : Nat :=
  if c % 2 = 1 then (c / 2) ^^^ 0xA001 else c / 2

/-- One byte step of CRC-16. -/
def crc16Byte (crc b : Nat) : Nat :=
  crc16Bit (crc16Bit (crc16Bit (crc16Bit (crc16Bit (crc16Bit (crc16Bit (crc16Bit
    (crc ^^^ (b % 256)))))))))

/-- The algorithm of `CFE_ES_CalculateCRC` for `CFE_MISSION_ES_CRC_16`, continued from `crc`. -/
def crc16 (data : List Nat) (crc : Nat) : Nat :=
  data.foldl crc16Byte (crc % 65536)

/-- Four bytes of `v`, little-endian. -/
def le32 (v : Nat) : List Nat :=
  [v % 256, v / 256 % 256, v / 65536 % 256, v / 16777216 % 256]

/-- Value of four little-endian bytes starting at index `i` of `bs`. -/
def rd32 (bs : List Nat) (i : Nat) : Nat :=
  bs.getD i 0 + 256 * bs.getD (i + 1) 0 + 65536 * bs.getD (i + 2) 0 + 16777216 * bs.getD (i + 3) 0

/-- Encoding of the memory type in the header image of the reference platform. -/
def memTypeCode : MEM_MGR_MemType_Enum_t → Nat
  | MEM_MGR_MemType_Enum_t.MemType_UNDEF => 0
  | MEM_MGR_MemType_Enum_t.MemType_NONVOL => 1
  | MEM_MGR_MemType_Enum_t.MemType_RAM => 2
  | MEM_MGR_MemType_Enum_t.unmapped c => c

/-- Decoding of the memory type on the reference platform. -/
def memTypeOfCode : Nat → MEM_MGR_MemType_Enum_t
  | 0 => MEM_MGR_MemType_Enum_t.MemType_UNDEF
  | 1 => MEM_MGR_MemType_Enum_t.MemType_NONVOL
  | 2 => MEM_MGR_MemType_Enum_t.MemType_RAM
  | c => MEM_MGR_MemType_Enum_t.unmapped c

/-- Encoding of the width in the header image of the reference platform. -/
def memSizeCode : MEM_MGR_MemSize_Enum_t → Nat
  | MEM_MGR_MemSize_Enum_t.MemSize_UNDEF => 0
  | MEM_MGR_MemSize_Enum_t.MemSize_8 => 1
  | MEM_MGR_MemSize_Enum_t.MemSize_16 => 2
  | MEM_MGR_MemSize_Enum_t.MemSize_32 => 4
  | MEM_MGR_MemSize_Enum_t.MemSize_VOID => 8
  | MEM_MGR_MemSize_Enum_t.unmapped c => c

/-- Decoding of the width on the reference platform. -/
def memSizeOfCode : Nat → MEM_MGR_MemSize_Enum_t
  | 0 => MEM_MGR_MemSize_Enum_t.MemSize_UNDEF
  | 1 => MEM_MGR_MemSize_Enum_t.MemSize_8
  | 2 => MEM_MGR_MemSize_Enum_t.MemSize_16
  | 4 => MEM_MGR_MemSize_Enum_t.MemSize_32
  | 8 => MEM_MGR_MemSize_Enum_t.MemSize_VOID
  | c => MEM_MGR_MemSize_Enum_t.unmapped c

/-- Symbol name length of the reference platform. -/
def refSymLen : Nat := 8

/-- Memory image of a secondary header on the reference platform (23 bytes). -/
def refSecHdrImage (h : MEM_MGR_SecFileHdr_t) : List Nat :=
  (h.SymbolAddr.Name ++ List.replicate refSymLen 0).take refSymLen
    ++ le32 h.SymbolAddr.Offset
    ++ [memTypeCode h.MemType % 256, memSizeCode h.MemSize % 256]
    ++ le32 h.ByteCnt ++ [h.CrcType % 256] ++ le32 h.Crc

/-- Secondary header held by a memory image on the reference platform. -/
def refSecHdrParse (bs : List Nat) : MEM_MGR_SecFileHdr_t :=
  { SymbolAddr := { Name := (bs ++ List.replicate refSymLen 0).take refSymLen,
                    Offset := rd32 bs refSymLen }
    MemType := memTypeOfCode (bs.getD (refSymLen + 4) 0)
    MemSize := memSizeOfCode (bs.getD (refSymLen + 5) 0)
    ByteCnt := rd32 bs (refSymLen + 6)
    CrcType := bs.getD (refSymLen + 10) 0
    Crc := rd32 bs (refSymLen + 11) }

/-- The reference platform. -/
def refPlatform : Platform :=
  { INCL_MEM_SIZE8 := true
    INCL_MEM_SIZE16 := true
    INCL_MEM_SIZE32 := true
    addrBits := 64
    sizeBits := 64
    bigEndian := false
    MEM_MGR_MAX_SYM_LEN := refSymLen
    MemSizeValue := memSizeCode
    CFE_MISSION_EVS_MAX_MESSAGE_LENGTH := 122
    FILE_PRI_HDR_BYTES := 64
    FILE_SEC_HDR_BYTES := 23
    MEM_MGR_CRC := 2
    APP_C_FW_CrcUint8_CRC_16 := 2
    cfeHdrByte := fun _ => 0
    secHdrImage := refSecHdrImage
    secHdrParse := refSecHdrParse
    memReadOk := fun _ _ _ => true
    memWriteOk := fun _ _ _ => true
    eepromWriteOk := fun _ _ _ => true
    memCpyOk := fun _ => true
    memSetOk := fun _ => true
    memValidateRange := fun _ _ _ _ => true
    eepromWriteEnableOk := fun _ _ => true
    eepromWriteDisableOk := fun _ _ => true
    symbolLookup := fun _ _ => none
    verifyDirForWrite := fun _ _ => true
    verifyFileForRead := fun _ _ => true
    openOk := fun _ _ => true
    closeOk := fun _ => true
    statOk := fun _ _ => true
    lseekOk := fun _ => true
    readOutcome := fun _ => IoOutcome.full
    writeOutcome := fun _ => IoOutcome.full
    CFE_ES_CalculateCRC := fun data crc t => if t = 2 then crc16 data crc else 0 }

/-- State after `MEMORY_Constructor`. -/
def MEMORY_Constructor : MEMORY_Class_t :=
  { EepromWriteEna := false
    CmdStatus :=
      { Function := MEM_MGR_MemFunction_Enum_t.NONE_PERFORMED
        Type_ := MEM_MGR_MemType_Enum_t.MemType_UNDEF
        Size := MEM_MGR_MemSize_Enum_t.MemSize_UNDEF
        Addr := 0, Data := 0, ByteCnt := 0 } }

/-- Initial state with physical memory `mem`, an empty file store, and both objects
constructed with block sizes `blk` for loads, dumps and fills. -/
def initWorld (mem : Nat → Nat) (blk : Nat) : World :=
  MEM_FILE_Constructor
    { MEM_FILE_TASK_BLOCK_LIMIT := 4, MEM_FILE_TASK_BLOCK_DELAY := 10, MEM_FILE_CHILD_PERF_ID := 0
      MEM_FILE_LOAD_BLOCK_SIZE := blk, MEM_FILE_DUMP_BLOCK_SIZE := blk,
      MEM_FILE_FILL_BLOCK_SIZE := blk }
    { Memory := MEMORY_Constructor
      MemFile :=
        { CmdStatus := MEMORY_Constructor.CmdStatus
          TaskBlockCount := 0, TaskBlockLimit := 0, TaskBlockDelay := 0, TaskPerfId := 0
          LoadBlockSize := 0, DumpBlockSize := 0, FillBlockSize := 0
          Filename := "", IoBuf := fun _ => 0 }
      mem := mem
      fs := fun _ => []
      openFile := ""
      pos := 0
      trace := [] }

/-! ## Frames -/

/-- Frame of a run from `w` to `w1`: target memory and the module data of memory.c are
unchanged and no trace entry that satisfies `p` is added. -/
structure Frame (p : Ev → Bool) (w w1 : World) : Prop where
  mem : w1.mem = w.mem
  Memory : w1.Memory = w.Memory
  trace : w1.trace.filter p = w.trace.filter p

/-! ## Concrete inputs -/

/-- File name used by the concrete runs. -/
def refFile : String := "/cf/mem.dat"

/-- Physical memory that is zero except for the bytes `bs` at address `a`. -/
def ramAt (a : Nat) (bs : List Nat) : Nat → Nat :=
  storeBytes (fun _ => 0) a bs

/-- Dump command for `n` bytes of RAM at the absolute address `a`. -/
def refDumpCmd (a n : Nat) (sz : MEM_MGR_MemSize_Enum_t) : MEM_MGR_DumpToFile_CmdPayload_t :=
  { Filename := refFile, SymbolAddr := { Name := [], Offset := a },
    MemType := MEM_MGR_MemType_Enum_t.MemType_RAM, MemSize := sz, ByteCnt := n }

/-- A header variable that holds zeros. -/
def zeroSecFileHdr : MEM_MGR_SecFileHdr_t :=
  { SymbolAddr := { Name := [], Offset := 0 }, MemType := MEM_MGR_MemType_Enum_t.MemType_UNDEF,
    MemSize := MEM_MGR_MemSize_Enum_t.MemSize_UNDEF, ByteCnt := 0, CrcType := 0, Crc := 0 }

/-- Secondary header of a load file for `n` bytes of RAM, width 8, at absolute address `a`,
with CRC type 2 and stored CRC `crc`. -/
def refSecFileHdr (a n crc : Nat) : MEM_MGR_SecFileHdr_t :=
  { SymbolAddr := { Name := List.replicate refSymLen 0, Offset := a }
    MemType := MEM_MGR_MemType_Enum_t.MemType_RAM
    MemSize := MEM_MGR_MemSize_Enum_t.MemSize_8
    ByteCnt := n, CrcType := 2, Crc := crc }

/-- Content of a file on the reference platform: primary header, secondary header, payload. -/
def refLoadFile (hdr : MEM_MGR_SecFileHdr_t) (payload : List Nat) : List Nat :=
  List.replicate 64 0 ++ refSecHdrImage hdr ++ payload

/-- The state `w` with the file `name` holding `content`. -/
def World.withFile (w : World) (name : String) (content : List Nat) : World :=
  { w with fs := fun f => if f = name then content else w.fs f }

/-- The state `w` with an open handle on `refFile` at offset 0. -/
def World.opened (w : World) : World :=
  { w with openFile := refFile, pos := 0 }

/-- Dump a region with `MEM_FILE_DumpCmd`, replace target memory by `mem`, and load the
file with `MEM_FILE_LoadCmd`: both return values and the final state. -/
def dumpThenLoad (P : Platform) (fuel : Nat) (Cmd : MEM_MGR_DumpToFile_CmdPayload_t)
    (mem : Nat → Nat) (w : World) : Option (Bool × Bool × World) :=
  match MEM_FILE_DumpCmd P fuel Cmd w with
  | none => none
  | some (d, w1) =>
    match MEM_FILE_LoadCmd P fuel { Filename := Cmd.Filename } zeroSecFileHdr 0
        { w1 with mem := mem } with
    | none => none
    | some (l, w2) => some (d, l, w2)

/-- Reference platform on which every file write fails. -/
def writeFailPlatform : Platform :=
  { refPlatform with writeOutcome := fun _ => IoOutcome.fail }

/-- Reference platform on which the first `OS_write` transfers one byte and every later
write is complete. -/
def shortWritePlatform : Platform :=
  { refPlatform with
    writeOutcome := fun t => if t.any Ev.isFileWrite then IoOutcome.full else IoOutcome.short 1 }

/-- Reference platform on which `CFE_PSP_MemCpy` fails. -/
def copyFailPlatform : Platform :=
  { refPlatform with memCpyOk := fun _ => false }

/-- Load-with-interrupts-disabled command for the two bytes 1, 2 at RAM address 1000 with
CRC type 2 and supplied CRC `crc`. -/
def refLoadIntDisCmd (crc : Nat) : MEM_MGR_LoadWithIntDis_CmdPayload_t :=
  { SymbolAddr := { Name := [], Offset := 1000 }
    MemType := MEM_MGR_MemType_Enum_t.MemType_RAM
    MemSize := MEM_MGR_MemSize_Enum_t.MemSize_8
    ByteCnt := 2, CrcType := 2, Crc := crc, Data := [1, 2] }

/-! ## Predicates used by the round-trip theorem -/

/-- Element-wise copy of `n` elements of `bytes` bytes from `S` at `s` to `D` at `d`, as the
block loops perform it through `loadLE` and `storeLE`. -/
def blockCopy (S : Nat → Nat) (D : Nat → Nat) (bytes : Nat) : Nat → Nat → Nat → Nat → Nat
  | 0, _, _ => D
  | n + 1, s, d => blockCopy S (storeLE D d bytes (loadLE S s bytes)) bytes n (s + bytes) (d + bytes)

/-- Trace entries of a block read of `n` elements, newest first, in front of `t`. -/
def readTrace (bytes : Nat) : Nat → Nat → List Ev → List Ev
  | 0, _, t => t
  | n + 1, a, t => readTrace bytes n (a + bytes) (Ev.MemRead bytes a :: t)

/-- Trace entries of a block write of `n` elements from `S`, newest first, in front of `t`. -/
def writeTrace (S : Nat → Nat) (bytes : Nat) : Nat → Nat → Nat → List Ev → List Ev
  | 0, _, _, t => t
  | n + 1, a, s, t =>
    writeTrace S bytes n (a + bytes) (s + bytes) (Ev.MemWrite bytes a (loadLE S s bytes) :: t)

/-- Every provider call succeeds and every file transfer is complete, whatever the history;
`size_t` has at least 32 bits, and a file of the two headers and one I/O block has fewer
than 2^31 bytes, the sizes an `int32` holds. -/
structure Platform.Nominal (P : Platform) : Prop where
  sizeBits : 32 ≤ P.sizeBits
  hdrBytes : P.FILE_PRI_HDR_BYTES + P.FILE_SEC_HDR_BYTES + MEM_FILE_IO_BLOCK_SIZE < 2 ^ 31
  memReadOk : ∀ t b a, P.memReadOk t b a = true
  memWriteOk : ∀ t b a, P.memWriteOk t b a = true
  memValidateRange : ∀ t a n ty, P.memValidateRange t a n ty = true
  verifyDirForWrite : ∀ t f, P.verifyDirForWrite t f = true
  verifyFileForRead : ∀ t f, P.verifyFileForRead t f = true
  openOk : ∀ t f, P.openOk t f = true
  closeOk : ∀ t, P.closeOk t = true
  statOk : ∀ t f, P.statOk t f = true
  lseekOk : ∀ t, P.lseekOk t = true
  readOutcome : ∀ t, P.readOutcome t = IoOutcome.full
  writeOutcome : ∀ t, P.writeOutcome t = IoOutcome.full

/-- Element size in bytes of the widths 8, 16 and 32; 0 for every other width. -/
def MEM_MGR_MemSize_Enum_t.bytes : MEM_MGR_MemSize_Enum_t → Nat
  | MEM_MGR_MemSize_Enum_t.MemSize_8 => 1
  | MEM_MGR_MemSize_Enum_t.MemSize_16 => 2
  | MEM_MGR_MemSize_Enum_t.MemSize_32 => 4
  | _ => 0

/-- Is the width one of 8, 16, 32 and built into the application? -/
def Platform.built (P : Platform) : MEM_MGR_MemSize_Enum_t → Bool
  | MEM_MGR_MemSize_Enum_t.MemSize_8 => P.INCL_MEM_SIZE8
  | MEM_MGR_MemSize_Enum_t.MemSize_16 => P.INCL_MEM_SIZE16
  | MEM_MGR_MemSize_Enum_t.MemSize_32 => P.INCL_MEM_SIZE32
  | _ => false

/-- The NUL-terminated symbol name that `CreateCpuAddr` reads from the character array
`Name`. -/
def symName (P : Platform) (Name : List Nat) : List Nat :=
  (Name.set (P.MEM_MGR_MAX_SYM_LEN - 1) 0).takeWhile (fun c => c != 0)

/-- The symbolic address resolves to the address `A`: whatever the history, `CreateCpuAddr`
succeeds with `A` and changes nothing but the trace. -/
def Resolves (P : Platform) (sa : MEM_MGR_SymbolAddr_t) (A : Nat) : Prop :=
  ∀ (a0 : Nat) (w : World), ∃ tr, CreateCpuAddr P sa a0 w = (true, A, { w with trace := tr })

/-- The run from `w` to `w1` keeps target memory, the module data of memory.c, the open
file name and the configured block sizes. -/
structure Keeps (w w1 : World) : Prop where
  mem : w1.mem = w.mem
  Memory : w1.Memory = w.Memory
  openFile : w1.openFile = w.openFile
  LoadBlockSize : w1.MemFile.LoadBlockSize = w.MemFile.LoadBlockSize
  DumpBlockSize : w1.MemFile.DumpBlockSize = w.MemFile.DumpBlockSize

/-- The symbol name truncated to `MEM_MGR_MAX_SYM_LEN - 1` characters: the string held by
the first `MEM_MGR_MAX_SYM_LEN - 1` characters of the array `Name`. -/
def truncatedName (P : Platform) (Name : List Nat) : List Nat :=
  (Name.take (P.MEM_MGR_MAX_SYM_LEN - 1)).takeWhile (fun c => c != 0)

/-- Memory after `n` elements of `bytes` bytes with the value `v` are stored from `d` on. -/
def blockFill (D : Nat → Nat) (bytes : Nat) : Nat → Nat → Nat → Nat → Nat
  | 0, _, _ => D
  | n + 1, d, v => blockFill (storeLE D d bytes v) bytes n (d + bytes) v

/-- Trace entries of a block fill of `n` elements, newest first, in front of `t`. -/
def fillTrace (bytes : Nat) : Nat → Nat → Nat → List Ev → List Ev
  | 0, _, _, t => t
  | n + 1, a, v, t => fillTrace bytes n (a + bytes) v (Ev.MemWrite bytes a v :: t)

/-- The `n` elements of `bytes` bytes that the buffer `m` holds from offset 0 on. -/
def elemsAt (m : Nat → Nat) (bytes n : Nat) : List Nat :=
  (List.range n).map (fun i => loadLE m (i * bytes) bytes)

/-- The block read function of a width: `MEM_SIZE8_ReadBlock`, `MEM_SIZE16_ReadBlock` or
`MEM_SIZE32_ReadBlock`. -/
def ReadBlockOf (P : Platform) (sz : MEM_MGR_MemSize_Enum_t) (MemAddr : Nat) (Dest : Nat → Nat)
    (n : Nat) (w : World) : Bool × (Nat → Nat) × World :=
  match sz with
  | MEM_MGR_MemSize_Enum_t.MemSize_8 => MEM_SIZE8_ReadBlock P MemAddr Dest n w
  | MEM_MGR_MemSize_Enum_t.MemSize_16 => MEM_SIZE16_ReadBlock P MemAddr Dest n w
  | MEM_MGR_MemSize_Enum_t.MemSize_32 => MEM_SIZE32_ReadBlock P MemAddr Dest n w
  | _ => (false, Dest, w)

/-- The block write function of a width: `MEM_SIZE8_WriteBlock`, `MEM_SIZE16_WriteBlock` or
`MEM_SIZE32_WriteBlock`. -/
def WriteBlockOf (P : Platform) (sz : MEM_MGR_MemSize_Enum_t) (MemAddr : Nat) (Src : Nat → Nat)
    (n : Nat) (w : World) : Bool × World :=
  match sz with
  | MEM_MGR_MemSize_Enum_t.MemSize_8 => MEM_SIZE8_WriteBlock P MemAddr Src n w
  | MEM_MGR_MemSize_Enum_t.MemSize_16 => MEM_SIZE16_WriteBlock P MemAddr Src n w
  | MEM_MGR_MemSize_Enum_t.MemSize_32 => MEM_SIZE32_WriteBlock P MemAddr Src n w
  | _ => (false, w)

/-- The block fill function of a width: `MEM_SIZE8_FillBlock`, `MEM_SIZE16_FillBlock` or
`MEM_SIZE32_FillBlock`. -/
def FillBlockOf (P : Platform) (sz : MEM_MGR_MemSize_Enum_t) (MemAddr FillData n : Nat)
    (w : World) : Bool × World :=
  match sz with
  | MEM_MGR_MemSize_Enum_t.MemSize_8 => MEM_SIZE8_FillBlock P MemAddr FillData n w
  | MEM_MGR_MemSize_Enum_t.MemSize_16 => MEM_SIZE16_FillBlock P MemAddr FillData n w
  | MEM_MGR_MemSize_Enum_t.MemSize_32 => MEM_SIZE32_FillBlock P MemAddr FillData n w
  | _ => (false, w)

/-- Reference platform on which every access to the address `a` faults. -/
def faultAtPlatform (a : Nat) : Platform :=
  { refPlatform with
    memReadOk := fun _ _ x => x != a
    memWriteOk := fun _ _ x => x != a }

/-- Reference platform on which the switching of EEPROM write protection fails. -/
def bankFailPlatform : Platform :=
  { refPlatform with
    eepromWriteEnableOk := fun _ _ => false
    eepromWriteDisableOk := fun _ _ => false }

/-- Reference platform with the symbol `MEM` (77, 69, 77) at address 4096. -/
def symPlatform : Platform :=
  { refPlatform with symbolLookup := fun _ nm => if nm = [77, 69, 77] then some 4096 else none }

/-- Symbolic address with the absolute address `a`. -/
def absAddr (a : Nat) : MEM_MGR_SymbolAddr_t :=
  { Name := [], Offset := a }

/-- Fill command for `n` bytes of non-volatile memory at the absolute address `a` with
32-bit elements of value `v`. -/
def nonvolFillCmd (a n v : Nat) : MEM_MGR_Fill_CmdPayload_t :=
  { SymbolAddr := absAddr a, MemType := MEM_MGR_MemType_Enum_t.MemType_NONVOL,
    MemSize := MEM_MGR_MemSize_Enum_t.MemSize_32, Data := v, ByteCnt := n }

/-- Poke command for one byte of non-volatile memory at the absolute address `a`. -/
def nonvolPokeCmd (a v : Nat) : MEM_MGR_Poke_CmdPayload_t :=
  { SymbolAddr := absAddr a, MemType := MEM_MGR_MemType_Enum_t.MemType_NONVOL,
    MemSize := MEM_MGR_MemSize_Enum_t.MemSize_8, Data := v }

/-- Secondary header of a load file for `n` bytes of non-volatile memory, width 8, at the
absolute address `a`, with CRC type 2 and stored CRC `crc`. -/
def nonvolSecFileHdr (a n crc : Nat) : MEM_MGR_SecFileHdr_t :=
  { refSecFileHdr a n crc with MemType := MEM_MGR_MemType_Enum_t.MemType_NONVOL }

/-- Poke command for one byte of RAM at the absolute address `a`. -/
def ramPokeCmd (a v : Nat) : MEM_MGR_Poke_CmdPayload_t :=
  { SymbolAddr := absAddr a, MemType := MEM_MGR_MemType_Enum_t.MemType_RAM,
    MemSize := MEM_MGR_MemSize_Enum_t.MemSize_8, Data := v }

/-- Peek command for an element of RAM of width `sz` at the absolute address `a`. -/
def ramPeekCmd (a : Nat) (sz : MEM_MGR_MemSize_Enum_t) : MEM_MGR_Peek_CmdPayload_t :=
  { SymbolAddr := absAddr a, MemType := MEM_MGR_MemType_Enum_t.MemType_RAM, MemSize := sz }

/-- Fill command for `n` bytes of RAM at the absolute address `a` with elements of width
`sz` and the value `v`. -/
def ramFillCmd (a n v : Nat) (sz : MEM_MGR_MemSize_Enum_t) : MEM_MGR_Fill_CmdPayload_t :=
  { SymbolAddr := absAddr a, MemType := MEM_MGR_MemType_Enum_t.MemType_RAM,
    MemSize := sz, Data := v, ByteCnt := n }

/-- Dump-to-event command for `n` bytes of RAM, width 8, at the absolute address `a`. -/
def ramDumpToEventCmd (a n : Nat) : MEM_MGR_DumpToEvent_CmdPayload_t :=
  { SymbolAddr := absAddr a, MemType := MEM_MGR_MemType_Enum_t.MemType_RAM,
    MemSize := MEM_MGR_MemSize_Enum_t.MemSize_8, ByteCnt := n }

/-- Reference platform on which the first memory write faults and every later one
succeeds. -/
def firstWriteFaultPlatform : Platform :=
  { refPlatform with memWriteOk := fun t _ _ => t.any Ev.isMemWrite }

/-- Reference platform on which every file write transfers one byte. -/
def allShortWritePlatform : Platform :=
  { refPlatform with writeOutcome := fun _ => IoOutcome.short 1 }

/-- Reference platform built without any of the three widths. -/
def noWidthPlatform : Platform :=
  { refPlatform with INCL_MEM_SIZE8 := false, INCL_MEM_SIZE16 := false,
                     INCL_MEM_SIZE32 := false }

/-- Reference platform with a big-endian CPU. -/
def bigEndianPlatform : Platform :=
  { refPlatform with bigEndian := true }

theorem Frame.refl (p : Ev → Bool) (w : World) : Frame p w w := ⟨rfl, rfl, rfl⟩

theorem Frame.trans {p : Ev → Bool} {a b c : World} (h1 : Frame p a b) (h2 : Frame p b c) :
    Frame p a c :=
  ⟨h2.mem.trans h1.mem, h2.Memory.trans h1.Memory, h2.trace.trans h1.trace⟩

theorem Frame.log (p : Ev → Bool) (w : World) (e : Ev) (he : p e = false) :
    Frame p w (w.log e) := by
  refine ⟨rfl, rfl, ?_⟩
  simp [World.log, List.filter_cons, he]

theorem Frame.sendEvent (p : Ev → Bool) (hp : ∀ eid sev args, p (Ev.SendEvent eid sev args) = false)
    (w : World) (eid : String) (sev : EventType) (args : List Nat) :
    Frame p w (CFE_EVS_SendEvent eid sev args w) :=
  Frame.log p w (Ev.SendEvent eid sev args) (hp eid sev args)

theorem CreateCpuAddr_frame (P : Platform) (SymbolAddr : MEM_MGR_SymbolAddr_t)
    (CpuAddr : Nat) (w : World) : Frame Ev.isMemWrite w (CreateCpuAddr P SymbolAddr CpuAddr w).2.2 := by
  unfold CreateCpuAddr OS_SymbolLookup
  dsimp only
  split
  · exact Frame.refl _ w
  · split
    · next h => 
      simp only [Prod.mk.injEq] at h
      obtain ⟨-, rfl⟩ := h
      exact Frame.log _ w (Ev.SymbolLookup _) rfl
    · next h => 
      simp only [Prod.mk.injEq] at h
      obtain ⟨-, rfl⟩ := h
      exact (Frame.log _ w (Ev.SymbolLookup _) rfl).trans (Frame.sendEvent _ (fun _ _ _ => rfl) _ _ _ _)

theorem GetPspMemType_frame (MemType : MEM_MGR_MemType_Enum_t) (w : World) :
    Frame Ev.isMemWrite w (GetPspMemType MemType w).2.2.2 := by
  unfold GetPspMemType
  split
  · exact Frame.refl _ w
  · exact Frame.refl _ w
  · exact Frame.sendEvent _ (fun _ _ _ => rfl) _ _ _ _

theorem CFE_PSP_MemValidateRange_frame (P : Platform) (a n : Nat) (t : PspMemType)
    (w : World) : Frame Ev.isMemWrite w (CFE_PSP_MemValidateRange P a n t w).2 :=
  Frame.log _ w (Ev.MemValidateRange a n t) rfl

theorem VerifyAlignedCpuAddr_frame (P : Platform) (bytes : Nat) (eid : String) (a : Nat)
    (t : PspMemType) (n : Nat) (w : World) :
    Frame Ev.isMemWrite w (VerifyAlignedCpuAddr P bytes eid a t n w).2 := by
  unfold VerifyAlignedCpuAddr
  have h := CFE_PSP_MemValidateRange_frame P a n t w
  generalize CFE_PSP_MemValidateRange P a n t w = x at h ⊢
  obtain ⟨r, w1⟩ := x
  split
  · cases r
    · exact h.trans (Frame.sendEvent _ (fun _ _ _ => rfl) _ _ _ _)
    · exact h
  · exact Frame.sendEvent _ (fun _ _ _ => rfl) _ _ _ _

theorem VerifyCpuAddr_frame (P : Platform) (a : Nat) (t : PspMemType)
    (MemSize : MEM_MGR_MemSize_Enum_t) (n : Nat) (w : World) :
    Frame Ev.isMemWrite w (VerifyCpuAddr P a t MemSize n w).2 := by
  unfold VerifyCpuAddr
  split
  · unfold MEM_SIZE8_VerifyCpuAddr
    have h := CFE_PSP_MemValidateRange_frame P a n t w
    generalize CFE_PSP_MemValidateRange P a n t w = x at h ⊢
    obtain ⟨r, w1⟩ := x
    split
    · cases r
      · exact h.trans (Frame.sendEvent _ (fun _ _ _ => rfl) _ _ _ _)
      · exact h
    · exact Frame.sendEvent _ (fun _ _ _ => rfl) _ _ _ _
  · unfold MEM_SIZE16_VerifyCpuAddr
    split
    · exact VerifyAlignedCpuAddr_frame _ _ _ _ _ _ _
    · exact Frame.sendEvent _ (fun _ _ _ => rfl) _ _ _ _
  · unfold MEM_SIZE32_VerifyCpuAddr
    split
    · exact VerifyAlignedCpuAddr_frame _ _ _ _ _ _ _
    · exact Frame.sendEvent _ (fun _ _ _ => rfl) _ _ _ _
  · exact Frame.refl _ w

theorem MEMORY_VerifyAddr_frame (P : Platform) (SymbolAddr : MEM_MGR_SymbolAddr_t)
    (MemType : MEM_MGR_MemType_Enum_t) (MemSize : MEM_MGR_MemSize_Enum_t) (ByteCnt : Nat)
    (w : World) :
    Frame Ev.isMemWrite w (MEMORY_VerifyAddr P SymbolAddr MemType MemSize ByteCnt w).2.2 := by
  unfold MEMORY_VerifyAddr
  dsimp only
  have h0 : Frame Ev.isMemWrite w (w.log (Ev.call AppFn.MEMORY_VerifyAddr)) := Frame.log _ w _ rfl
  have h1 := CreateCpuAddr_frame P SymbolAddr 0 (w.log (Ev.call AppFn.MEMORY_VerifyAddr))
  generalize CreateCpuAddr P SymbolAddr 0 (w.log (Ev.call AppFn.MEMORY_VerifyAddr)) = x1 at h1 ⊢
  obtain ⟨r1, a1, w1⟩ := x1
  cases r1
  · exact h0.trans h1
  · have h2 := GetPspMemType_frame MemType w1
    dsimp only
    generalize GetPspMemType MemType w1 = x2 at h2 ⊢
    obtain ⟨r2, t2, s2, w2⟩ := x2
    cases r2
    · exact (h0.trans h1).trans h2
    · have h3 := VerifyCpuAddr_frame P a1 t2 MemSize ByteCnt w2
      dsimp only
      generalize VerifyCpuAddr P a1 t2 MemSize ByteCnt w2 = x3 at h3 ⊢
      obtain ⟨r3, w3⟩ := x3
      exact ((h0.trans h1).trans h2).trans h3

theorem OS_read_frame (P : Platform) (n : Nat) (w : World) :
    Frame Ev.isLoadAction w (OS_read P n w).2.2 := by
  unfold OS_read
  split
  · exact Frame.log _ w _ rfl
  · exact ⟨rfl, rfl, by simp [World.log, List.filter_cons, Ev.isLoadAction, Ev.isMemWrite]⟩

theorem PauseTask_frame (w : World) : Frame Ev.isLoadAction w (PauseTask w) := by
  unfold PauseTask CHILDMGR_PauseTask
  split
  next c w1 h =>
    split at h
    · simp only [Prod.mk.injEq] at h
      obtain ⟨-, rfl⟩ := h
      exact ⟨rfl, rfl, by simp [World.log, List.filter_cons, Ev.isLoadAction, Ev.isMemWrite]⟩
    · simp only [Prod.mk.injEq] at h
      obtain ⟨-, rfl⟩ := h
      exact ⟨rfl, rfl, by simp [World.log, List.filter_cons, Ev.isLoadAction, Ev.isMemWrite]⟩

theorem ComputeFileCrcLoop_frame (P : Platform) (CrcType : Nat) :
    ∀ (fuel CurrentCrc : Nat) (w : World),
      Frame Ev.isLoadAction w (ComputeFileCrcLoop P CrcType fuel CurrentCrc w).2.2 := by
  intro fuel
  induction fuel with
  | zero => intro c w; exact Frame.refl _ w
  | succ n ih =>
    intro c w
    unfold ComputeFileCrcLoop
    have h1 := OS_read_frame P MEM_FILE_IO_BLOCK_SIZE w
    generalize OS_read P MEM_FILE_IO_BLOCK_SIZE w = x at h1 ⊢
    obtain ⟨r, bs, w1⟩ := x
    have h2 : Frame Ev.isLoadAction w (w1.setIoBuf (storeBytes w1.MemFile.IoBuf 0 bs)) :=
      h1.trans ⟨rfl, rfl, rfl⟩
    dsimp only
    split
    · exact h2
    · split
      · exact h2.trans (Frame.sendEvent _ (fun _ _ _ => rfl) _ _ _ _)
      · unfold CFE_ES_CalculateCRC
        dsimp only
        refine (h2.trans ?_).trans (ih _ _)
        exact (Frame.log _ _ _ rfl).trans (PauseTask_frame _)

theorem ComputeFileCrc_frame (P : Platform) (CrcType : Nat) (w : World) :
    Frame Ev.isLoadAction w (ComputeFileCrc P CrcType w).2.2 := by
  unfold ComputeFileCrc
  have h0 : Frame Ev.isLoadAction w (w.log (Ev.call AppFn.ComputeFileCrc)).resetTaskBlockCount :=
    (Frame.log _ w _ rfl).trans ⟨rfl, rfl, rfl⟩
  dsimp only
  split
  · exact h0.trans (ComputeFileCrcLoop_frame P CrcType _ _ _)
  · exact h0.trans (Frame.sendEvent _ (fun _ _ _ => rfl) _ _ _ _)

theorem OS_stat_frame (P : Platform) (f : String) (w : World) :
    Frame Ev.isLoadAction w (OS_stat P f w).2 := by
  unfold OS_stat
  split <;> exact Frame.log _ w _ rfl

theorem ValidLoadFile_frame (P : Platform) (Filename : String) (hdr : MEM_MGR_SecFileHdr_t)
    (w : World) : Frame Ev.isLoadAction w (ValidLoadFile P Filename hdr w).2 := by
  unfold ValidLoadFile
  have h1 := OS_stat_frame P Filename w
  generalize OS_stat P Filename w = x at h1 ⊢
  obtain ⟨sz, w1⟩ := x
  cases sz with
  | none => exact h1.trans (Frame.sendEvent _ (fun _ _ _ => rfl) _ _ _ _)
  | some sz =>
    dsimp only
    split
    · have h2 := ComputeFileCrc_frame P hdr.CrcType w1
      generalize ComputeFileCrc P hdr.CrcType w1 = y at h2 ⊢
      obtain ⟨r, crc, w2⟩ := y
      cases r
      · exact h1.trans h2
      · dsimp only
        split
        · exact h1.trans h2
        · exact (h1.trans h2).trans (Frame.sendEvent _ (fun _ _ _ => rfl) _ _ _ _)
    · exact h1.trans (Frame.sendEvent _ (fun _ _ _ => rfl) _ _ _ _)

theorem CFE_FS_ReadHeader_frame (P : Platform) (w : World) :
    Frame Ev.isLoadAction w (CFE_FS_ReadHeader P w).2 := by
  unfold CFE_FS_ReadHeader
  split
  · exact ⟨rfl, rfl, by simp [World.log, List.filter_cons, Ev.isLoadAction, Ev.isMemWrite]⟩
  · exact ⟨rfl, rfl, by simp [World.log, List.filter_cons, Ev.isLoadAction, Ev.isMemWrite]⟩

theorem ReadLoadFileHeaders_frame (P : Platform) (hdr : MEM_MGR_SecFileHdr_t) (w : World) :
    Frame Ev.isLoadAction w (ReadLoadFileHeaders P hdr w).2.2 := by
  unfold ReadLoadFileHeaders
  have h1 := CFE_FS_ReadHeader_frame P w
  generalize CFE_FS_ReadHeader P w = x at h1 ⊢
  obtain ⟨r, w1⟩ := x
  dsimp only
  split
  · have h2 := OS_read_frame P P.FILE_SEC_HDR_BYTES w1
    generalize OS_read P P.FILE_SEC_HDR_BYTES w1 = y at h2 ⊢
    obtain ⟨r2, bs, w2⟩ := y
    dsimp only
    split
    · exact h1.trans h2
    · exact (h1.trans h2).trans (Frame.sendEvent _ (fun _ _ _ => rfl) _ _ _ _)
  · exact h1.trans (Frame.sendEvent _ (fun _ _ _ => rfl) _ _ _ _)

/-- C4: when the validation of the load file fails (`ValidLoadFile` returns false on the
header that was read, because the size check or the CRC check failed), `ProcessLoadFile`
returns false, leaves target memory unchanged, and adds no trace entry that writes target
memory or enters `MEMORY_VerifyAddr`. -/
theorem C4_no_memory_write_unless_valid (P : Platform) (fuel : Nat) (Filename : String)
    (SecFileHdr : MEM_MGR_SecFileHdr_t) (w : World)
    (hinvalid : (ValidLoadFile P Filename (ReadLoadFileHeaders P SecFileHdr w).2.1
      (ReadLoadFileHeaders P SecFileHdr w).2.2).1 = false) :
    ∃ w1, ProcessLoadFile P fuel Filename SecFileHdr w
        = some (false, (ReadLoadFileHeaders P SecFileHdr w).2.1, w1)
      ∧ w1.mem = w.mem
      ∧ w1.trace.filter Ev.isLoadAction = w.trace.filter Ev.isLoadAction := by
  unfold ProcessLoadFile
  have h1 := ReadLoadFileHeaders_frame P SecFileHdr w
  generalize ReadLoadFileHeaders P SecFileHdr w = x at h1 hinvalid ⊢
  obtain ⟨r, hdr1, w2⟩ := x
  cases r
  · exact ⟨w2, rfl, h1.mem, h1.trace⟩
  · have h2 := ValidLoadFile_frame P Filename hdr1 w2
    dsimp only at hinvalid h2 ⊢
    generalize ValidLoadFile P Filename hdr1 w2 = y at h2 hinvalid ⊢
    obtain ⟨v, w3⟩ := y
    dsimp only at hinvalid
    subst hinvalid
    exact ⟨w3, rfl, (h1.trans h2).mem, (h1.trans h2).trace⟩

theorem toInt32_small (n : Nat) (hn : n < 2 ^ 31) : toInt32 n = (n : Int) := by
  unfold toInt32
  have h : n % 2 ^ 32 = n := Nat.mod_eq_of_lt (by omega)
  rw [h, if_pos hn]

theorem toSizeT_natCast (P : Platform) (n : Nat) : toSizeT P (n : Int) = n % 2 ^ P.sizeBits := by
  unfold toSizeT
  rw [← Int.natCast_mod, Int.toNat_natCast]

/-- For a file of fewer than 2^31 bytes and a header sum that `size_t` holds, the size
comparison of `ValidLoadFile` is the comparison of the two natural numbers. -/
theorem sizeCheck_small (P : Platform) (n H : Nat) (hbits : 32 ≤ P.sizeBits)
    (hn : n < 2 ^ 31) (hH : H < 2 ^ P.sizeBits) :
    (toSizeT P (toInt32 n) = H % 2 ^ P.sizeBits) ↔ n = H := by
  have h31 : (2 : Nat) ^ 31 ≤ 2 ^ P.sizeBits := Nat.pow_le_pow_right (by decide) (by omega)
  rw [toInt32_small n hn, toSizeT_natCast, Nat.mod_eq_of_lt hH,
    Nat.mod_eq_of_lt (Nat.lt_of_lt_of_le hn h31)]

/-- C9: when the CRC computed over the supplied data differs from the supplied CRC,
`MEMORY_LoadWithIntDisCmd` leaves target memory unchanged, adds no trace entry of a
primitive that writes target memory (the bulk copy is not invoked), and leaves the command
status unchanged. -/
theorem C9_crc_mismatch_no_copy (P : Platform) (Cmd : MEM_MGR_LoadWithIntDis_CmdPayload_t)
    (w : World)
    (hcrc : P.CFE_ES_CalculateCRC (cmdDataBytes Cmd.Data Cmd.ByteCnt) 0 Cmd.CrcType ≠ Cmd.Crc) :
    (MEMORY_LoadWithIntDisCmd P Cmd w).2.mem = w.mem
      ∧ (MEMORY_LoadWithIntDisCmd P Cmd w).2.trace.filter Ev.isMemWrite
          = w.trace.filter Ev.isMemWrite
      ∧ (MEMORY_LoadWithIntDisCmd P Cmd w).2.Memory.CmdStatus = w.Memory.CmdStatus := by
  unfold MEMORY_LoadWithIntDisCmd
  have h1 := MEMORY_VerifyAddr_frame P Cmd.SymbolAddr Cmd.MemType Cmd.MemSize Cmd.ByteCnt w
  generalize MEMORY_VerifyAddr P Cmd.SymbolAddr Cmd.MemType Cmd.MemSize Cmd.ByteCnt w = x
    at h1 ⊢
  obtain ⟨r, v, w1⟩ := x
  dsimp only at h1 ⊢
  split
  · unfold CFE_ES_CalculateCRC
    dsimp only
    rw [if_neg hcrc]
    have h2 : Frame Ev.isMemWrite w
        (CFE_EVS_SendEvent "MEMORY_LOAD_INT_DIS_EID" EventType.ERROR
          [Cmd.Crc, P.CFE_ES_CalculateCRC (cmdDataBytes Cmd.Data Cmd.ByteCnt) 0 Cmd.CrcType]
          (w1.log (Ev.CalculateCRC (cmdDataBytes Cmd.Data Cmd.ByteCnt).length))) :=
      (h1.trans (Frame.log _ _ (Ev.CalculateCRC _) rfl)).trans
        (Frame.sendEvent _ (fun _ _ _ => rfl) _ _ _ _)
    exact ⟨h2.mem, h2.trace, by rw [h2.Memory]⟩
  · exact ⟨h1.mem, h1.trace, by rw [h1.Memory]⟩

/-! ## Termination of the CRC loop -/

theorem PauseTask_file (w : World) :
    (PauseTask w).fs = w.fs ∧ (PauseTask w).pos = w.pos ∧ (PauseTask w).openFile = w.openFile := by
  unfold PauseTask CHILDMGR_PauseTask
  split
  next c w1 h =>
    split at h
    · simp only [Prod.mk.injEq] at h
      obtain ⟨-, rfl⟩ := h
      exact ⟨rfl, rfl, rfl⟩
    · simp only [Prod.mk.injEq] at h
      obtain ⟨-, rfl⟩ := h
      exact ⟨rfl, rfl, rfl⟩

theorem IoOutcome.count_le (o : IoOutcome) (n avail : Nat) : o.count n avail ≤ avail := by
  cases o with
  | full => exact Nat.min_le_right _ _
  | short k => exact (Nat.min_le_right _ _).trans (Nat.min_le_right _ _)
  | fail => exact Nat.zero_le _

theorem OS_read_advance (P : Platform) (n : Nat) (w : World) :
    (OS_read P n w).2.2.fs = w.fs ∧ (OS_read P n w).2.2.openFile = w.openFile
      ∧ ((OS_read P n w).1 = -1 ∨
          ∃ k : Nat, (OS_read P n w).1 = (k : Int) ∧ (OS_read P n w).2.2.pos = w.pos + k
            ∧ k ≤ (w.fs w.openFile).length - w.pos) := by
  unfold OS_read
  split
  · exact ⟨rfl, rfl, Or.inl rfl⟩
  · next o ho =>
    exact ⟨rfl, rfl, Or.inr ⟨_, rfl, rfl, IoOutcome.count_le _ _ _⟩⟩

/-- The loop of `ComputeFileCrc` ends within the bound `ComputeFileCrc` gives it: with more
than `size - offset` reads allowed, allowing further reads does not change the result. -/
theorem ComputeFileCrcLoop_fuel (P : Platform) (CrcType : Nat) :
    ∀ (n : Nat) (c : Nat) (w : World), (w.fs w.openFile).length - w.pos < n →
      ∀ m, n ≤ m → ComputeFileCrcLoop P CrcType m c w = ComputeFileCrcLoop P CrcType n c w := by
  intro n
  induction n with
  | zero => intro c w h; omega
  | succ n ih =>
    intro c w h m hm
    obtain ⟨m1, rfl⟩ : ∃ m1, m = m1 + 1 := ⟨m - 1, by omega⟩
    obtain ⟨hfs, hof, hr⟩ := OS_read_advance P MEM_FILE_IO_BLOCK_SIZE w
    rw [ComputeFileCrcLoop, ComputeFileCrcLoop]
    generalize OS_read P MEM_FILE_IO_BLOCK_SIZE w = x at hfs hof hr
    obtain ⟨r, bs, w1⟩ := x
    simp only at hfs hof hr ⊢
    split
    · rfl
    · next h0 =>
      split
      · rfl
      · next h1 =>
        rcases hr with hr | ⟨k, hk, hp, hle⟩
        · omega
        · unfold CFE_ES_CalculateCRC
          simp only []
          apply ih
          · obtain ⟨f1, p1, o1⟩ := PauseTask_file
              ((w1.setIoBuf (storeBytes w1.MemFile.IoBuf 0 bs)).log
                (Ev.CalculateCRC (bytesAt (w1.setIoBuf (storeBytes w1.MemFile.IoBuf 0 bs)).MemFile.IoBuf
                  0 r.toNat).length))
            rw [f1, p1, o1]
            show (w1.fs w1.openFile).length - w1.pos < n
            rw [hfs, hof, hp]
            have hk0 : k ≠ 0 := by
              intro h2
              rw [h2] at hk
              exact h0 hk
            omega
          · omega

/-! ## Block copies -/

theorem storeLE_loadLE (S : Nat → Nat) :
    ∀ (b : Nat) (D : Nat → Nat) (d s x : Nat), (∀ y, s ≤ y → y < s + b → S y < 256) →
      storeLE D d b (loadLE S s b) x = if d ≤ x ∧ x < d + b then S (s + (x - d)) else D x := by
  intro b
  induction b with
  | zero =>
    intro D d s x _
    have h : ¬ (d ≤ x ∧ x < d + 0) := by omega
    rw [if_neg h]
    rfl
  | succ b ih =>
    intro D d s x hS
    have h0 := hS s (Nat.le_refl s) (by omega)
    have h1 : loadLE S s (b + 1) % 256 = S s := by simp only [loadLE]; omega
    have h2 : loadLE S s (b + 1) / 256 = loadLE S (s + 1) b := by simp only [loadLE]; omega
    rw [storeLE, h1, h2, ih _ _ _ _ (fun y hy1 hy2 => hS y (by omega) (by omega))]
    by_cases hx : x = d
    · subst hx
      simp
    · by_cases h3 : d + 1 ≤ x ∧ x < d + 1 + b
      · have h4 : d ≤ x ∧ x < d + (b + 1) := by omega
        rw [if_pos h3, if_pos h4]
        congr 1
        omega
      · have h4 : ¬ (d ≤ x ∧ x < d + (b + 1)) := by omega
        rw [if_neg h3, if_neg h4, if_neg hx]

theorem blockCopy_apply (S : Nat → Nat) (bytes : Nat) :
    ∀ (n : Nat) (D : Nat → Nat) (s d x : Nat), (∀ y, s ≤ y → y < s + n * bytes → S y < 256) →
      blockCopy S D bytes n s d x
        = if d ≤ x ∧ x < d + n * bytes then S (s + (x - d)) else D x := by
  intro n
  induction n with
  | zero =>
    intro D s d x _
    have h : ¬ (d ≤ x ∧ x < d + 0 * bytes) := by omega
    rw [if_neg h]
    rfl
  | succ n ih =>
    intro D s d x hS
    have e : (n + 1) * bytes = n * bytes + bytes := by ring
    rw [e] at hS ⊢
    rw [blockCopy, ih _ _ _ _ (fun y hy1 hy2 => hS y (by omega) (by omega)),
      storeLE_loadLE S _ _ _ _ _ (fun y hy1 hy2 => hS y hy1 (by omega))]
    by_cases h1 : d + bytes ≤ x ∧ x < d + bytes + n * bytes
    · have h2 : d ≤ x ∧ x < d + (n * bytes + bytes) := by omega
      rw [if_pos h1, if_pos h2]
      congr 1
      omega
    · rw [if_neg h1]
      by_cases h3 : d ≤ x ∧ x < d + bytes
      · have h2 : d ≤ x ∧ x < d + (n * bytes + bytes) := by omega
        rw [if_pos h3, if_pos h2]
      · have h2 : ¬ (d ≤ x ∧ x < d + (n * bytes + bytes)) := by omega
        rw [if_neg h3, if_neg h2]

theorem bytesAt_length (m : Nat → Nat) (a n : Nat) : (bytesAt m a n).length = n := by
  simp [bytesAt]

theorem bytesAt_take (m : Nat → Nat) (a n : Nat) : (bytesAt m a n).take n = bytesAt m a n := by
  apply List.take_of_length_le
  rw [bytesAt_length]

theorem bytesAt_blockCopy (S D : Nat → Nat) (b N s d : Nat)
    (hS : ∀ y, s ≤ y → y < s + N → S y < 256)
    (hdiv : b ∣ N) : bytesAt (blockCopy S D b (N / b) s d) d N = bytesAt S s N := by
  unfold bytesAt
  apply List.map_congr_left
  intro i hi
  rw [List.mem_range] at hi
  rw [blockCopy_apply S b _ _ _ _ _ (by rw [Nat.div_mul_cancel hdiv]; exact hS),
    Nat.div_mul_cancel hdiv]
  have h : d ≤ d + i ∧ d + i < d + N := by omega
  rw [if_pos h]
  congr 1
  omega

theorem bytesAt_storeBytes (m : Nat → Nat) (bs : List Nat) :
    bytesAt (storeBytes m 0 bs) 0 bs.length = bs := by
  apply List.ext_getElem
  · rw [bytesAt_length]
  · intro i h1 h2
    simp [bytesAt, storeBytes, h2, List.getD_eq_getElem?_getD, List.getElem?_eq_getElem h2]

theorem ReadBlockLoop_ok (P : Platform) (hr : ∀ t b a, P.memReadOk t b a = true) (bytes : Nat)
    (eid : String) :
    ∀ (n i MemAddr : Nat) (Dest : Nat → Nat) (DestOff : Nat) (w : World),
      ReadBlockLoop P bytes eid n i MemAddr Dest DestOff w
        = (true, blockCopy w.mem Dest bytes n MemAddr DestOff,
            { w with trace := readTrace bytes n MemAddr w.trace }) := by
  intro n
  induction n with
  | zero => intro i a D off w; rfl
  | succ n ih =>
    intro i a D off w
    rw [ReadBlockLoop]
    simp only [CFE_PSP_MemRead, hr, if_true]
    rw [ih]
    rfl

theorem WriteBlockLoop_ok (P : Platform) (hw : ∀ t b a, P.memWriteOk t b a = true) (bytes : Nat)
    (eid : String) :
    ∀ (n i MemAddr : Nat) (Src : Nat → Nat) (SrcOff : Nat) (w : World),
      WriteBlockLoop P bytes eid n i MemAddr Src SrcOff w
        = (true, { w with mem := blockCopy Src w.mem bytes n SrcOff MemAddr,
                          trace := writeTrace Src bytes n MemAddr SrcOff w.trace }) := by
  intro n
  induction n with
  | zero => intro i a S off w; rfl
  | succ n ih =>
    intro i a S off w
    rw [WriteBlockLoop]
    simp only [CFE_PSP_MemWrite, hw, if_true]
    rw [ih]
    rfl

theorem DumpMemToFile_ReadBlock_ok (P : Platform) (hP : P.Nominal)
    (sz : MEM_MGR_MemSize_Enum_t) (hb : P.built sz = true) (A n : Nat) (r : Bool) (w : World) :
    DumpMemToFile_ReadBlock P A sz n r w
      = (true, { w with
          trace := readTrace sz.bytes (n / sz.bytes) A w.trace
          MemFile := { w.MemFile with
            IoBuf := blockCopy w.mem w.MemFile.IoBuf sz.bytes (n / sz.bytes) A 0 } }) := by
  cases sz <;> simp [Platform.built] at hb
  · simp [DumpMemToFile_ReadBlock, MEM_SIZE8_ReadBlock, hb, ReadBlockLoop_ok P hP.memReadOk,
      MEM_MGR_MemSize_Enum_t.bytes, World.setIoBuf]
  · simp [DumpMemToFile_ReadBlock, MEM_SIZE16_ReadBlock, hb, ReadBlockLoop_ok P hP.memReadOk,
      MEM_MGR_MemSize_Enum_t.bytes, World.setIoBuf]
  · simp [DumpMemToFile_ReadBlock, MEM_SIZE32_ReadBlock, hb, ReadBlockLoop_ok P hP.memReadOk,
      MEM_MGR_MemSize_Enum_t.bytes, World.setIoBuf]

theorem LoadMemFromFile_WriteBlock_ok (P : Platform) (hP : P.Nominal)
    (sz : MEM_MGR_MemSize_Enum_t) (hb : P.built sz = true) (A n : Nat) (r : Bool) (w : World) :
    LoadMemFromFile_WriteBlock P A sz n r w
      = (true, { w with
          mem := blockCopy w.MemFile.IoBuf w.mem sz.bytes (n / sz.bytes) 0 A
          trace := writeTrace w.MemFile.IoBuf sz.bytes (n / sz.bytes) A 0 w.trace }) := by
  cases sz <;> simp [Platform.built] at hb
  · simp [LoadMemFromFile_WriteBlock, MEM_SIZE8_WriteBlock, hb, WriteBlockLoop_ok P hP.memWriteOk,
      MEM_MGR_MemSize_Enum_t.bytes]
  · simp [LoadMemFromFile_WriteBlock, MEM_SIZE16_WriteBlock, hb,
      WriteBlockLoop_ok P hP.memWriteOk, MEM_MGR_MemSize_Enum_t.bytes]
  · simp [LoadMemFromFile_WriteBlock, MEM_SIZE32_WriteBlock, hb,
      WriteBlockLoop_ok P hP.memWriteOk, MEM_MGR_MemSize_Enum_t.bytes]

/-! ## The nominal path -/

theorem Keeps.same (w : World) : Keeps w w := ⟨rfl, rfl, rfl, rfl, rfl⟩

theorem Keeps.andThen {a b c : World} (h1 : Keeps a b) (h2 : Keeps b c) : Keeps a c :=
  ⟨h2.mem.trans h1.mem, h2.Memory.trans h1.Memory, h2.openFile.trans h1.openFile,
    h2.LoadBlockSize.trans h1.LoadBlockSize, h2.DumpBlockSize.trans h1.DumpBlockSize⟩

theorem writeAt_end (c bs : List Nat) : writeAt c c.length bs = c ++ bs := by
  simp [writeAt]

theorem cfeHdrBytes_length (P : Platform) : (cfeHdrBytes P).length = P.FILE_PRI_HDR_BYTES := by
  simp [cfeHdrBytes]

theorem secHdrBytes_length (P : Platform) (h : MEM_MGR_SecFileHdr_t) :
    (secHdrBytes P h).length = P.FILE_SEC_HDR_BYTES := by
  simp [secHdrBytes]

theorem takeWhile_set_zero (l : List Nat) :
    ∀ k, (l.set k 0).takeWhile (fun c => c != 0) = (l.take k).takeWhile (fun c => c != 0) := by
  induction l with
  | nil => intro k; simp
  | cons c t ih =>
    intro k
    cases k with
    | zero => simp [List.set]
    | succ k => simp only [List.set, List.take_succ_cons, List.takeWhile_cons, ih k]

theorem symName_eq (P : Platform) (Name : List Nat) :
    symName P Name = (Name.take (P.MEM_MGR_MAX_SYM_LEN - 1)).takeWhile (fun c => c != 0) :=
  takeWhile_set_zero Name _

theorem symName_MessageStringGet (P : Platform) (Name : List Nat) :
    symName P (CFE_SB_MessageStringGet Name P.MEM_MGR_MAX_SYM_LEN P.MEM_MGR_MAX_SYM_LEN)
      = symName P Name := by
  rw [symName_eq, symName_eq]
  unfold CFE_SB_MessageStringGet
  simp only []
  have hs : ((Name.take P.MEM_MGR_MAX_SYM_LEN).takeWhile (fun c => c != 0)).take
        (P.MEM_MGR_MAX_SYM_LEN - 1)
      = (Name.take (P.MEM_MGR_MAX_SYM_LEN - 1)).takeWhile (fun c => c != 0) := by
    rw [List.take_takeWhile, List.take_take, Nat.min_eq_left (Nat.sub_le _ _)]
  rw [hs, ← List.take_takeWhile]
  have hall : ∀ a ∈ (Name.take (P.MEM_MGR_MAX_SYM_LEN - 1)).takeWhile (fun c => c != 0),
      (fun c : Nat => c != 0) a = true := by
    intro a ha
    have h := (List.all_eq_true.mp
      (@List.all_takeWhile _ (fun c : Nat => c != 0) (Name.take (P.MEM_MGR_MAX_SYM_LEN - 1)))) a ha
    exact h
  rw [List.takeWhile_append_of_pos hall, List.takeWhile_replicate]
  simp only [bne_self_eq_false, Bool.false_eq_true, if_false, List.append_nil]
  apply List.take_of_length_le
  rw [← List.take_takeWhile]
  exact (List.length_take_le _ _)

theorem CreateCpuAddr_congr (P : Platform) (sa1 sa2 : MEM_MGR_SymbolAddr_t) (a0 : Nat)
    (w : World) (hn : symName P sa1.Name = symName P sa2.Name) (ho : sa1.Offset = sa2.Offset) :
    CreateCpuAddr P sa1 a0 w = CreateCpuAddr P sa2 a0 w := by
  unfold symName at hn
  simp only [CreateCpuAddr, MEM_MGR_strnlen, hn, ho]

theorem CreateCpuAddr_absolute (P : Platform) (sa : MEM_MGR_SymbolAddr_t) (a0 : Nat) (w : World)
    (h : symName P sa.Name = []) :
    CreateCpuAddr P sa a0 w = (true, sa.Offset, w) := by
  unfold symName at h
  simp [CreateCpuAddr, MEM_MGR_strnlen, h]

theorem Resolves_absolute (P : Platform) (sa : MEM_MGR_SymbolAddr_t)
    (h : symName P sa.Name = []) : Resolves P sa sa.Offset :=
  fun a0 w => ⟨w.trace, CreateCpuAddr_absolute P sa a0 w h⟩

theorem Resolves_DumpSecFileHdr (P : Platform) (Cmd : MEM_MGR_DumpToFile_CmdPayload_t) (A : Nat)
    (h : Resolves P Cmd.SymbolAddr A) : Resolves P (DumpSecFileHdr P Cmd).SymbolAddr A := by
  intro a0 w
  rw [CreateCpuAddr_congr P (DumpSecFileHdr P Cmd).SymbolAddr Cmd.SymbolAddr a0 w
    (symName_MessageStringGet P Cmd.SymbolAddr.Name) rfl]
  exact h a0 w

theorem MEMORY_VerifyAddr_ok (P : Platform) (hP : P.Nominal) (sa : MEM_MGR_SymbolAddr_t)
    (ty : MEM_MGR_MemType_Enum_t) (sz : MEM_MGR_MemSize_Enum_t) (n A : Nat) (w : World)
    (hres : Resolves P sa A)
    (hty : ty = MEM_MGR_MemType_Enum_t.MemType_RAM ∨ ty = MEM_MGR_MemType_Enum_t.MemType_NONVOL)
    (hb : P.built sz = true) (hal : A % sz.bytes = 0) :
    ∃ tr s, MEMORY_VerifyAddr P sa ty sz n w
      = (true, { CpuAddr := A, TypeStr := s }, { w with trace := tr }) := by
  obtain ⟨tr0, e0⟩ := hres 0 (w.log (Ev.call AppFn.MEMORY_VerifyAddr))
  unfold MEMORY_VerifyAddr
  simp only []
  rw [e0]
  rcases hty with rfl | rfl <;> cases sz <;> simp [Platform.built] at hb <;>
    simp [GetPspMemType, VerifyCpuAddr,
      MEM_SIZE8_VerifyCpuAddr, MEM_SIZE16_VerifyCpuAddr, MEM_SIZE32_VerifyCpuAddr,
      VerifyAlignedCpuAddr, CFE_PSP_MemValidateRange, hP.memValidateRange, hb, World.log,
      MEM_MGR_MemSize_Enum_t.bytes] at hal ⊢ <;>
    simp [hal]

theorem OS_write_ok (P : Platform) (hP : P.Nominal) (data : List Nat) (w : World) :
    ∃ w1, OS_write P data w = ((data.length : Int), w1) ∧ Keeps w w1
      ∧ w1.fs w.openFile = writeAt (w.fs w.openFile) w.pos data
      ∧ w1.pos = w.pos + data.length := by
  simp only [OS_write, hP.writeOutcome, IoOutcome.count, min_self, List.take_length]
  exact ⟨_, rfl, ⟨rfl, rfl, rfl, rfl, rfl⟩, by simp, rfl⟩

theorem CFE_FS_WriteHeader_ok (P : Platform) (hP : P.Nominal) (w : World) :
    ∃ w1, CFE_FS_WriteHeader P w = ((P.FILE_PRI_HDR_BYTES : Int), w1) ∧ Keeps w w1
      ∧ w1.fs w.openFile = writeAt (w.fs w.openFile) 0 (cfeHdrBytes P)
      ∧ w1.pos = P.FILE_PRI_HDR_BYTES := by
  simp only [CFE_FS_WriteHeader, hP.writeOutcome, IoOutcome.count, min_self,
    cfeHdrBytes_length]
  refine ⟨_, rfl, ⟨rfl, rfl, rfl, rfl, rfl⟩, ?_, rfl⟩
  rw [← cfeHdrBytes_length P, List.take_length]
  simp

theorem DumpMemToFile_single_block (P : Platform) (hP : P.Nominal)
    (sz : MEM_MGR_MemSize_Enum_t) (hb : P.built sz = true) (A N fuel : Nat) (w : World)
    (hfuel : 2 ≤ fuel) (hN : 0 < N) (hblk : N ≤ w.MemFile.DumpBlockSize)
    (hmem : ∀ y, A ≤ y → y < A + N → w.mem y < 256) (hdiv : sz.bytes ∣ N) :
    ∃ w1, DumpMemToFile P fuel A sz N w = some (true, w1) ∧ Keeps w w1
      ∧ w1.fs w.openFile = writeAt (w.fs w.openFile) w.pos (bytesAt w.mem A N) := by
  obtain ⟨k, rfl⟩ : ∃ k, fuel = k + 2 := ⟨fuel - 2, by omega⟩
  have h1 : ¬ (N = 0) := by omega
  have h2 : (if N < w.MemFile.DumpBlockSize then N else w.MemFile.DumpBlockSize) = N := by
    split <;> omega
  simp only [DumpMemToFile, DumpMemToFileLoop, h1, World.resetTaskBlockCount, h2,
    DumpMemToFile_ReadBlock_ok P hP sz hb, OS_write, hP.writeOutcome, IoOutcome.count,
    bytesAt_length, bytesAt_take, World.log, min_self, if_true, if_false, Nat.sub_self,
    ne_eq, not_true_eq_false, Nat.zero_add, decide_True]
  exact ⟨_, rfl, ⟨rfl, rfl, rfl, rfl, rfl⟩,
    by simp [bytesAt_blockCopy w.mem _ _ _ _ _ hmem hdiv]⟩

theorem CreateDumpFile_single_block (P : Platform) (hP : P.Nominal)
    (hdr : MEM_MGR_SecFileHdr_t) (hb : P.built hdr.MemSize = true) (A fuel : Nat) (w : World)
    (hfuel : 2 ≤ fuel) (hN : 0 < hdr.ByteCnt) (hblk : hdr.ByteCnt ≤ w.MemFile.DumpBlockSize)
    (hmem : ∀ y, A ≤ y → y < A + hdr.ByteCnt → w.mem y < 256)
    (hdiv : hdr.MemSize.bytes ∣ hdr.ByteCnt) (hfile : w.fs w.openFile = []) :
    ∃ w1, CreateDumpFile P fuel hdr A w = some (true, w1) ∧ Keeps w w1
      ∧ w1.fs w.openFile
        = cfeHdrBytes P ++ secHdrBytes P hdr ++ bytesAt w.mem A hdr.ByteCnt := by
  obtain ⟨w1, e1, k1, f1, p1⟩ := CFE_FS_WriteHeader_ok P hP w
  obtain ⟨w2, e2, k2, f2, p2⟩ := OS_write_ok P hP (secHdrBytes P hdr) w1
  obtain ⟨w3, e3, k3, f3⟩ := DumpMemToFile_single_block P hP hdr.MemSize hb A hdr.ByteCnt fuel w2
    hfuel hN (by rw [k2.DumpBlockSize, k1.DumpBlockSize]; exact hblk)
    (by rw [k2.mem, k1.mem]; exact hmem) hdiv
  rw [secHdrBytes_length] at e2
  refine ⟨w3, ?_, (k1.andThen k2).andThen k3, ?_⟩
  · unfold CreateDumpFile
    rw [e1]
    simp only [if_true]
    rw [e2]
    simp only [if_true]
    exact e3
  · rw [k1.openFile] at f2
    rw [k2.openFile, k1.openFile] at f3
    rw [f3, f2, f1, p1, p2, p1, hfile, secHdrBytes_length]
    have e3 : writeAt [] 0 (cfeHdrBytes P) = cfeHdrBytes P := by simp [writeAt]
    rw [e3]
    have e4 : writeAt (cfeHdrBytes P) P.FILE_PRI_HDR_BYTES (secHdrBytes P hdr)
        = cfeHdrBytes P ++ secHdrBytes P hdr := by
      rw [← cfeHdrBytes_length P, writeAt_end]
    rw [e4, k2.mem, k1.mem]
    rw [← cfeHdrBytes_length P, ← secHdrBytes_length P hdr, ← List.length_append, writeAt_end]

/-- The dump command of a region that fits in one block, on a nominal platform. -/
theorem MEM_FILE_DumpCmd_single_block (P : Platform) (hP : P.Nominal)
    (Cmd : MEM_MGR_DumpToFile_CmdPayload_t) (A fuel : Nat) (w : World)
    (hres : Resolves P Cmd.SymbolAddr A)
    (hty : Cmd.MemType = MEM_MGR_MemType_Enum_t.MemType_RAM
      ∨ Cmd.MemType = MEM_MGR_MemType_Enum_t.MemType_NONVOL)
    (hb : P.built Cmd.MemSize = true) (hal : A % Cmd.MemSize.bytes = 0)
    (hfuel : 2 ≤ fuel) (hN : 0 < Cmd.ByteCnt) (hblk : Cmd.ByteCnt ≤ w.MemFile.DumpBlockSize)
    (hmem : ∀ y, A ≤ y → y < A + Cmd.ByteCnt → w.mem y < 256)
    (hdiv : Cmd.MemSize.bytes ∣ Cmd.ByteCnt) (hfile : w.fs Cmd.Filename = []) :
    ∃ w1, MEM_FILE_DumpCmd P fuel Cmd w = some (true, w1)
      ∧ w1.mem = w.mem
      ∧ w1.MemFile.LoadBlockSize = w.MemFile.LoadBlockSize
      ∧ w1.fs Cmd.Filename
        = cfeHdrBytes P ++ secHdrBytes P (DumpSecFileHdr P Cmd) ++ bytesAt w.mem A Cmd.ByteCnt := by
  obtain ⟨tr, s, e1⟩ := MEMORY_VerifyAddr_ok P hP Cmd.SymbolAddr Cmd.MemType Cmd.MemSize
    Cmd.ByteCnt A (w.log (Ev.VerifyDirForWrite Cmd.Filename)) hres hty hb hal
  obtain ⟨w3, e3, k3, f3⟩ := CreateDumpFile_single_block P hP (DumpSecFileHdr P Cmd) hb
    A fuel
    { (World.log { (w.log (Ev.VerifyDirForWrite Cmd.Filename)) with trace := tr }
        (Ev.OpenCreate Cmd.Filename)) with openFile := Cmd.Filename, pos := 0 }
    hfuel hN hblk hmem hdiv hfile
  have hrun : MEM_FILE_DumpCmd P fuel Cmd w = some (true,
      MEM_FILE_RecordCmd MEM_MGR_MemFunction_Enum_t.DUMP_TO_FILE (DumpSecFileHdr P Cmd)
        A Cmd.Filename (w3.log Ev.Close)) := by
    unfold MEM_FILE_DumpCmd
    simp only [FileUtil_VerifyDirForWrite, hP.verifyDirForWrite]
    rw [e1]
    simp only [OS_OpenCreate, hP.openOk, if_true]
    rw [e3]
    simp only [OS_close, hP.closeOk]
  refine ⟨_, hrun, ?_, ?_, ?_⟩
  · simp only [MEM_FILE_RecordCmd, MEMORY_SetCmdStatus, World.log, k3.mem]
  · simp only [MEM_FILE_RecordCmd, MEMORY_SetCmdStatus, World.log, k3.LoadBlockSize]
  · simp only [MEM_FILE_RecordCmd, MEMORY_SetCmdStatus, World.log]
    exact f3

theorem OS_read_nominal (P : Platform) (hP : P.Nominal) (n : Nat) (w : World) :
    ∃ w1, OS_read P n w
        = (((min n ((w.fs w.openFile).length - w.pos) : Nat) : Int),
            ((w.fs w.openFile).drop w.pos).take (min n ((w.fs w.openFile).length - w.pos)), w1)
      ∧ Keeps w w1 ∧ w1.fs = w.fs ∧ w1.MemFile = w.MemFile
      ∧ w1.pos = w.pos + min n ((w.fs w.openFile).length - w.pos) := by
  simp only [OS_read, hP.readOutcome, IoOutcome.count]
  exact ⟨_, rfl, ⟨rfl, rfl, rfl, rfl, rfl⟩, rfl, rfl, rfl⟩

theorem OS_read_ok (P : Platform) (hP : P.Nominal) (pre data post : List Nat) (w : World)
    (hfile : w.fs w.openFile = pre ++ data ++ post) (hpos : w.pos = pre.length) :
    ∃ w1, OS_read P data.length w = ((data.length : Int), data, w1)
      ∧ Keeps w w1 ∧ w1.fs = w.fs ∧ w1.MemFile = w.MemFile
      ∧ w1.pos = pre.length + data.length := by
  obtain ⟨w1, e, k, f, m, p⟩ := OS_read_nominal P hP data.length w
  have h1 : min data.length ((w.fs w.openFile).length - w.pos) = data.length := by
    rw [hfile, hpos]
    simp only [List.length_append]
    omega
  have h2 : ((w.fs w.openFile).drop w.pos).take data.length = data := by
    rw [hfile, hpos, List.append_assoc, List.drop_left, List.take_left]
  rw [h1, h2] at e
  rw [h1, hpos] at p
  exact ⟨w1, e, k, f, m, p⟩

theorem OS_read_rest (P : Platform) (hP : P.Nominal) (pre data : List Nat) (n : Nat) (w : World)
    (hfile : w.fs w.openFile = pre ++ data) (hpos : w.pos = pre.length)
    (hn : data.length ≤ n) :
    ∃ w1, OS_read P n w = ((data.length : Int), data, w1)
      ∧ Keeps w w1 ∧ w1.fs = w.fs ∧ w1.MemFile = w.MemFile
      ∧ w1.pos = pre.length + data.length := by
  obtain ⟨w1, e, k, f, m, p⟩ := OS_read_nominal P hP n w
  have h1 : min n ((w.fs w.openFile).length - w.pos) = data.length := by
    rw [hfile, hpos]
    simp only [List.length_append]
    omega
  have h2 : ((w.fs w.openFile).drop w.pos).take data.length = data := by
    rw [hfile, hpos, List.drop_left, List.take_length]
  rw [h1, h2] at e
  rw [h1, hpos] at p
  exact ⟨w1, e, k, f, m, p⟩

theorem CFE_FS_ReadHeader_ok (P : Platform) (hP : P.Nominal) (rest : List Nat) (w : World)
    (hfile : w.fs w.openFile = cfeHdrBytes P ++ rest) :
    ∃ w1, CFE_FS_ReadHeader P w = ((P.FILE_PRI_HDR_BYTES : Int), w1)
      ∧ Keeps w w1 ∧ w1.fs = w.fs ∧ w1.MemFile = w.MemFile
      ∧ w1.pos = P.FILE_PRI_HDR_BYTES := by
  have h1 : min P.FILE_PRI_HDR_BYTES (w.fs w.openFile).length = P.FILE_PRI_HDR_BYTES := by
    rw [hfile, List.length_append, cfeHdrBytes_length]
    omega
  simp only [CFE_FS_ReadHeader, hP.readOutcome, IoOutcome.count, h1]
  exact ⟨_, rfl, ⟨rfl, rfl, rfl, rfl, rfl⟩, rfl, rfl, rfl⟩

theorem ReadLoadFileHeaders_ok (P : Platform) (hP : P.Nominal) (hdr h0 : MEM_MGR_SecFileHdr_t)
    (payload : List Nat) (w : World)
    (hfile : w.fs w.openFile = cfeHdrBytes P ++ secHdrBytes P hdr ++ payload)
    (hcodec : P.secHdrParse (secHdrBytes P hdr) = hdr) (hsec : 0 < P.FILE_SEC_HDR_BYTES) :
    ∃ w1, ReadLoadFileHeaders P h0 w = (true, hdr, w1)
      ∧ Keeps w w1 ∧ w1.fs = w.fs
      ∧ w1.pos = P.FILE_PRI_HDR_BYTES + P.FILE_SEC_HDR_BYTES := by
  obtain ⟨w1, e1, k1, f1, m1, p1⟩ := CFE_FS_ReadHeader_ok P hP (secHdrBytes P hdr ++ payload) w
    (by rw [hfile, List.append_assoc])
  obtain ⟨w2, e2, k2, f2, m2, p2⟩ := OS_read_ok P hP (cfeHdrBytes P) (secHdrBytes P hdr) payload
    w1 (by rw [f1, k1.openFile, hfile]) (by rw [p1, cfeHdrBytes_length])
  rw [secHdrBytes_length] at e2
  rw [cfeHdrBytes_length, secHdrBytes_length] at p2
  refine ⟨w2, ?_, k1.andThen k2, f2.trans f1, p2⟩
  unfold ReadLoadFileHeaders
  rw [e1]
  simp only [if_true]
  rw [e2]
  have h3 : ¬ (P.FILE_SEC_HDR_BYTES = 0) := by omega
  have h4 : List.drop P.FILE_SEC_HDR_BYTES (secHdrBytes P h0) = [] :=
    List.drop_eq_nil_of_le (by rw [secHdrBytes_length])
  simp only [if_true, h3, if_false, secHdrBytes_length, h4, List.append_nil, hcodec]

theorem PauseTask_keeps (w : World) :
    Keeps w (PauseTask w) ∧ (PauseTask w).fs = w.fs ∧ (PauseTask w).pos = w.pos := by
  unfold PauseTask CHILDMGR_PauseTask
  split
  next c w1 h =>
    split at h
    · simp only [Prod.mk.injEq] at h
      obtain ⟨-, rfl⟩ := h
      exact ⟨⟨rfl, rfl, rfl, rfl, rfl⟩, rfl, rfl⟩
    · simp only [Prod.mk.injEq] at h
      obtain ⟨-, rfl⟩ := h
      exact ⟨⟨rfl, rfl, rfl, rfl, rfl⟩, rfl, rfl⟩

theorem ComputeFileCrcLoop_eof (P : Platform) (hP : P.Nominal) (t c fuel : Nat) (w : World)
    (hpos : w.pos = (w.fs w.openFile).length) (hfuel : 1 ≤ fuel) :
    ∃ w1, ComputeFileCrcLoop P t fuel c w = (true, c, w1) ∧ Keeps w w1 ∧ w1.fs = w.fs := by
  obtain ⟨k, rfl⟩ : ∃ k, fuel = k + 1 := ⟨fuel - 1, by omega⟩
  obtain ⟨w1, e1, k1, f1, m1, p1⟩ := OS_read_rest P hP (w.fs w.openFile) []
    MEM_FILE_IO_BLOCK_SIZE w (by rw [List.append_nil]) hpos (Nat.zero_le _)
  rw [ComputeFileCrcLoop, e1]
  simp only [List.length_nil, Nat.cast_zero, if_true]
  exact ⟨_, rfl, k1.andThen ⟨rfl, rfl, rfl, rfl, rfl⟩, f1⟩

theorem ComputeFileCrcLoop_single (P : Platform) (hP : P.Nominal) (t c : Nat)
    (pre payload : List Nat) (fuel : Nat) (w : World)
    (hfile : w.fs w.openFile = pre ++ payload) (hpos : w.pos = pre.length)
    (hN : 0 < payload.length) (hmax : payload.length ≤ MEM_FILE_IO_BLOCK_SIZE)
    (hfuel : 2 ≤ fuel) :
    ∃ w1, ComputeFileCrcLoop P t fuel c w = (true, P.CFE_ES_CalculateCRC payload c t, w1)
      ∧ Keeps w w1 ∧ w1.fs = w.fs := by
  obtain ⟨k, rfl⟩ : ∃ k, fuel = k + 2 := ⟨fuel - 2, by omega⟩
  obtain ⟨w1, e1, k1, f1, m1, p1⟩ := OS_read_rest P hP pre payload MEM_FILE_IO_BLOCK_SIZE w
    hfile hpos hmax
  have key : ∀ X : World, Keeps w X → X.fs = w.fs → X.pos = pre.length + payload.length →
      ∀ c1, ∃ w2, ComputeFileCrcLoop P t (k + 1) c1 (PauseTask X) = (true, c1, w2)
        ∧ Keeps w w2 ∧ w2.fs = w.fs := by
    intro X kX fX pX c1
    obtain ⟨kp, fp, pp⟩ := PauseTask_keeps X
    obtain ⟨w2, e2, k2, f2⟩ := ComputeFileCrcLoop_eof P hP t c1 (k + 1) (PauseTask X)
      (by rw [pp, fp, kp.openFile, pX, fX, kX.openFile, hfile, List.length_append])
      (by omega)
    exact ⟨w2, e2, (kX.andThen kp).andThen k2, (f2.trans fp).trans fX⟩
  rw [ComputeFileCrcLoop, e1]
  have h1 : ¬ ((payload.length : Int) = 0) := by omega
  have h2 : ¬ ((payload.length : Int) < 0) := by omega
  have h3 : ∀ (m : Nat → Nat), (w1.setIoBuf m).MemFile.IoBuf = m := fun _ => rfl
  simp only [h1, h2, if_false, CFE_ES_CalculateCRC, Int.toNat_ofNat, h3, bytesAt_storeBytes]
  refine key _ ?_ ?_ ?_ _
  · exact k1.andThen ⟨rfl, rfl, rfl, rfl, rfl⟩
  · exact f1
  · exact p1

theorem ComputeFileCrc_single (P : Platform) (hP : P.Nominal) (t : Nat)
    (pre payload : List Nat) (w : World) (ht : t = P.MEM_MGR_CRC)
    (hfile : w.fs w.openFile = pre ++ payload) (hpos : w.pos = pre.length)
    (hN : 0 < payload.length) (hmax : payload.length ≤ MEM_FILE_IO_BLOCK_SIZE) :
    ∃ w1, ComputeFileCrc P t w = (true, P.CFE_ES_CalculateCRC payload 0 t, w1)
      ∧ Keeps w w1 ∧ w1.fs = w.fs := by
  obtain ⟨w1, e, k, f⟩ := ComputeFileCrcLoop_single P hP t 0 pre payload
    ((w.fs w.openFile).length - w.pos + 1)
    (w.log (Ev.call AppFn.ComputeFileCrc)).resetTaskBlockCount hfile hpos hN hmax
    (by rw [hfile, hpos, List.length_append]; omega)
  have k0 : Keeps w (w.log (Ev.call AppFn.ComputeFileCrc)).resetTaskBlockCount :=
    ⟨rfl, rfl, rfl, rfl, rfl⟩
  refine ⟨w1, ?_, k0.andThen k, f⟩
  unfold ComputeFileCrc
  simp only [ht, if_true]
  rw [ht] at e
  exact e

theorem ValidLoadFile_ok (P : Platform) (hP : P.Nominal) (Filename : String)
    (hdr : MEM_MGR_SecFileHdr_t) (payload : List Nat) (w : World)
    (hopen : w.openFile = Filename)
    (hfile : w.fs w.openFile = cfeHdrBytes P ++ secHdrBytes P hdr ++ payload)
    (hpos : w.pos = P.FILE_PRI_HDR_BYTES + P.FILE_SEC_HDR_BYTES)
    (hcnt : hdr.ByteCnt = payload.length) (hN : 0 < payload.length)
    (hmax : payload.length ≤ MEM_FILE_IO_BLOCK_SIZE) (hct : hdr.CrcType = P.MEM_MGR_CRC)
    (hcrc : P.CFE_ES_CalculateCRC payload 0 hdr.CrcType = hdr.Crc) :
    ∃ w1, ValidLoadFile P Filename hdr w = (true, w1) ∧ Keeps w w1 ∧ w1.fs = w.fs := by
  obtain ⟨w1, e, k, f⟩ := ComputeFileCrc_single P hP hdr.CrcType
    (cfeHdrBytes P ++ secHdrBytes P hdr) payload (w.log (Ev.Stat Filename)) hct hfile
    (by rw [List.length_append, cfeHdrBytes_length, secHdrBytes_length]; exact hpos) hN hmax
  have k0 : Keeps w (w.log (Ev.Stat Filename)) := ⟨rfl, rfl, rfl, rfl, rfl⟩
  refine ⟨w1, ?_, k0.andThen k, f⟩
  have hsz : (w.fs Filename).length
      = hdr.ByteCnt + (P.FILE_PRI_HDR_BYTES + P.FILE_SEC_HDR_BYTES) := by
    rw [← hopen, hfile, List.length_append, List.length_append, cfeHdrBytes_length,
      secHdrBytes_length, hcnt]
    omega
  have hlt : (w.fs Filename).length < 2 ^ 31 := by
    have := hP.hdrBytes
    omega
  have hH : hdr.ByteCnt + (P.FILE_PRI_HDR_BYTES + P.FILE_SEC_HDR_BYTES) < 2 ^ P.sizeBits :=
    Nat.lt_of_lt_of_le (hsz ▸ hlt) (Nat.pow_le_pow_right (by decide) (by have := hP.sizeBits; omega))
  have hchk := (sizeCheck_small P _ _ hP.sizeBits hlt hH).mpr hsz
  unfold ValidLoadFile
  simp only [OS_stat, hP.statOk, if_true, hchk]
  rw [e]
  simp only [hcrc, if_true]

theorem LoadMemFromFile_single_block (P : Platform) (hP : P.Nominal)
    (sz : MEM_MGR_MemSize_Enum_t) (hb : P.built sz = true) (A fuel : Nat)
    (pre payload : List Nat) (w : World)
    (hfile : w.fs w.openFile = pre ++ payload)
    (hpre : pre.length = P.FILE_PRI_HDR_BYTES + P.FILE_SEC_HDR_BYTES)
    (hfuel : 2 ≤ fuel) (hN : 0 < payload.length)
    (hblk : payload.length ≤ w.MemFile.LoadBlockSize)
    (hbytes : ∀ i, i < payload.length → payload.getD i 0 < 256)
    (hdiv : sz.bytes ∣ payload.length) :
    ∃ w1, LoadMemFromFile P fuel A sz payload.length w = some (true, w1)
      ∧ bytesAt w1.mem A payload.length = payload := by
  obtain ⟨k, rfl⟩ : ∃ k, fuel = k + 2 := ⟨fuel - 2, by omega⟩
  obtain ⟨w1, e1, k1, f1, m1, p1⟩ := OS_read_rest P hP pre payload payload.length
    { (w.resetTaskBlockCount.log (Ev.Lseek (P.FILE_PRI_HDR_BYTES + P.FILE_SEC_HDR_BYTES))) with
      pos := P.FILE_PRI_HDR_BYTES + P.FILE_SEC_HDR_BYTES }
    hfile hpre.symm (Nat.le_refl _)
  have h1 : ¬ (payload.length = 0) := by omega
  have h2 : (if payload.length < w.MemFile.LoadBlockSize then payload.length
      else w.MemFile.LoadBlockSize) = payload.length := by
    split <;> omega
  have h3 : ∀ (m : Nat → Nat), (w1.setIoBuf m).MemFile.IoBuf = m := fun _ => rfl
  have h4 : ∀ (m : Nat → Nat), (w1.setIoBuf m).mem = w1.mem := fun _ => rfl
  have hS : ∀ y, 0 ≤ y → y < 0 + payload.length →
      storeBytes w1.MemFile.IoBuf 0 payload y < 256 := by
    intro y _ hy
    have hy2 : 0 ≤ y ∧ y < 0 + payload.length := by omega
    simp only [storeBytes, if_pos hy2, Nat.sub_zero]
    exact hbytes y (by omega)
  unfold LoadMemFromFile
  simp only [OS_lseek, hP.lseekOk, if_true, LoadMemFromFileLoop, h1, if_false, h2]
  rw [e1]
  simp only [if_true, LoadMemFromFile_WriteBlock_ok P hP sz hb, Nat.sub_self, ne_eq,
    not_true_eq_false, if_false, Nat.zero_add, decide_True, h3, h4]
  refine ⟨_, rfl, ?_⟩
  simp only []
  rw [bytesAt_blockCopy _ _ _ _ _ _ hS hdiv, bytesAt_storeBytes]

theorem ProcessLoadFile_single_block (P : Platform) (hP : P.Nominal) (Filename : String)
    (hdr h0 : MEM_MGR_SecFileHdr_t) (payload : List Nat) (A fuel : Nat) (w : World)
    (hopen : w.openFile = Filename)
    (hfile : w.fs w.openFile = cfeHdrBytes P ++ secHdrBytes P hdr ++ payload)
    (hcodec : P.secHdrParse (secHdrBytes P hdr) = hdr) (hsec : 0 < P.FILE_SEC_HDR_BYTES)
    (hcnt : hdr.ByteCnt = payload.length) (hN : 0 < payload.length)
    (hmax : payload.length ≤ MEM_FILE_IO_BLOCK_SIZE) (hct : hdr.CrcType = P.MEM_MGR_CRC)
    (hcrc : P.CFE_ES_CalculateCRC payload 0 hdr.CrcType = hdr.Crc)
    (hres : Resolves P hdr.SymbolAddr A)
    (hty : hdr.MemType = MEM_MGR_MemType_Enum_t.MemType_RAM
      ∨ hdr.MemType = MEM_MGR_MemType_Enum_t.MemType_NONVOL)
    (hb : P.built hdr.MemSize = true) (hal : A % hdr.MemSize.bytes = 0)
    (hblk : payload.length ≤ w.MemFile.LoadBlockSize)
    (hbytes : ∀ i, i < payload.length → payload.getD i 0 < 256)
    (hdiv : hdr.MemSize.bytes ∣ payload.length) (hfuel : 2 ≤ fuel) :
    ∃ w1, ProcessLoadFile P fuel Filename h0 w = some (true, hdr, w1)
      ∧ bytesAt w1.mem A payload.length = payload := by
  obtain ⟨w1, e1, k1, f1, p1⟩ := ReadLoadFileHeaders_ok P hP hdr h0 payload w hfile hcodec hsec
  obtain ⟨w2, e2, k2, f2⟩ := ValidLoadFile_ok P hP Filename hdr payload w1
    (by rw [k1.openFile, hopen]) (by rw [f1, k1.openFile, hfile]) p1 hcnt hN hmax hct hcrc
  obtain ⟨tr, s, e3⟩ := MEMORY_VerifyAddr_ok P hP hdr.SymbolAddr hdr.MemType hdr.MemSize
    hdr.ByteCnt A w2 hres hty hb hal
  obtain ⟨w4, e4, m4⟩ := LoadMemFromFile_single_block P hP hdr.MemSize hb A
    fuel (cfeHdrBytes P ++ secHdrBytes P hdr) payload { w2 with trace := tr }
    (by
      show w2.fs w2.openFile = _
      rw [f2, f1, k2.openFile, k1.openFile, hfile])
    (by rw [List.length_append, cfeHdrBytes_length, secHdrBytes_length]) hfuel hN
    (by
      show payload.length ≤ w2.MemFile.LoadBlockSize
      rw [k2.LoadBlockSize, k1.LoadBlockSize]; exact hblk)
    hbytes hdiv
  refine ⟨w4, ?_, m4⟩
  unfold ProcessLoadFile
  rw [e1]
  simp only []
  rw [e2]
  simp only []
  rw [e3]
  simp only []
  rw [hcnt, e4]

/-- The load command on a well-formed file whose payload fits in one block, on a nominal
platform: the payload is stored at the address of the header. -/
theorem MEM_FILE_LoadCmd_single_block (P : Platform) (hP : P.Nominal) (Filename : String)
    (hdr h0 : MEM_MGR_SecFileHdr_t) (a0 : Nat) (payload : List Nat) (A fuel : Nat) (w : World)
    (hfile : w.fs Filename = cfeHdrBytes P ++ secHdrBytes P hdr ++ payload)
    (hcodec : P.secHdrParse (secHdrBytes P hdr) = hdr) (hsec : 0 < P.FILE_SEC_HDR_BYTES)
    (hcnt : hdr.ByteCnt = payload.length) (hN : 0 < payload.length)
    (hmax : payload.length ≤ MEM_FILE_IO_BLOCK_SIZE) (hct : hdr.CrcType = P.MEM_MGR_CRC)
    (hcrc : P.CFE_ES_CalculateCRC payload 0 hdr.CrcType = hdr.Crc)
    (hres : Resolves P hdr.SymbolAddr A)
    (hty : hdr.MemType = MEM_MGR_MemType_Enum_t.MemType_RAM
      ∨ hdr.MemType = MEM_MGR_MemType_Enum_t.MemType_NONVOL)
    (hb : P.built hdr.MemSize = true) (hal : A % hdr.MemSize.bytes = 0)
    (hblk : payload.length ≤ w.MemFile.LoadBlockSize)
    (hbytes : ∀ i, i < payload.length → payload.getD i 0 < 256)
    (hdiv : hdr.MemSize.bytes ∣ payload.length) (hfuel : 2 ≤ fuel) :
    ∃ w1, MEM_FILE_LoadCmd P fuel { Filename := Filename } h0 a0 w = some (true, w1)
      ∧ bytesAt w1.mem A payload.length = payload := by
  obtain ⟨w3, e3, m3⟩ := ProcessLoadFile_single_block P hP Filename hdr h0 payload A fuel
    { (World.log (w.log (Ev.VerifyFileForRead Filename)) (Ev.OpenCreate Filename)) with
      openFile := Filename, pos := 0 }
    rfl hfile hcodec hsec hcnt hN hmax hct hcrc hres hty hb hal hblk hbytes hdiv hfuel
  have hrun : MEM_FILE_LoadCmd P fuel { Filename := Filename } h0 a0 w = some (true,
      MEM_FILE_RecordCmd MEM_MGR_MemFunction_Enum_t.LOAD_FROM_FILE hdr a0 Filename
        (w3.log Ev.Close)) := by
    unfold MEM_FILE_LoadCmd
    simp only [FileUtil_VerifyFileForRead, hP.verifyFileForRead, OS_OpenCreate, hP.openOk,
      if_true]
    rw [e3]
    simp only [OS_close, hP.closeOk]
  exact ⟨_, hrun, m3⟩

theorem refPlatform_nominal : refPlatform.Nominal :=
  ⟨by decide, by decide, fun _ _ _ => rfl, fun _ _ _ => rfl, fun _ _ _ _ => rfl, fun _ _ => rfl, fun _ _ => rfl,
    fun _ _ => rfl, fun _ => rfl, fun _ _ => rfl, fun _ => rfl, fun _ => rfl, fun _ => rfl⟩

/-- C1 (amended): on a platform whose calls all succeed, let a region of `ByteCnt > 0` bytes
at the address `A` to which the symbolic address resolves, of type RAM or NONVOL and of a
built width 8, 16 or 32, be aligned to the width, a whole number of elements long, and no
longer than the dump block size, the load block size and the I/O buffer; let the file be
new, the accepted CRC type be the one the dump records, and the CRC of the region's bytes
be 0, the value the dump stores in the header.  Then `MEM_FILE_DumpCmd` followed, after any
change `mem1` of target memory, by `MEM_FILE_LoadCmd` of the same file reproduces the
original bytes of the region. -/
theorem C1_round_trip_one_block_crc_zero (P : Platform) (hP : P.Nominal)
    (Cmd : MEM_MGR_DumpToFile_CmdPayload_t) (A : Nat) (mem1 : Nat → Nat) (fuel : Nat)
    (w : World)
    (hres : Resolves P Cmd.SymbolAddr A)
    (hty : Cmd.MemType = MEM_MGR_MemType_Enum_t.MemType_RAM
      ∨ Cmd.MemType = MEM_MGR_MemType_Enum_t.MemType_NONVOL)
    (hb : P.built Cmd.MemSize = true) (hal : A % Cmd.MemSize.bytes = 0)
    (hdiv : Cmd.MemSize.bytes ∣ Cmd.ByteCnt) (hN : 0 < Cmd.ByteCnt)
    (hdump : Cmd.ByteCnt ≤ w.MemFile.DumpBlockSize)
    (hload : Cmd.ByteCnt ≤ w.MemFile.LoadBlockSize)
    (hmax : Cmd.ByteCnt ≤ MEM_FILE_IO_BLOCK_SIZE)
    (hmem : ∀ y, A ≤ y → y < A + Cmd.ByteCnt → w.mem y < 256)
    (hfile : w.fs Cmd.Filename = [])
    (hcodec : P.secHdrParse (secHdrBytes P (DumpSecFileHdr P Cmd)) = DumpSecFileHdr P Cmd)
    (hsec : 0 < P.FILE_SEC_HDR_BYTES)
    (hct : P.APP_C_FW_CrcUint8_CRC_16 = P.MEM_MGR_CRC)
    (hcrc : P.CFE_ES_CalculateCRC (bytesAt w.mem A Cmd.ByteCnt) 0
      P.APP_C_FW_CrcUint8_CRC_16 = 0)
    (hfuel : 2 ≤ fuel) :
    (DumpSecFileHdr P Cmd).Crc = 0
      ∧ ∃ w2, dumpThenLoad P fuel Cmd mem1 w = some (true, true, w2)
        ∧ bytesAt w2.mem A Cmd.ByteCnt = bytesAt w.mem A Cmd.ByteCnt := by
  refine ⟨rfl, ?_⟩
  obtain ⟨w1, e1, m1, b1, f1⟩ := MEM_FILE_DumpCmd_single_block P hP Cmd A fuel w hres hty hb hal
    hfuel hN hdump hmem hdiv hfile
  have hlen : (bytesAt w.mem A Cmd.ByteCnt).length = Cmd.ByteCnt := bytesAt_length _ _ _
  obtain ⟨w2, e2, m2⟩ := MEM_FILE_LoadCmd_single_block P hP Cmd.Filename (DumpSecFileHdr P Cmd)
    zeroSecFileHdr 0 (bytesAt w.mem A Cmd.ByteCnt) A fuel
    { w1 with mem := mem1 } f1 hcodec hsec hlen.symm (by rw [hlen]; exact hN)
    (by rw [hlen]; exact hmax) hct hcrc (Resolves_DumpSecFileHdr P Cmd A hres) hty hb hal
    (by rw [hlen]; exact hload.trans (Nat.le_of_eq b1.symm))
    (by
      intro i hi
      rw [hlen] at hi
      simp only [bytesAt, List.getD_eq_getElem?_getD, List.getElem?_map, List.getElem?_range hi,
        Option.map_some', Option.getD_some]
      exact hmem _ (by omega) (by omega))
    (by rw [hlen]; exact hdiv) hfuel
  rw [hlen] at m2
  refine ⟨w2, ?_, m2⟩
  unfold dumpThenLoad
  rw [e1]
  simp only []
  rw [e2]

/-! ## Concrete runs -/

/-- C4 witness: the file holds a valid header for four bytes at address 2000 with stored CRC 0
and a payload with one tampered byte; the CRC check fails and no memory write is made. -/
theorem C4_no_memory_write_unless_valid_witness :
    (ValidLoadFile refPlatform refFile
        (ReadLoadFileHeaders refPlatform zeroSecFileHdr
          ((initWorld (fun _ => 0) 2048).withFile refFile
            (refLoadFile (refSecFileHdr 2000 4 0) [0, 0, 7, 0])).opened).2.1
        (ReadLoadFileHeaders refPlatform zeroSecFileHdr
          ((initWorld (fun _ => 0) 2048).withFile refFile
            (refLoadFile (refSecFileHdr 2000 4 0) [0, 0, 7, 0])).opened).2.2).1 = false
    ∧ ∃ w1, ProcessLoadFile refPlatform 4 refFile zeroSecFileHdr
          ((initWorld (fun _ => 0) 2048).withFile refFile
            (refLoadFile (refSecFileHdr 2000 4 0) [0, 0, 7, 0])).opened
        = some (false, (ReadLoadFileHeaders refPlatform zeroSecFileHdr
          ((initWorld (fun _ => 0) 2048).withFile refFile
            (refLoadFile (refSecFileHdr 2000 4 0) [0, 0, 7, 0])).opened).2.1, w1)
      ∧ w1.mem = (((initWorld (fun _ => 0) 2048).withFile refFile
            (refLoadFile (refSecFileHdr 2000 4 0) [0, 0, 7, 0])).opened).mem
      ∧ w1.trace.filter Ev.isLoadAction
          = (((initWorld (fun _ => 0) 2048).withFile refFile
            (refLoadFile (refSecFileHdr 2000 4 0) [0, 0, 7, 0])).opened).trace.filter
              Ev.isLoadAction :=
  ⟨by decide!, C4_no_memory_write_unless_valid refPlatform 4 refFile zeroSecFileHdr _
    (by decide!)⟩

/-- C9 witness: the data bytes 1, 2 have CRC 20864 and the command supplies CRC 0. -/
theorem C9_crc_mismatch_no_copy_witness :
    refPlatform.CFE_ES_CalculateCRC
        (cmdDataBytes (refLoadIntDisCmd 0).Data (refLoadIntDisCmd 0).ByteCnt) 0
        (refLoadIntDisCmd 0).CrcType ≠ (refLoadIntDisCmd 0).Crc
    ∧ (MEMORY_LoadWithIntDisCmd refPlatform (refLoadIntDisCmd 0)
        (initWorld (fun _ => 0) 2048)).2.Memory.CmdStatus
      = (initWorld (fun _ => 0) 2048).Memory.CmdStatus :=
  ⟨by decide!, (C9_crc_mismatch_no_copy refPlatform (refLoadIntDisCmd 0)
    (initWorld (fun _ => 0) 2048) (by decide!)).2.2⟩

/-- C1 witness: the four bytes 1, 2, 128, 81 at address 1000 have CRC 0; they are dumped
with width 16, memory is set to 255 everywhere, and the load restores them. -/
theorem C1_round_trip_one_block_crc_zero_witness :
    crc16 [1, 2, 128, 81] 0 = 0
    ∧ ∃ w2, dumpThenLoad refPlatform 2 (refDumpCmd 1000 4 MEM_MGR_MemSize_Enum_t.MemSize_16)
          (fun _ => 255) (initWorld (ramAt 1000 [1, 2, 128, 81]) 2048) = some (true, true, w2)
        ∧ bytesAt w2.mem 1000 4 = bytesAt (ramAt 1000 [1, 2, 128, 81]) 1000 4 :=
  ⟨by decide!,
    (C1_round_trip_one_block_crc_zero refPlatform refPlatform_nominal
      (refDumpCmd 1000 4 MEM_MGR_MemSize_Enum_t.MemSize_16) 1000 (fun _ => 255) 2
      (initWorld (ramAt 1000 [1, 2, 128, 81]) 2048)
      (Resolves_absolute refPlatform { Name := [], Offset := 1000 } rfl) (Or.inl rfl) rfl
      (by decide!) (by decide!) (by decide!) (by decide!) (by decide!) (by decide!)
      (by
        intro y h1 h2
        show ramAt 1000 [1, 2, 128, 81] y < 256
        have h : 1000 ≤ y ∧ y < 1000 + [1, 2, 128, 81].length := ⟨h1, h2⟩
        simp only [ramAt, storeBytes, if_pos h]
        have h3 : y = 1000 ∨ y = 1001 ∨ y = 1002 ∨ y = 1003 := by
          simp only [refDumpCmd] at h1 h2
          omega
        rcases h3 with rfl | rfl | rfl | rfl <;> decide)
      rfl (by decide!) (by decide!) rfl (by decide!) (Nat.le_refl 2)).2⟩

/-- C1 counterexample: 64 bytes of 0xAA at address 1000 (RAM, width 8, block sizes 2048) are
dumped; the dump returns true and the payload of the file is the 64 bytes.  The file
stores CRC 0 while the CRC of the payload is 8319, so after the region is zeroed the load
of that file fails its validation in `ProcessLoadFile` and the region stays zero. -/
theorem C1_counterexample :
    (MEM_FILE_DumpCmd refPlatform 3 (refDumpCmd 1000 64 MEM_MGR_MemSize_Enum_t.MemSize_8)
        (initWorld (ramAt 1000 (List.replicate 64 0xAA)) 2048)).map
      (fun r => (r.1, (r.2.fs refFile).drop 87, bytesAt r.2.mem 1000 64))
      = some (true, List.replicate 64 0xAA, List.replicate 64 0xAA)
    ∧ crc16 (List.replicate 64 0xAA) 0 = 8319
    ∧ (dumpThenLoad refPlatform 3 (refDumpCmd 1000 64 MEM_MGR_MemSize_Enum_t.MemSize_8)
        (fun _ => 0) (initWorld (ramAt 1000 (List.replicate 64 0xAA)) 2048)).map
      (fun r => (r.1, bytesAt r.2.2.mem 1000 64,
        (r.2.2.trace.filter Ev.isMemWrite).length))
      = some (true, List.replicate 64 0, 0) := by
  decide!

/-- C2 at a failing input: memory holds 1, 2, 3, 4 at address 1000 and the dump block size
is 2.  Every read and write succeeds and `DumpMemToFile` returns true, but the payload
written is 1, 2, 1, 2: the second block is read from address 1000 again. -/
theorem C2_second_block_read_from_start :
    (DumpMemToFile refPlatform 4 1000 MEM_MGR_MemSize_Enum_t.MemSize_8 4
        (initWorld (ramAt 1000 [1, 2, 3, 4]) 2).opened).map
      (fun r => (r.1, r.2.fs refFile))
      = some (true, [1, 2, 1, 2]) := by
  decide!

/-- C3 at a failing input: the payload of the file is 1, 2, 3, 4, the load block size is 2
and the destination is address 2000.  Every read and write succeeds and `LoadMemFromFile`
returns true, but memory holds 3, 4, 0, 0: the second block is written at address 2000
again. -/
theorem C3_second_block_written_at_start :
    (LoadMemFromFile refPlatform 4 2000 MEM_MGR_MemSize_Enum_t.MemSize_8 4
        ((initWorld (fun _ => 0) 2).withFile refFile
          (refLoadFile (refSecFileHdr 2000 4 0) [1, 2, 3, 4])).opened).map
      (fun r => (r.1, bytesAt r.2.mem 2000 4))
      = some (true, [3, 4, 0, 0]) := by
  decide!

/-- C5 at a failing input: the load file has one tampered payload byte, so `ProcessLoadFile`
returns false (CRC mismatch) and memory is untouched; `MEM_FILE_LoadCmd` still returns
true, records `LOAD_FROM_FILE` in the command status and sets the last file name. -/
theorem C5_load_cmd_ignores_failed_load :
    (ProcessLoadFile refPlatform 4 refFile zeroSecFileHdr
        ((initWorld (fun _ => 0) 2048).withFile refFile
          (refLoadFile (refSecFileHdr 2000 4 0) [0, 0, 7, 0])).opened).map (fun r => r.1)
      = some false
    ∧ (initWorld (fun _ => 0) 2048).Memory.CmdStatus.Function
      = MEM_MGR_MemFunction_Enum_t.NONE_PERFORMED
    ∧ (initWorld (fun _ => 0) 2048).MemFile.Filename = ""
    ∧ (MEM_FILE_LoadCmd refPlatform 4 { Filename := refFile } zeroSecFileHdr 0
        ((initWorld (fun _ => 0) 2048).withFile refFile
          (refLoadFile (refSecFileHdr 2000 4 0) [0, 0, 7, 0]))).map
      (fun r => (r.1, r.2.Memory.CmdStatus.Function, r.2.MemFile.Filename,
        bytesAt r.2.mem 2000 4))
      = some (true, MEM_MGR_MemFunction_Enum_t.LOAD_FROM_FILE, refFile, [0, 0, 0, 0]) := by
  decide!

/-- C7 at a failing input: every file write fails, so `CreateDumpFile` returns false and the
file stays empty; `MEM_FILE_DumpCmd` still returns true, records `DUMP_TO_FILE` in the
command status and sets the last file name. -/
theorem C7_dump_cmd_ignores_failed_dump :
    (CreateDumpFile writeFailPlatform 4
        (DumpSecFileHdr writeFailPlatform (refDumpCmd 1000 4 MEM_MGR_MemSize_Enum_t.MemSize_8))
        1000 (initWorld (ramAt 1000 [1, 2, 3, 4]) 2048).opened).map (fun r => r.1)
      = some false
    ∧ (MEM_FILE_DumpCmd writeFailPlatform 4 (refDumpCmd 1000 4 MEM_MGR_MemSize_Enum_t.MemSize_8)
        (initWorld (ramAt 1000 [1, 2, 3, 4]) 2048)).map
      (fun r => (r.1, r.2.Memory.CmdStatus.Function, r.2.MemFile.Filename, r.2.fs refFile))
      = some (true, MEM_MGR_MemFunction_Enum_t.DUMP_TO_FILE, refFile, []) := by
  decide!

/-- C8 at a failing input: four bytes are dumped with block size 4 and the first `OS_write`
returns 1.  `DumpMemToFile` reads the block again and writes it again (two file writes,
eight memory reads), the file holds 1, 1, 2, 3, 4, and the function returns true. -/
theorem C8_short_write_continues :
    (DumpMemToFile shortWritePlatform 4 1000 MEM_MGR_MemSize_Enum_t.MemSize_8 4
        (initWorld (ramAt 1000 [1, 2, 3, 4]) 4).opened).map
      (fun r => (r.1, r.2.fs refFile, (r.2.trace.filter Ev.isFileWrite).length,
        (r.2.trace.filter Ev.isMemRead).length))
      = some (true, [1, 1, 2, 3, 4], 2, 8) := by
  decide!

/-- C10 at a failing input: with a supplied CRC that differs from the computed CRC, and with
a matching CRC but a failing copy primitive, `MEMORY_LoadWithIntDisCmd` returns true. -/
theorem C10_returns_true_on_failure :
    (MEMORY_LoadWithIntDisCmd refPlatform (refLoadIntDisCmd 0) (initWorld (fun _ => 0) 2048)).1
      = true
    ∧ crc16 [1, 2] 0 = 20864
    ∧ (MEMORY_LoadWithIntDisCmd copyFailPlatform (refLoadIntDisCmd 20864)
        (initWorld (fun _ => 0) 2048)).1 = true
    ∧ (MEMORY_LoadWithIntDisCmd refPlatform (refLoadIntDisCmd 20864)
        (initWorld (fun _ => 0) 2048)).1 = true := by
  decide!

/-! ## Address verification -/

theorem CreateCpuAddr_frameOf (p : Ev → Bool) (hl : ∀ nm, p (Ev.SymbolLookup nm) = false)
    (he : ∀ eid sev args, p (Ev.SendEvent eid sev args) = false) (P : Platform)
    (SymbolAddr : MEM_MGR_SymbolAddr_t) (CpuAddr : Nat) (w : World) :
    Frame p w (CreateCpuAddr P SymbolAddr CpuAddr w).2.2 := by
  unfold CreateCpuAddr OS_SymbolLookup
  dsimp only
  split
  · exact Frame.refl _ w
  · split
    · next h =>
      simp only [Prod.mk.injEq] at h
      obtain ⟨-, rfl⟩ := h
      exact Frame.log _ w (Ev.SymbolLookup _) (hl _)
    · next h =>
      simp only [Prod.mk.injEq] at h
      obtain ⟨-, rfl⟩ := h
      exact (Frame.log _ w (Ev.SymbolLookup _) (hl _)).trans (Frame.sendEvent _ he _ _ _ _)

theorem VerifyCpuAddr_status (P : Platform) (a : Nat) (t : PspMemType)
    (sz : MEM_MGR_MemSize_Enum_t) (n : Nat) (w : World) (hb : P.built sz = true) :
    (VerifyCpuAddr P a t sz n w).1 = (decide (a % sz.bytes = 0) && P.memValidateRange w.trace a n t) := by
  cases sz <;> simp [Platform.built] at hb <;>
    simp only [VerifyCpuAddr, MEM_SIZE8_VerifyCpuAddr, MEM_SIZE16_VerifyCpuAddr,
      MEM_SIZE32_VerifyCpuAddr, VerifyAlignedCpuAddr, CFE_PSP_MemValidateRange, hb, if_true,
      MEM_MGR_MemSize_Enum_t.bytes, Nat.mod_one, decide_True, Bool.true_and]
  · cases P.memValidateRange w.trace a n t <;> rfl
  · by_cases ha : a % 2 = 0
    · rw [if_pos ha]
      cases P.memValidateRange w.trace a n t <;> simp [ha]
    · rw [if_neg ha]
      simp [ha]
  · by_cases ha : a % 4 = 0
    · rw [if_pos ha]
      cases P.memValidateRange w.trace a n t <;> simp [ha]
    · rw [if_neg ha]
      simp [ha]

theorem MEMORY_VerifyAddr_resolved (P : Platform) (SymbolAddr : MEM_MGR_SymbolAddr_t)
    (MemType : MEM_MGR_MemType_Enum_t) (MemSize : MEM_MGR_MemSize_Enum_t) (ByteCnt A : Nat)
    (w w1 : World)
    (hres : CreateCpuAddr P SymbolAddr 0 (w.log (Ev.call AppFn.MEMORY_VerifyAddr)) = (true, A, w1))
    (hty : MemType = MEM_MGR_MemType_Enum_t.MemType_RAM
      ∨ MemType = MEM_MGR_MemType_Enum_t.MemType_NONVOL) :
    MEMORY_VerifyAddr P SymbolAddr MemType MemSize ByteCnt w
      = ((VerifyCpuAddr P A (GetPspMemType MemType w1).2.1 MemSize ByteCnt w1).1,
          { CpuAddr := A, TypeStr := (GetPspMemType MemType w1).2.2.1 },
          (VerifyCpuAddr P A (GetPspMemType MemType w1).2.1 MemSize ByteCnt w1).2) := by
  unfold MEMORY_VerifyAddr
  simp only []
  rw [hres]
  rcases hty with rfl | rfl <;> rfl

/-- C11: when the symbolic address resolves to `A` and the memory type is RAM or NONVOL,
`MEMORY_VerifyAddr` for a built width 8, 16 or 32 returns true exactly when `A` is a multiple
of the element size and the platform range validation of `A`, `ByteCnt` and the mapped
platform type (RAM for RAM, EEPROM for NONVOL) succeeds; it returns false for every `A`
that is not such a multiple, and on success the verified address is `A`. -/
theorem C11_verify_addr_aligned_in_range (P : Platform) (SymbolAddr : MEM_MGR_SymbolAddr_t)
    (MemType : MEM_MGR_MemType_Enum_t) (MemSize : MEM_MGR_MemSize_Enum_t) (ByteCnt A : Nat)
    (w w1 : World)
    (hres : CreateCpuAddr P SymbolAddr 0 (w.log (Ev.call AppFn.MEMORY_VerifyAddr)) = (true, A, w1))
    (hty : MemType = MEM_MGR_MemType_Enum_t.MemType_RAM
      ∨ MemType = MEM_MGR_MemType_Enum_t.MemType_NONVOL)
    (hb : P.built MemSize = true) :
    ((MEMORY_VerifyAddr P SymbolAddr MemType MemSize ByteCnt w).1 = true
        ↔ A % MemSize.bytes = 0
          ∧ P.memValidateRange w1.trace A ByteCnt
              (if MemType = MEM_MGR_MemType_Enum_t.MemType_NONVOL
                then PspMemType.CFE_PSP_MEM_EEPROM else PspMemType.CFE_PSP_MEM_RAM) = true)
      ∧ (A % MemSize.bytes ≠ 0
          → (MEMORY_VerifyAddr P SymbolAddr MemType MemSize ByteCnt w).1 = false)
      ∧ ((MEMORY_VerifyAddr P SymbolAddr MemType MemSize ByteCnt w).1 = true
          → (MEMORY_VerifyAddr P SymbolAddr MemType MemSize ByteCnt w).2.1.CpuAddr = A) := by
  rw [MEMORY_VerifyAddr_resolved P SymbolAddr MemType MemSize ByteCnt A w w1 hres hty]
  dsimp only
  rw [VerifyCpuAddr_status P A _ MemSize ByteCnt w1 hb]
  have hd : (GetPspMemType MemType w1).2.1
      = (if MemType = MEM_MGR_MemType_Enum_t.MemType_NONVOL
          then PspMemType.CFE_PSP_MEM_EEPROM else PspMemType.CFE_PSP_MEM_RAM) := by
    rcases hty with rfl | rfl <;> rfl
  rw [hd]
  refine ⟨?_, ?_, ?_⟩
  · simp
  · intro ha
    simp [ha]
  · intro _
    trivial

theorem GetPspMemType_frameOf (p : Ev → Bool)
    (he : ∀ eid sev args, p (Ev.SendEvent eid sev args) = false)
    (MemType : MEM_MGR_MemType_Enum_t) (w : World) :
    Frame p w (GetPspMemType MemType w).2.2.2 := by
  unfold GetPspMemType
  split
  · exact Frame.refl _ w
  · exact Frame.refl _ w
  · exact Frame.sendEvent _ he _ _ _ _

theorem GetPspMemType_invalid (MemType : MEM_MGR_MemType_Enum_t) (w : World)
    (h1 : MemType ≠ MEM_MGR_MemType_Enum_t.MemType_NONVOL)
    (h2 : MemType ≠ MEM_MGR_MemType_Enum_t.MemType_RAM) :
    (GetPspMemType MemType w).1 = false ∧ (GetPspMemType MemType w).2.2.1 = MEM_TYPE_UNDEF := by
  cases MemType
  · exact ⟨rfl, rfl⟩
  · exact absurd rfl h1
  · exact absurd rfl h2
  · exact ⟨rfl, rfl⟩

/-- C12: the width dispatcher of the address verification has no case for
`MEM_MGR_MemSize_VOID`: for every address, memory type and byte count `MEMORY_VerifyAddr`
returns false for that width and never consults the platform range validation.  At the
absolute address 1001 in RAM with byte count 4, where the range validation would succeed,
it returns false. -/
theorem C12_void_width_rejected :
    (∀ (P : Platform) (SymbolAddr : MEM_MGR_SymbolAddr_t) (MemType : MEM_MGR_MemType_Enum_t)
        (ByteCnt : Nat) (w : World),
        (MEMORY_VerifyAddr P SymbolAddr MemType MEM_MGR_MemSize_Enum_t.MemSize_VOID ByteCnt w).1
            = false
          ∧ (MEMORY_VerifyAddr P SymbolAddr MemType MEM_MGR_MemSize_Enum_t.MemSize_VOID ByteCnt
              w).2.2.trace.filter Ev.isRangeCheck = w.trace.filter Ev.isRangeCheck)
      ∧ (∀ t, refPlatform.memValidateRange t 1001 4 PspMemType.CFE_PSP_MEM_RAM = true)
      ∧ (MEMORY_VerifyAddr refPlatform (absAddr 1001) MEM_MGR_MemType_Enum_t.MemType_RAM
          MEM_MGR_MemSize_Enum_t.MemSize_VOID 4 (initWorld (fun _ => 0) 2048)).1 = false := by
  have key : ∀ (P : Platform) (SymbolAddr : MEM_MGR_SymbolAddr_t)
      (MemType : MEM_MGR_MemType_Enum_t) (ByteCnt : Nat) (w : World),
      (MEMORY_VerifyAddr P SymbolAddr MemType MEM_MGR_MemSize_Enum_t.MemSize_VOID ByteCnt w).1
          = false
        ∧ (MEMORY_VerifyAddr P SymbolAddr MemType MEM_MGR_MemSize_Enum_t.MemSize_VOID ByteCnt
            w).2.2.trace.filter Ev.isRangeCheck = w.trace.filter Ev.isRangeCheck := by
    intro P SymbolAddr MemType ByteCnt w
    unfold MEMORY_VerifyAddr
    dsimp only
    have h0 : Frame Ev.isRangeCheck w (w.log (Ev.call AppFn.MEMORY_VerifyAddr)) :=
      Frame.log _ w _ rfl
    have h1 := CreateCpuAddr_frameOf Ev.isRangeCheck (fun _ => rfl) (fun _ _ _ => rfl) P
      SymbolAddr 0 (w.log (Ev.call AppFn.MEMORY_VerifyAddr))
    generalize CreateCpuAddr P SymbolAddr 0 (w.log (Ev.call AppFn.MEMORY_VerifyAddr)) = x1
      at h1 ⊢
    obtain ⟨r1, a1, w1⟩ := x1
    cases r1
    · exact ⟨rfl, (h0.trans h1).trace⟩
    · have h2 := GetPspMemType_frameOf Ev.isRangeCheck (fun _ _ _ => rfl) MemType w1
      dsimp only
      generalize GetPspMemType MemType w1 = x2 at h2 ⊢
      obtain ⟨r2, t2, s2, w2⟩ := x2
      cases r2
      · exact ⟨rfl, ((h0.trans h1).trans h2).trace⟩
      · exact ⟨rfl, ((h0.trans h1).trans h2).trace⟩
  exact ⟨key, fun _ => rfl, (key _ _ _ _ _).1⟩

/-- C13: for every memory type other than NONVOL and RAM `MEMORY_VerifyAddr` returns false
and adds no call of the platform range validation to the trace; `GetPspMemType` maps NONVOL
to the platform EEPROM domain with the label "EEPROM" and RAM to the platform RAM domain
with the label "RAM". -/
theorem C13_invalid_memory_type (P : Platform) (SymbolAddr : MEM_MGR_SymbolAddr_t)
    (MemType : MEM_MGR_MemType_Enum_t) (MemSize : MEM_MGR_MemSize_Enum_t) (ByteCnt : Nat)
    (w : World)
    (h1 : MemType ≠ MEM_MGR_MemType_Enum_t.MemType_NONVOL)
    (h2 : MemType ≠ MEM_MGR_MemType_Enum_t.MemType_RAM) :
    (MEMORY_VerifyAddr P SymbolAddr MemType MemSize ByteCnt w).1 = false
      ∧ (MEMORY_VerifyAddr P SymbolAddr MemType MemSize ByteCnt w).2.2.trace.filter
          Ev.isRangeCheck = w.trace.filter Ev.isRangeCheck
      ∧ GetPspMemType MEM_MGR_MemType_Enum_t.MemType_NONVOL w
          = (true, PspMemType.CFE_PSP_MEM_EEPROM, "EEPROM", w)
      ∧ GetPspMemType MEM_MGR_MemType_Enum_t.MemType_RAM w
          = (true, PspMemType.CFE_PSP_MEM_RAM, "RAM", w) := by
  refine ⟨?_, ?_, rfl, rfl⟩
  all_goals
    unfold MEMORY_VerifyAddr
    dsimp only
    have h0 : Frame Ev.isRangeCheck w (w.log (Ev.call AppFn.MEMORY_VerifyAddr)) :=
      Frame.log _ w _ rfl
    have h3 := CreateCpuAddr_frameOf Ev.isRangeCheck (fun _ => rfl) (fun _ _ _ => rfl) P
      SymbolAddr 0 (w.log (Ev.call AppFn.MEMORY_VerifyAddr))
    generalize CreateCpuAddr P SymbolAddr 0 (w.log (Ev.call AppFn.MEMORY_VerifyAddr)) = x1
      at h3 ⊢
    obtain ⟨r1, a1, w1⟩ := x1
    cases r1
    · first | rfl | exact (h0.trans h3).trace
    · have h4 := GetPspMemType_frameOf Ev.isRangeCheck (fun _ _ _ => rfl) MemType w1
      have h5 := (GetPspMemType_invalid MemType w1 h1 h2).1
      dsimp only
      generalize GetPspMemType MemType w1 = x2 at h4 h5 ⊢
      obtain ⟨r2, t2, s2, w2⟩ := x2
      dsimp only at h5
      subst h5
      first | rfl | exact ((h0.trans h3).trans h4).trace

/-- C14: `CreateCpuAddr` on the symbol name truncated to `MEM_MGR_MAX_SYM_LEN - 1`
characters.  When that name is empty it returns true with the address `Offset` and the
state is unchanged (the symbol lookup is not called).  Otherwise the symbol lookup is
called once with that name: when it returns the address `a` the result is true with
`(a + Offset) mod 2 ^ addrBits`, and when it fails the result is false, the address word
keeps its value and the error event is sent. -/
theorem C14_create_cpu_addr (P : Platform) (SymbolAddr : MEM_MGR_SymbolAddr_t) (CpuAddr : Nat)
    (w : World) :
    (truncatedName P SymbolAddr.Name = []
        → CreateCpuAddr P SymbolAddr CpuAddr w = (true, SymbolAddr.Offset, w))
      ∧ (truncatedName P SymbolAddr.Name ≠ [] → ∀ a,
          P.symbolLookup w.trace (truncatedName P SymbolAddr.Name) = some a →
          CreateCpuAddr P SymbolAddr CpuAddr w
            = (true, (a + SymbolAddr.Offset) % 2 ^ P.addrBits,
                w.log (Ev.SymbolLookup (truncatedName P SymbolAddr.Name))))
      ∧ (truncatedName P SymbolAddr.Name ≠ [] →
          P.symbolLookup w.trace (truncatedName P SymbolAddr.Name) = none →
          CreateCpuAddr P SymbolAddr CpuAddr w
            = (false, CpuAddr, CFE_EVS_SendEvent "MEMORY_CREATE_CPU_ADDR_EID" EventType.ERROR []
                (w.log (Ev.SymbolLookup (truncatedName P SymbolAddr.Name))))) := by
  have e : (SymbolAddr.Name.set (P.MEM_MGR_MAX_SYM_LEN - 1) 0).takeWhile (fun c => c != 0)
      = truncatedName P SymbolAddr.Name := takeWhile_set_zero _ _
  have hne : truncatedName P SymbolAddr.Name ≠ [] →
      ¬ (min (truncatedName P SymbolAddr.Name).length P.MEM_MGR_MAX_SYM_LEN = 0) := by
    intro h
    have hl : 0 < (truncatedName P SymbolAddr.Name).length := List.length_pos.mpr h
    have hm : (truncatedName P SymbolAddr.Name).length ≤ P.MEM_MGR_MAX_SYM_LEN - 1 := by
      unfold truncatedName
      exact (List.takeWhile_prefix _).length_le.trans
        ((List.length_take_le _ _))
    omega
  refine ⟨?_, ?_, ?_⟩
  · intro h
    simp only [CreateCpuAddr, MEM_MGR_strnlen, e, h]
    simp
  · intro h a ha
    simp only [CreateCpuAddr, MEM_MGR_strnlen, e, OS_SymbolLookup, if_neg (hne h), ha]
  · intro h ha
    simp only [CreateCpuAddr, MEM_MGR_strnlen, e, OS_SymbolLookup, if_neg (hne h), ha]

/-- C15 (amended): the record that `MEMORY_VerifyAddr` leaves.  When the symbolic address
is not resolved the record holds its reset value, address 0 and label "UNDEF".  When the
address is resolved to `A` the record holds `A`, whatever the status returned, with the
label "EEPROM" for NONVOL, "RAM" for RAM and "UNDEF" for every other memory type: after a
failure of the memory type, the alignment, the range validation or the width the resolved
address stays in the record. -/
theorem C15_verify_addr_record (P : Platform) (SymbolAddr : MEM_MGR_SymbolAddr_t)
    (MemType : MEM_MGR_MemType_Enum_t) (MemSize : MEM_MGR_MemSize_Enum_t) (ByteCnt : Nat)
    (w : World) :
    (∀ a w1, CreateCpuAddr P SymbolAddr 0 (w.log (Ev.call AppFn.MEMORY_VerifyAddr))
          = (false, a, w1) →
        (MEMORY_VerifyAddr P SymbolAddr MemType MemSize ByteCnt w).1 = false
          ∧ (MEMORY_VerifyAddr P SymbolAddr MemType MemSize ByteCnt w).2.1
              = { CpuAddr := 0, TypeStr := "UNDEF" })
      ∧ (∀ A w1, CreateCpuAddr P SymbolAddr 0 (w.log (Ev.call AppFn.MEMORY_VerifyAddr))
          = (true, A, w1) →
        (MEMORY_VerifyAddr P SymbolAddr MemType MemSize ByteCnt w).2.1
          = { CpuAddr := A
              TypeStr := if MemType = MEM_MGR_MemType_Enum_t.MemType_NONVOL then "EEPROM"
                else if MemType = MEM_MGR_MemType_Enum_t.MemType_RAM then "RAM"
                else "UNDEF" }) := by
  refine ⟨?_, ?_⟩
  · intro a w1 h
    have ha : a = 0 := by
      have h3 := congrArg (fun x => x.2.1) h
      dsimp only at h3
      rw [← h3]
      unfold CreateCpuAddr OS_SymbolLookup
      dsimp only
      have h4 := congrArg (fun x => x.1) h
      unfold CreateCpuAddr OS_SymbolLookup at h4
      dsimp only at h4
      split
      · next hc => rw [if_pos hc] at h4; simp at h4
      · split <;> simp_all
    subst ha
    unfold MEMORY_VerifyAddr
    simp only []
    rw [h]
    exact ⟨rfl, rfl⟩
  · intro A w1 h
    unfold MEMORY_VerifyAddr
    simp only []
    rw [h]
    cases MemType <;> rfl

/-! ## Block loops: round trip and first fault -/

theorem loadLE_congr (m1 m2 : Nat → Nat) :
    ∀ (n a : Nat), (∀ y, a ≤ y → y < a + n → m1 y = m2 y) → loadLE m1 a n = loadLE m2 a n := by
  intro n
  induction n with
  | zero => intro a _; rfl
  | succ n ih =>
    intro a h
    simp only [loadLE]
    rw [h a (Nat.le_refl a) (by omega), ih (a + 1) (fun y h1 h2 => h y (by omega) (by omega))]

theorem blockCopy_round_trip (S D M : Nat → Nat) (b n a : Nat)
    (hS : ∀ y, y < n * b → S y < 256) :
    ∀ x, x < n * b → blockCopy (blockCopy S M b n 0 a) D b n a 0 x = S x := by
  intro x hx
  have h1 : ∀ y, a ≤ y → y < a + n * b → blockCopy S M b n 0 a y = S (y - a) := by
    intro y hy1 hy2
    rw [blockCopy_apply S b n M 0 a y (fun z _ hz => hS z (by omega)), if_pos ⟨hy1, hy2⟩]
    congr 1
    omega
  rw [blockCopy_apply _ b n D a 0 x (fun y hy1 hy2 => by
    rw [h1 y hy1 hy2]
    exact hS _ (by omega))]
  have h2 : 0 ≤ x ∧ x < 0 + n * b := by omega
  rw [if_pos h2, h1 _ (by omega) (by omega)]
  congr 1
  omega

theorem ReadBlockOf_loop (P : Platform) (sz : MEM_MGR_MemSize_Enum_t) (hb : P.built sz = true)
    (MemAddr : Nat) (Dest : Nat → Nat) (n : Nat) (w : World) :
    ∃ eid, ReadBlockOf P sz MemAddr Dest n w = ReadBlockLoop P sz.bytes eid n 0 MemAddr Dest 0 w := by
  cases sz <;> simp [Platform.built] at hb
  · exact ⟨"MEM_SIZE8_READ_BLOCK_EID", by simp [ReadBlockOf, MEM_SIZE8_ReadBlock, hb, MEM_MGR_MemSize_Enum_t.bytes]⟩
  · exact ⟨"MEM_SIZE16_READ_BLOCK_EID", by simp [ReadBlockOf, MEM_SIZE16_ReadBlock, hb, MEM_MGR_MemSize_Enum_t.bytes]⟩
  · exact ⟨"MEM_SIZE32_READ_BLOCK_EID", by simp [ReadBlockOf, MEM_SIZE32_ReadBlock, hb, MEM_MGR_MemSize_Enum_t.bytes]⟩

theorem WriteBlockOf_loop (P : Platform) (sz : MEM_MGR_MemSize_Enum_t) (hb : P.built sz = true)
    (MemAddr : Nat) (Src : Nat → Nat) (n : Nat) (w : World) :
    ∃ eid, WriteBlockOf P sz MemAddr Src n w = WriteBlockLoop P sz.bytes eid n 0 MemAddr Src 0 w := by
  cases sz <;> simp [Platform.built] at hb
  · exact ⟨"MEM_SIZE8_WRITE_BLOCK_EID", by simp [WriteBlockOf, MEM_SIZE8_WriteBlock, hb, MEM_MGR_MemSize_Enum_t.bytes]⟩
  · exact ⟨"MEM_SIZE16_WRITE_BLOCK_EID", by simp [WriteBlockOf, MEM_SIZE16_WriteBlock, hb, MEM_MGR_MemSize_Enum_t.bytes]⟩
  · exact ⟨"MEM_SIZE32_READ_BLOCK_EID", by simp [WriteBlockOf, MEM_SIZE32_WriteBlock, hb, MEM_MGR_MemSize_Enum_t.bytes]⟩

theorem FillBlockOf_loop (P : Platform) (sz : MEM_MGR_MemSize_Enum_t) (hb : P.built sz = true)
    (MemAddr FillData n : Nat) (w : World) :
    ∃ eid, FillBlockOf P sz MemAddr FillData n w
      = FillBlockLoop P sz.bytes eid n 0 MemAddr FillData w := by
  cases sz <;> simp [Platform.built] at hb
  · exact ⟨"MEM_SIZE8_FILL_BLOCK_EID", by simp [FillBlockOf, MEM_SIZE8_FillBlock, hb, MEM_MGR_MemSize_Enum_t.bytes]⟩
  · exact ⟨"MEM_SIZE16_READ_BLOCK_EID", by simp [FillBlockOf, MEM_SIZE16_FillBlock, hb, MEM_MGR_MemSize_Enum_t.bytes]⟩
  · exact ⟨"MEM_SIZE32_READ_BLOCK_EID", by simp [FillBlockOf, MEM_SIZE32_FillBlock, hb, MEM_MGR_MemSize_Enum_t.bytes]⟩

/-- C16: on a platform whose memory reads and writes all succeed, for a built width 8, 16 or
32, every element count `n` and every source buffer of `n` elements (byte-valued),
the block write of the width followed by the block read of the width at the same address
returns true both times and leaves in the destination buffer the bytes, and so the `n`
elements, of the source buffer. -/
theorem C16_block_round_trip (P : Platform)
    (hr : ∀ t b a, P.memReadOk t b a = true) (hw : ∀ t b a, P.memWriteOk t b a = true)
    (sz : MEM_MGR_MemSize_Enum_t) (hb : P.built sz = true) (MemAddr n : Nat)
    (Src out : Nat → Nat) (w : World) (hSrc : ∀ y, y < n * sz.bytes → Src y < 256) :
    ∃ w1 w2 out1, WriteBlockOf P sz MemAddr Src n w = (true, w1)
      ∧ ReadBlockOf P sz MemAddr out n w1 = (true, out1, w2)
      ∧ bytesAt out1 0 (n * sz.bytes) = bytesAt Src 0 (n * sz.bytes)
      ∧ elemsAt out1 sz.bytes n = elemsAt Src sz.bytes n := by
  obtain ⟨e1, h1⟩ := WriteBlockOf_loop P sz hb MemAddr Src n w
  obtain ⟨e2, h2⟩ := ReadBlockOf_loop P sz hb MemAddr out n
    { w with mem := blockCopy Src w.mem sz.bytes n 0 MemAddr,
             trace := writeTrace Src sz.bytes n MemAddr 0 w.trace }
  rw [WriteBlockLoop_ok P hw] at h1
  rw [ReadBlockLoop_ok P hr] at h2
  have hpt := blockCopy_round_trip Src out w.mem sz.bytes n MemAddr hSrc
  refine ⟨_, _, _, h1, h2, ?_, ?_⟩
  · unfold bytesAt
    apply List.map_congr_left
    intro i hi
    rw [List.mem_range] at hi
    rw [Nat.zero_add]
    exact hpt i hi
  · unfold elemsAt
    apply List.map_congr_left
    intro i hi
    rw [List.mem_range] at hi
    apply loadLE_congr
    intro y hy1 hy2
    apply hpt
    have h3 : (i + 1) * sz.bytes ≤ n * sz.bytes := Nat.mul_le_mul_right _ hi
    have h4 : (i + 1) * sz.bytes = i * sz.bytes + sz.bytes := by ring
    omega

theorem WriteBlockLoop_fault (P : Platform) (bytes : Nat) (eid : String) (S : Nat → Nat) :
    ∀ (k n i a off : Nat) (w : World), k < n →
      (∀ j, j < k →
        P.memWriteOk (writeTrace S bytes j a off w.trace) bytes (a + j * bytes) = true) →
      P.memWriteOk (writeTrace S bytes k a off w.trace) bytes (a + k * bytes) = false →
      WriteBlockLoop P bytes eid n i a S off w
        = (false, { w with
            mem := blockCopy S w.mem bytes k off a
            trace := Ev.SendEvent eid EventType.ERROR [a + k * bytes, i + k]
              :: Ev.MemWrite bytes (a + k * bytes) (loadLE S (off + k * bytes) bytes)
              :: writeTrace S bytes k a off w.trace }) := by
  intro k
  induction k with
  | zero =>
    intro n i a off w hk _ hf
    obtain ⟨n, rfl⟩ : ∃ m, n = m + 1 := ⟨n - 1, by omega⟩
    simp only [Nat.zero_mul, Nat.add_zero, writeTrace] at hf ⊢
    rw [WriteBlockLoop]
    simp only [CFE_PSP_MemWrite, hf]
    rfl
  | succ k ih =>
    intro n i a off w hk hpre hf
    obtain ⟨n, rfl⟩ : ∃ m, n = m + 1 := ⟨n - 1, by omega⟩
    have h0 := hpre 0 (Nat.succ_pos k)
    simp only [Nat.zero_mul, Nat.add_zero, writeTrace] at h0
    have e1 : ∀ j, a + (j + 1) * bytes = a + bytes + j * bytes := fun j => by ring
    have e2 : off + (k + 1) * bytes = off + bytes + k * bytes := by ring
    have e3 : i + (k + 1) = i + 1 + k := by ring
    rw [WriteBlockLoop]
    simp only [CFE_PSP_MemWrite, h0, if_true]
    rw [ih n (i + 1) (a + bytes) (off + bytes) _ (by omega)
      (fun j hj => by
        have h := hpre (j + 1) (by omega)
        rw [e1] at h
        exact h)
      (by
        rw [e1] at hf
        exact hf)]
    rw [e1, e2, e3]
    rfl

theorem ReadBlockLoop_fault (P : Platform) (bytes : Nat) (eid : String) :
    ∀ (k n i a : Nat) (Dest : Nat → Nat) (off : Nat) (w : World), k < n →
      (∀ j, j < k → P.memReadOk (readTrace bytes j a w.trace) bytes (a + j * bytes) = true) →
      P.memReadOk (readTrace bytes k a w.trace) bytes (a + k * bytes) = false →
      ReadBlockLoop P bytes eid n i a Dest off w
        = (false, blockCopy w.mem Dest bytes k a off,
            { w with
              trace := Ev.SendEvent eid EventType.ERROR [a + k * bytes, i + k]
                :: Ev.MemRead bytes (a + k * bytes) :: readTrace bytes k a w.trace }) := by
  intro k
  induction k with
  | zero =>
    intro n i a Dest off w hk _ hf
    obtain ⟨n, rfl⟩ : ∃ m, n = m + 1 := ⟨n - 1, by omega⟩
    simp only [Nat.zero_mul, Nat.add_zero, readTrace] at hf ⊢
    rw [ReadBlockLoop]
    simp only [CFE_PSP_MemRead, hf]
    rfl
  | succ k ih =>
    intro n i a Dest off w hk hpre hf
    obtain ⟨n, rfl⟩ : ∃ m, n = m + 1 := ⟨n - 1, by omega⟩
    have h0 := hpre 0 (Nat.succ_pos k)
    simp only [Nat.zero_mul, Nat.add_zero, readTrace] at h0
    have e1 : ∀ j, a + (j + 1) * bytes = a + bytes + j * bytes := fun j => by ring
    have e3 : i + (k + 1) = i + 1 + k := by ring
    rw [ReadBlockLoop]
    simp only [CFE_PSP_MemRead, h0, if_true]
    rw [ih n (i + 1) (a + bytes) _ (off + bytes) _ (by omega)
      (fun j hj => by
        have h := hpre (j + 1) (by omega)
        rw [e1] at h
        exact h)
      (by
        rw [e1] at hf
        exact hf)]
    rw [e1, e3]
    rfl

theorem FillBlockLoop_fault (P : Platform) (bytes : Nat) (eid : String) (v : Nat) :
    ∀ (k n i a : Nat) (w : World), k < n →
      (∀ j, j < k → P.memWriteOk (fillTrace bytes j a v w.trace) bytes (a + j * bytes) = true) →
      P.memWriteOk (fillTrace bytes k a v w.trace) bytes (a + k * bytes) = false →
      FillBlockLoop P bytes eid n i a v w
        = (false, { w with
            mem := blockFill w.mem bytes k a v
            trace := Ev.SendEvent eid EventType.ERROR [a + k * bytes, i + k]
              :: Ev.MemWrite bytes (a + k * bytes) v :: fillTrace bytes k a v w.trace }) := by
  intro k
  induction k with
  | zero =>
    intro n i a w hk _ hf
    obtain ⟨n, rfl⟩ : ∃ m, n = m + 1 := ⟨n - 1, by omega⟩
    simp only [Nat.zero_mul, Nat.add_zero, fillTrace] at hf ⊢
    rw [FillBlockLoop]
    simp only [CFE_PSP_MemWrite, hf]
    rfl
  | succ k ih =>
    intro n i a w hk hpre hf
    obtain ⟨n, rfl⟩ : ∃ m, n = m + 1 := ⟨n - 1, by omega⟩
    have h0 := hpre 0 (Nat.succ_pos k)
    simp only [Nat.zero_mul, Nat.add_zero, fillTrace] at h0
    have e1 : ∀ j, a + (j + 1) * bytes = a + bytes + j * bytes := fun j => by ring
    have e3 : i + (k + 1) = i + 1 + k := by ring
    rw [FillBlockLoop]
    simp only [CFE_PSP_MemWrite, h0, if_true]
    rw [ih n (i + 1) (a + bytes) _ (by omega)
      (fun j hj => by
        have h := hpre (j + 1) (by omega)
        rw [e1] at h
        exact h)
      (by
        rw [e1] at hf
        exact hf)]
    rw [e1, e3]
    rfl

/-- C17: for a built width 8, 16 or 32 and each of the block fill, block read and block
write of the width over `n` elements: when the accesses to the elements `0 .. k-1` succeed
and the access to element `k < n` faults, the call returns false; memory (for a read, the
destination buffer) holds exactly the first `k` elements transferred, none undone; the
trace gains the `k` successful accesses, the faulting access to element `k` and, as its
newest entry, one error event with the address and the index `k` of that element, so no
later element is accessed. -/
theorem C17_first_fault_aborts (P : Platform) (sz : MEM_MGR_MemSize_Enum_t)
    (hb : P.built sz = true) (MemAddr k n : Nat) (hk : k < n) (w : World) :
    (∀ FillData,
        (∀ j, j < k → P.memWriteOk (fillTrace sz.bytes j MemAddr FillData w.trace) sz.bytes
          (MemAddr + j * sz.bytes) = true) →
        P.memWriteOk (fillTrace sz.bytes k MemAddr FillData w.trace) sz.bytes
          (MemAddr + k * sz.bytes) = false →
        ∃ eid, FillBlockOf P sz MemAddr FillData n w
          = (false, { w with
              mem := blockFill w.mem sz.bytes k MemAddr FillData
              trace := Ev.SendEvent eid EventType.ERROR [MemAddr + k * sz.bytes, k]
                :: Ev.MemWrite sz.bytes (MemAddr + k * sz.bytes) FillData
                :: fillTrace sz.bytes k MemAddr FillData w.trace }))
      ∧ (∀ Dest : Nat → Nat,
        (∀ j, j < k → P.memReadOk (readTrace sz.bytes j MemAddr w.trace) sz.bytes
          (MemAddr + j * sz.bytes) = true) →
        P.memReadOk (readTrace sz.bytes k MemAddr w.trace) sz.bytes
          (MemAddr + k * sz.bytes) = false →
        ∃ eid, ReadBlockOf P sz MemAddr Dest n w
          = (false, blockCopy w.mem Dest sz.bytes k MemAddr 0,
              { w with
                trace := Ev.SendEvent eid EventType.ERROR [MemAddr + k * sz.bytes, k]
                  :: Ev.MemRead sz.bytes (MemAddr + k * sz.bytes)
                  :: readTrace sz.bytes k MemAddr w.trace }))
      ∧ (∀ Src : Nat → Nat,
        (∀ j, j < k → P.memWriteOk (writeTrace Src sz.bytes j MemAddr 0 w.trace) sz.bytes
          (MemAddr + j * sz.bytes) = true) →
        P.memWriteOk (writeTrace Src sz.bytes k MemAddr 0 w.trace) sz.bytes
          (MemAddr + k * sz.bytes) = false →
        ∃ eid, WriteBlockOf P sz MemAddr Src n w
          = (false, { w with
              mem := blockCopy Src w.mem sz.bytes k 0 MemAddr
              trace := Ev.SendEvent eid EventType.ERROR [MemAddr + k * sz.bytes, k]
                :: Ev.MemWrite sz.bytes (MemAddr + k * sz.bytes)
                    (loadLE Src (k * sz.bytes) sz.bytes)
                :: writeTrace Src sz.bytes k MemAddr 0 w.trace })) := by
  refine ⟨?_, ?_, ?_⟩
  · intro v hpre hf
    obtain ⟨eid, h⟩ := FillBlockOf_loop P sz hb MemAddr v n w
    refine ⟨eid, ?_⟩
    rw [h, FillBlockLoop_fault P sz.bytes eid v k n 0 MemAddr w hk hpre hf, Nat.zero_add]
  · intro Dest hpre hf
    obtain ⟨eid, h⟩ := ReadBlockOf_loop P sz hb MemAddr Dest n w
    refine ⟨eid, ?_⟩
    rw [h, ReadBlockLoop_fault P sz.bytes eid k n 0 MemAddr Dest 0 w hk hpre hf, Nat.zero_add]
  · intro Src hpre hf
    obtain ⟨eid, h⟩ := WriteBlockOf_loop P sz hb MemAddr Src n w
    refine ⟨eid, ?_⟩
    rw [h, WriteBlockLoop_fault P sz.bytes eid Src k n 0 MemAddr 0 w hk hpre hf, Nat.zero_add,
      Nat.zero_add]

/-! ## Write primitives and the EEPROM write flag -/

theorem Poke_nonvol (P : Platform) (sz : MEM_MGR_MemSize_Enum_t) (hb : P.built sz = true)
    (A D : Nat) (hD : D < 2 ^ 32) (s : Bool) (w : World) :
    (Poke P A MEM_MGR_MemType_Enum_t.MemType_NONVOL sz D s w).1
        = P.eepromWriteOk w.trace sz.bytes A
      ∧ (Poke P A MEM_MGR_MemType_Enum_t.MemType_NONVOL sz D s w).2.trace.filter Ev.isMemWrite
        = Ev.EepromWrite sz.bytes A (D % 256 ^ sz.bytes) :: w.trace.filter Ev.isMemWrite
      ∧ (Poke P A MEM_MGR_MemType_Enum_t.MemType_NONVOL sz D s w).2.Memory.EepromWriteEna
        = w.Memory.EepromWriteEna := by
  have h32 : D % 4294967296 = D := Nat.mod_eq_of_lt (by norm_num at hD ⊢; exact hD)
  cases sz <;> simp [Platform.built] at hb
  · by_cases h : P.eepromWriteOk w.trace 1 A = true <;>
      simp [Poke, MEM_SIZE8_Poke, PokeElement, CFE_PSP_EepromWrite, hb, h, CFE_EVS_SendEvent,
        World.log, Ev.isMemWrite, MEM_MGR_MemSize_Enum_t.bytes]
  · by_cases h : P.eepromWriteOk w.trace 2 A = true <;>
      simp [Poke, MEM_SIZE16_Poke, PokeElement, CFE_PSP_EepromWrite, hb, h, CFE_EVS_SendEvent,
        World.log, Ev.isMemWrite, MEM_MGR_MemSize_Enum_t.bytes]
  · by_cases h : P.eepromWriteOk w.trace 4 A = true <;>
      simp [Poke, MEM_SIZE32_Poke, PokeElement, CFE_PSP_EepromWrite, hb, h, CFE_EVS_SendEvent,
        World.log, Ev.isMemWrite, MEM_MGR_MemSize_Enum_t.bytes, h32]

theorem Poke_ram (P : Platform) (sz : MEM_MGR_MemSize_Enum_t) (hb : P.built sz = true)
    (A D : Nat) (hD : D < 2 ^ 32) (s : Bool) (w : World) :
    (Poke P A MEM_MGR_MemType_Enum_t.MemType_RAM sz D s w).1 = P.memWriteOk w.trace sz.bytes A
      ∧ (Poke P A MEM_MGR_MemType_Enum_t.MemType_RAM sz D s w).2.trace.filter Ev.isMemWrite
        = Ev.MemWrite sz.bytes A (D % 256 ^ sz.bytes) :: w.trace.filter Ev.isMemWrite := by
  have h32 : D % 4294967296 = D := Nat.mod_eq_of_lt (by norm_num at hD ⊢; exact hD)
  cases sz <;> simp [Platform.built] at hb
  · by_cases h : P.memWriteOk w.trace 1 A = true <;>
      simp [Poke, MEM_SIZE8_Poke, PokeElement, CFE_PSP_MemWrite, hb, h, CFE_EVS_SendEvent,
        World.log, Ev.isMemWrite, MEM_MGR_MemSize_Enum_t.bytes]
  · by_cases h : P.memWriteOk w.trace 2 A = true <;>
      simp [Poke, MEM_SIZE16_Poke, PokeElement, CFE_PSP_MemWrite, hb, h, CFE_EVS_SendEvent,
        World.log, Ev.isMemWrite, MEM_MGR_MemSize_Enum_t.bytes]
  · by_cases h : P.memWriteOk w.trace 4 A = true <;>
      simp [Poke, MEM_SIZE32_Poke, PokeElement, CFE_PSP_MemWrite, hb, h, CFE_EVS_SendEvent,
        World.log, Ev.isMemWrite, MEM_MGR_MemSize_Enum_t.bytes, h32]

theorem WriteBlockLoop_noEeprom (P : Platform) (bytes : Nat) (eid : String) (S : Nat → Nat) :
    ∀ (n i a off : Nat) (w : World),
      (WriteBlockLoop P bytes eid n i a S off w).2.trace.filter Ev.isEepromWrite
        = w.trace.filter Ev.isEepromWrite := by
  intro n
  induction n with
  | zero => intro i a off w; rfl
  | succ n ih =>
    intro i a off w
    rw [WriteBlockLoop]
    unfold CFE_PSP_MemWrite
    by_cases h : P.memWriteOk w.trace bytes a = true
    · simp only [h, if_true]
      rw [ih]
      simp [World.log, Ev.isEepromWrite]
    · simp [h, CFE_EVS_SendEvent, World.log, Ev.isEepromWrite]

theorem FillBlockLoop_noEeprom (P : Platform) (bytes : Nat) (eid : String) (v : Nat) :
    ∀ (n i a : Nat) (w : World),
      (FillBlockLoop P bytes eid n i a v w).2.trace.filter Ev.isEepromWrite
        = w.trace.filter Ev.isEepromWrite := by
  intro n
  induction n with
  | zero => intro i a w; rfl
  | succ n ih =>
    intro i a w
    rw [FillBlockLoop]
    unfold CFE_PSP_MemWrite
    by_cases h : P.memWriteOk w.trace bytes a = true
    · simp only [h, if_true]
      rw [ih]
      simp [World.log, Ev.isEepromWrite]
    · simp [h, CFE_EVS_SendEvent, World.log, Ev.isEepromWrite]

theorem FillBlockLoop_ok (P : Platform) (hw : ∀ t b a, P.memWriteOk t b a = true) (bytes : Nat)
    (eid : String) (v : Nat) :
    ∀ (n i MemAddr : Nat) (w : World),
      FillBlockLoop P bytes eid n i MemAddr v w
        = (true, { w with mem := blockFill w.mem bytes n MemAddr v,
                          trace := fillTrace bytes n MemAddr v w.trace }) := by
  intro n
  induction n with
  | zero => intro i a w; rfl
  | succ n ih =>
    intro i a w
    rw [FillBlockLoop]
    simp only [CFE_PSP_MemWrite, hw, if_true]
    rw [ih]
    rfl

/-- C18 (amended): for a built width 8, 16 or 32, `Poke` selects the write primitive by the
memory type: for NONVOL its only write is one call of the EEPROM write primitive of the
width, for RAM one call of the plain memory write primitive of the width.  The block write
and the block fill of the width take no memory type: whatever the platform does they never
call the EEPROM write primitive, and when the memory writes succeed their trace is one
plain memory write of the width per element. -/
theorem C18_write_primitive_selection (P : Platform) (sz : MEM_MGR_MemSize_Enum_t)
    (hb : P.built sz = true) (MemAddr Data : Nat) (hD : Data < 2 ^ 32) (PspStatus : Bool)
    (n : Nat) (Src : Nat → Nat) (w : World) :
    (Poke P MemAddr MEM_MGR_MemType_Enum_t.MemType_NONVOL sz Data PspStatus
          w).2.trace.filter Ev.isMemWrite
        = Ev.EepromWrite sz.bytes MemAddr (Data % 256 ^ sz.bytes) :: w.trace.filter Ev.isMemWrite
      ∧ (Poke P MemAddr MEM_MGR_MemType_Enum_t.MemType_RAM sz Data PspStatus
          w).2.trace.filter Ev.isMemWrite
        = Ev.MemWrite sz.bytes MemAddr (Data % 256 ^ sz.bytes) :: w.trace.filter Ev.isMemWrite
      ∧ (WriteBlockOf P sz MemAddr Src n w).2.trace.filter Ev.isEepromWrite
        = w.trace.filter Ev.isEepromWrite
      ∧ (FillBlockOf P sz MemAddr Data n w).2.trace.filter Ev.isEepromWrite
        = w.trace.filter Ev.isEepromWrite
      ∧ ((∀ t b a, P.memWriteOk t b a = true) →
          (WriteBlockOf P sz MemAddr Src n w).2.trace
              = writeTrace Src sz.bytes n MemAddr 0 w.trace
            ∧ (FillBlockOf P sz MemAddr Data n w).2.trace
              = fillTrace sz.bytes n MemAddr Data w.trace) := by
  obtain ⟨e1, h1⟩ := WriteBlockOf_loop P sz hb MemAddr Src n w
  obtain ⟨e2, h2⟩ := FillBlockOf_loop P sz hb MemAddr Data n w
  refine ⟨(Poke_nonvol P sz hb MemAddr Data hD PspStatus w).2.1,
    (Poke_ram P sz hb MemAddr Data hD PspStatus w).2, ?_, ?_, ?_⟩
  · rw [h1]
    exact WriteBlockLoop_noEeprom P sz.bytes e1 Src n 0 MemAddr 0 w
  · rw [h2]
    exact FillBlockLoop_noEeprom P sz.bytes e2 Data n 0 MemAddr w
  · intro hw
    rw [h1, h2, WriteBlockLoop_ok P hw, FillBlockLoop_ok P hw]
    exact ⟨rfl, rfl⟩

/-- C19 (amended): `MEMORY_PokeCmd` does not read `EepromWriteEna`.  For a poke of memory
type NONVOL and a built width 8, 16 or 32 whose address verification succeeds, whatever
the value of the flag: the command returns true exactly when the EEPROM write primitive
of the width succeeds at the verified address, that primitive is called once with the
data, and the flag keeps its value. -/
theorem C19_nonvol_poke_not_gated (P : Platform) (PokeCmd : MEM_MGR_Poke_CmdPayload_t)
    (PspStatus : Bool) (w w1 : World) (VerifiedMemory : MEMORY_VerifiedMemory_t)
    (hty : PokeCmd.MemType = MEM_MGR_MemType_Enum_t.MemType_NONVOL)
    (hb : P.built PokeCmd.MemSize = true) (hD : PokeCmd.Data < 2 ^ 32)
    (hver : MEMORY_VerifyAddr P PokeCmd.SymbolAddr PokeCmd.MemType PokeCmd.MemSize
      (P.MemSizeValue PokeCmd.MemSize) w = (true, VerifiedMemory, w1)) :
    (MEMORY_PokeCmd P PokeCmd PspStatus w).1
        = P.eepromWriteOk w1.trace PokeCmd.MemSize.bytes VerifiedMemory.CpuAddr
      ∧ (MEMORY_PokeCmd P PokeCmd PspStatus w).2.trace.filter Ev.isMemWrite
        = Ev.EepromWrite PokeCmd.MemSize.bytes VerifiedMemory.CpuAddr
            (PokeCmd.Data % 256 ^ PokeCmd.MemSize.bytes) :: w.trace.filter Ev.isMemWrite
      ∧ (MEMORY_PokeCmd P PokeCmd PspStatus w).2.Memory.EepromWriteEna
        = w.Memory.EepromWriteEna := by
  have hf := MEMORY_VerifyAddr_frame P PokeCmd.SymbolAddr PokeCmd.MemType PokeCmd.MemSize
    (P.MemSizeValue PokeCmd.MemSize) w
  rw [hver] at hf
  dsimp only at hf
  have hp := Poke_nonvol P PokeCmd.MemSize hb VerifiedMemory.CpuAddr PokeCmd.Data hD PspStatus w1
  unfold MEMORY_PokeCmd
  rw [hver]
  dsimp only
  rw [hty]
  generalize Poke P VerifiedMemory.CpuAddr MEM_MGR_MemType_Enum_t.MemType_NONVOL PokeCmd.MemSize
    PokeCmd.Data PspStatus w1 = x at hp ⊢
  obtain ⟨r, w2⟩ := x
  dsimp only at hp
  obtain ⟨hp1, hp2, hp3⟩ := hp
  cases r
  · dsimp only
    refine ⟨hp1, ?_, ?_⟩
    · simp only [CFE_EVS_SendEvent, World.log, List.filter_cons, Ev.isMemWrite]
      rw [← hf.trace]
      exact hp2
    · simp only [CFE_EVS_SendEvent, World.log]
      rw [hp3, hf.Memory]
  · dsimp only
    refine ⟨hp1, ?_, ?_⟩
    · rw [← hf.trace]
      exact hp2
    · rw [hp3, hf.Memory]

/-- C20: `EepromWriteEna` is false after `MEMORY_Constructor`.  `MEMORY_EnaEepromWriteCmd`
returns the outcome of the platform write-enable primitive for the bank: on success the
flag is true, on failure the flag keeps its value.  `MEMORY_DisEepromWriteCmd` returns the
outcome of the platform write-disable primitive for the bank: on success the flag is false,
on failure the flag keeps its value. -/
theorem C20_eeprom_write_flag (P : Platform) (EnaCmd : MEM_MGR_EnaEepromWrite_CmdPayload_t)
    (DisCmd : MEM_MGR_DisEepromWrite_CmdPayload_t) (w : World) :
    MEMORY_Constructor.EepromWriteEna = false
      ∧ (MEMORY_EnaEepromWriteCmd P EnaCmd w).1 = P.eepromWriteEnableOk w.trace EnaCmd.Bank
      ∧ (MEMORY_EnaEepromWriteCmd P EnaCmd w).2.Memory.EepromWriteEna
          = (if P.eepromWriteEnableOk w.trace EnaCmd.Bank = true then true
              else w.Memory.EepromWriteEna)
      ∧ (MEMORY_DisEepromWriteCmd P DisCmd w).1 = P.eepromWriteDisableOk w.trace DisCmd.Bank
      ∧ (MEMORY_DisEepromWriteCmd P DisCmd w).2.Memory.EepromWriteEna
          = (if P.eepromWriteDisableOk w.trace DisCmd.Bank = true then false
              else w.Memory.EepromWriteEna) := by
  refine ⟨rfl, ?_, ?_, ?_, ?_⟩
  · unfold MEMORY_EnaEepromWriteCmd CFE_PSP_EepromWriteEnable
    cases P.eepromWriteEnableOk w.trace EnaCmd.Bank <;> rfl
  · unfold MEMORY_EnaEepromWriteCmd CFE_PSP_EepromWriteEnable
    cases P.eepromWriteEnableOk w.trace EnaCmd.Bank <;> rfl
  · unfold MEMORY_DisEepromWriteCmd CFE_PSP_EepromWriteDisable
    cases P.eepromWriteDisableOk w.trace DisCmd.Bank <;> rfl
  · unfold MEMORY_DisEepromWriteCmd CFE_PSP_EepromWriteDisable
    cases P.eepromWriteDisableOk w.trace DisCmd.Bank <;> rfl

/-! ## Concrete runs: address verification, block loops, write primitives -/

/-- C11 witness: on a platform with the symbol `MEM` at 4096, the address `MEM + 6` passes
the 16-bit verification and `MEM + 7` fails it. -/
theorem C11_verify_addr_aligned_in_range_witness :
    CreateCpuAddr symPlatform { Name := [77, 69, 77], Offset := 6 } 0
        ((initWorld (fun _ => 0) 2048).log (Ev.call AppFn.MEMORY_VerifyAddr))
      = (true, 4102, ((initWorld (fun _ => 0) 2048).log (Ev.call AppFn.MEMORY_VerifyAddr)).log
          (Ev.SymbolLookup [77, 69, 77]))
    ∧ (MEMORY_VerifyAddr symPlatform { Name := [77, 69, 77], Offset := 6 }
        MEM_MGR_MemType_Enum_t.MemType_RAM MEM_MGR_MemSize_Enum_t.MemSize_16 4
        (initWorld (fun _ => 0) 2048)).1 = true
    ∧ (MEMORY_VerifyAddr symPlatform { Name := [77, 69, 77], Offset := 7 }
        MEM_MGR_MemType_Enum_t.MemType_RAM MEM_MGR_MemSize_Enum_t.MemSize_16 4
        (initWorld (fun _ => 0) 2048)).1 = false :=
  ⟨rfl,
    (C11_verify_addr_aligned_in_range symPlatform { Name := [77, 69, 77], Offset := 6 }
      MEM_MGR_MemType_Enum_t.MemType_RAM MEM_MGR_MemSize_Enum_t.MemSize_16 4 4102
      (initWorld (fun _ => 0) 2048) _ rfl (Or.inl rfl) rfl).1.mpr ⟨by decide, rfl⟩,
    (C11_verify_addr_aligned_in_range symPlatform { Name := [77, 69, 77], Offset := 7 }
      MEM_MGR_MemType_Enum_t.MemType_RAM MEM_MGR_MemSize_Enum_t.MemSize_16 4 4103
      (initWorld (fun _ => 0) 2048) _ rfl (Or.inl rfl) rfl).2.1 (by decide)⟩

/-- C13 witness: the memory type `MemType_UNDEF`. -/
theorem C13_invalid_memory_type_witness :
    MEM_MGR_MemType_Enum_t.MemType_UNDEF ≠ MEM_MGR_MemType_Enum_t.MemType_NONVOL
    ∧ MEM_MGR_MemType_Enum_t.MemType_UNDEF ≠ MEM_MGR_MemType_Enum_t.MemType_RAM
    ∧ (MEMORY_VerifyAddr refPlatform (absAddr 1000) MEM_MGR_MemType_Enum_t.MemType_UNDEF
        MEM_MGR_MemSize_Enum_t.MemSize_8 4 (initWorld (fun _ => 0) 2048)).1 = false :=
  ⟨by decide, by decide,
    (C13_invalid_memory_type refPlatform (absAddr 1000) MEM_MGR_MemType_Enum_t.MemType_UNDEF
      MEM_MGR_MemSize_Enum_t.MemSize_8 4 (initWorld (fun _ => 0) 2048)
      (by decide) (by decide)).1⟩

/-- C14 witness on a platform with names of at most 7 characters and the symbol `MEM` at
4096: an empty name gives the offset, `MEM` with offset 6 gives 4102, and a name of nine
characters is looked up by its first seven characters, which are no symbol. -/
theorem C14_create_cpu_addr_witness :
    CreateCpuAddr symPlatform { Name := [], Offset := 1000 } 0 (initWorld (fun _ => 0) 2048)
        = (true, 1000, initWorld (fun _ => 0) 2048)
    ∧ CreateCpuAddr symPlatform { Name := [77, 69, 77], Offset := 6 } 0
          (initWorld (fun _ => 0) 2048)
        = (true, 4102, (initWorld (fun _ => 0) 2048).log (Ev.SymbolLookup [77, 69, 77]))
    ∧ CreateCpuAddr symPlatform { Name := [65, 66, 67, 68, 69, 70, 71, 72, 73], Offset := 6 } 0
          (initWorld (fun _ => 0) 2048)
        = (false, 0, CFE_EVS_SendEvent "MEMORY_CREATE_CPU_ADDR_EID" EventType.ERROR []
            ((initWorld (fun _ => 0) 2048).log
              (Ev.SymbolLookup [65, 66, 67, 68, 69, 70, 71]))) :=
  ⟨(C14_create_cpu_addr symPlatform { Name := [], Offset := 1000 } 0
      (initWorld (fun _ => 0) 2048)).1 rfl,
    (C14_create_cpu_addr symPlatform { Name := [77, 69, 77], Offset := 6 } 0
      (initWorld (fun _ => 0) 2048)).2.1 (by decide) 4096 rfl,
    (C14_create_cpu_addr symPlatform { Name := [65, 66, 67, 68, 69, 70, 71, 72, 73], Offset := 6 }
      0 (initWorld (fun _ => 0) 2048)).2.2 (by decide) rfl⟩

/-- C15 counterexample: the 16-bit verification of the odd RAM address 1001 returns false
and leaves the address 1001 and the label "RAM" in the record, not the reset value. -/
theorem C15_counterexample :
    (MEMORY_VerifyAddr refPlatform (absAddr 1001) MEM_MGR_MemType_Enum_t.MemType_RAM
        MEM_MGR_MemSize_Enum_t.MemSize_16 2 (initWorld (fun _ => 0) 2048)).1 = false
    ∧ (MEMORY_VerifyAddr refPlatform (absAddr 1001) MEM_MGR_MemType_Enum_t.MemType_RAM
        MEM_MGR_MemSize_Enum_t.MemSize_16 2 (initWorld (fun _ => 0) 2048)).2.1
      = { CpuAddr := 1001, TypeStr := "RAM" }
    ∧ (MEMORY_VerifyAddr refPlatform (absAddr 1001) MEM_MGR_MemType_Enum_t.MemType_RAM
        MEM_MGR_MemSize_Enum_t.MemSize_16 2 (initWorld (fun _ => 0) 2048)).2.1
      ≠ { CpuAddr := 0, TypeStr := "UNDEF" } := by
  decide!

/-- C15 witness: an unknown symbol leaves the reset value; the address 1001 with the
undefined memory type leaves the address and the label "UNDEF". -/
theorem C15_verify_addr_record_witness :
    ((MEMORY_VerifyAddr refPlatform { Name := [88], Offset := 4 }
        MEM_MGR_MemType_Enum_t.MemType_RAM MEM_MGR_MemSize_Enum_t.MemSize_16 2
        (initWorld (fun _ => 0) 2048)).1 = false
      ∧ (MEMORY_VerifyAddr refPlatform { Name := [88], Offset := 4 }
        MEM_MGR_MemType_Enum_t.MemType_RAM MEM_MGR_MemSize_Enum_t.MemSize_16 2
        (initWorld (fun _ => 0) 2048)).2.1 = { CpuAddr := 0, TypeStr := "UNDEF" })
    ∧ (MEMORY_VerifyAddr refPlatform (absAddr 1001) MEM_MGR_MemType_Enum_t.MemType_UNDEF
        MEM_MGR_MemSize_Enum_t.MemSize_16 2 (initWorld (fun _ => 0) 2048)).2.1
      = { CpuAddr := 1001, TypeStr := "UNDEF" } :=
  ⟨(C15_verify_addr_record refPlatform { Name := [88], Offset := 4 }
      MEM_MGR_MemType_Enum_t.MemType_RAM MEM_MGR_MemSize_Enum_t.MemSize_16 2
      (initWorld (fun _ => 0) 2048)).1 0 _ rfl,
    (C15_verify_addr_record refPlatform (absAddr 1001) MEM_MGR_MemType_Enum_t.MemType_UNDEF
      MEM_MGR_MemSize_Enum_t.MemSize_16 2 (initWorld (fun _ => 0) 2048)).2 1001 _ rfl⟩

/-- C16 witness: the two 16-bit elements 513 and 1027 (bytes 1, 2, 3, 4) are written at
address 1000 and read back. -/
theorem C16_block_round_trip_witness :
    (∀ y, y < 2 * MEM_MGR_MemSize_Enum_t.MemSize_16.bytes → ramAt 0 [1, 2, 3, 4] y < 256)
    ∧ ∃ w1 w2 out1,
      WriteBlockOf refPlatform MEM_MGR_MemSize_Enum_t.MemSize_16 1000 (ramAt 0 [1, 2, 3, 4]) 2
          (initWorld (fun _ => 0) 2048) = (true, w1)
        ∧ ReadBlockOf refPlatform MEM_MGR_MemSize_Enum_t.MemSize_16 1000 (fun _ => 0) 2 w1
          = (true, out1, w2)
        ∧ bytesAt out1 0 4 = [1, 2, 3, 4]
        ∧ elemsAt out1 2 2 = [513, 1027] := by
  have hS : ∀ y, y < 2 * MEM_MGR_MemSize_Enum_t.MemSize_16.bytes
      → ramAt 0 [1, 2, 3, 4] y < 256 := by
    intro y hy
    have h4 : y < 4 := hy
    interval_cases y <;> decide
  obtain ⟨w1, w2, out1, h1, h2, h3, h4⟩ :=
    C16_block_round_trip refPlatform (fun _ _ _ => rfl) (fun _ _ _ => rfl)
      MEM_MGR_MemSize_Enum_t.MemSize_16 rfl 1000 2 (ramAt 0 [1, 2, 3, 4]) (fun _ => 0)
      (initWorld (fun _ => 0) 2048) hS
  exact ⟨hS, w1, w2, out1, h1, h2, h3.trans (by decide), h4.trans (by decide)⟩

/-- C17 witness: every access to address 1002 faults; a write of four bytes at 1000 stops
at element 2 with two bytes written, and the event carries the address 1002 and the
index 2. -/
theorem C17_first_fault_aborts_witness :
    (faultAtPlatform 1002).built MEM_MGR_MemSize_Enum_t.MemSize_8 = true
    ∧ 2 < 4
    ∧ ∃ eid w1,
      WriteBlockOf (faultAtPlatform 1002) MEM_MGR_MemSize_Enum_t.MemSize_8 1000
          (ramAt 0 [1, 2, 3, 4]) 4 (initWorld (fun _ => 0) 2048) = (false, w1)
        ∧ bytesAt w1.mem 1000 4 = [1, 2, 0, 0]
        ∧ w1.trace = [Ev.SendEvent eid EventType.ERROR [1002, 2], Ev.MemWrite 1 1002 3,
            Ev.MemWrite 1 1001 2, Ev.MemWrite 1 1000 1] := by
  obtain ⟨eid, h⟩ :=
    (C17_first_fault_aborts (faultAtPlatform 1002) MEM_MGR_MemSize_Enum_t.MemSize_8 rfl 1000 2 4
      (by decide) (initWorld (fun _ => 0) 2048)).2.2 (ramAt 0 [1, 2, 3, 4])
      (by
        intro j hj
        interval_cases j <;> rfl)
      rfl
  exact ⟨rfl, by decide, eid, _, h, rfl, rfl⟩

/-- C18 counterexample: a fill of eight bytes of non-volatile memory with 32-bit elements
and a load of four bytes into non-volatile memory from a file succeed, and each element
is written with the plain memory write primitive: the trace holds no EEPROM write. -/
theorem C18_counterexample :
    (MEMORY_FillCmd refPlatform (nonvolFillCmd 1000 8 7) (initWorld (fun _ => 0) 2048)).1 = true
    ∧ (MEMORY_FillCmd refPlatform (nonvolFillCmd 1000 8 7)
        (initWorld (fun _ => 0) 2048)).2.trace.filter Ev.isMemWrite
      = [Ev.MemWrite 4 1004 7, Ev.MemWrite 4 1000 7]
    ∧ (MEM_FILE_LoadCmd refPlatform 4 { Filename := refFile } zeroSecFileHdr 0
        ((initWorld (fun _ => 0) 2048).withFile refFile
          (refLoadFile (nonvolSecFileHdr 2000 4 0) [1, 2, 128, 81]))).map
      (fun r => (r.1, r.2.Memory.CmdStatus.Type_, bytesAt r.2.mem 2000 4,
        r.2.trace.filter Ev.isMemWrite))
      = some (true, MEM_MGR_MemType_Enum_t.MemType_NONVOL, [1, 2, 128, 81],
          [Ev.MemWrite 1 2003 81, Ev.MemWrite 1 2002 128, Ev.MemWrite 1 2001 2,
            Ev.MemWrite 1 2000 1]) := by
  decide!

/-- C18 witness: the 32-bit width on the reference platform, value 7 at address 1000. -/
theorem C18_write_primitive_selection_witness :
    refPlatform.built MEM_MGR_MemSize_Enum_t.MemSize_32 = true
    ∧ 7 < 2 ^ 32
    ∧ (Poke refPlatform 1000 MEM_MGR_MemType_Enum_t.MemType_NONVOL
        MEM_MGR_MemSize_Enum_t.MemSize_32 7 false
        (initWorld (fun _ => 0) 2048)).2.trace.filter Ev.isMemWrite = [Ev.EepromWrite 4 1000 7]
    ∧ (FillBlockOf refPlatform MEM_MGR_MemSize_Enum_t.MemSize_32 1000 7 2
        (initWorld (fun _ => 0) 2048)).2.trace.filter Ev.isEepromWrite = [] :=
  ⟨rfl, by decide,
    (C18_write_primitive_selection refPlatform MEM_MGR_MemSize_Enum_t.MemSize_32 rfl 1000 7
      (by decide) false 2 (fun _ => 0) (initWorld (fun _ => 0) 2048)).1,
    (C18_write_primitive_selection refPlatform MEM_MGR_MemSize_Enum_t.MemSize_32 rfl 1000 7
      (by decide) false 2 (fun _ => 0) (initWorld (fun _ => 0) 2048)).2.2.2.1⟩

/-- C19 counterexample: after the constructors `EepromWriteEna` is false; a poke of the
byte 7 at the non-volatile address 1000 returns true, calls the EEPROM write primitive and
stores the byte. -/
theorem C19_counterexample :
    (initWorld (fun _ => 0) 2048).Memory.EepromWriteEna = false
    ∧ (MEMORY_PokeCmd refPlatform (nonvolPokeCmd 1000 7) false
        (initWorld (fun _ => 0) 2048)).1 = true
    ∧ (MEMORY_PokeCmd refPlatform (nonvolPokeCmd 1000 7) false
        (initWorld (fun _ => 0) 2048)).2.trace.filter Ev.isEepromWrite
      = [Ev.EepromWrite 1 1000 7]
    ∧ (MEMORY_PokeCmd refPlatform (nonvolPokeCmd 1000 7) false
        (initWorld (fun _ => 0) 2048)).2.mem 1000 = 7 := by
  decide!

/-- C19 witness: the poke of the byte 7 at the non-volatile address 1000 with the flag
false. -/
theorem C19_nonvol_poke_not_gated_witness :
    (nonvolPokeCmd 1000 7).MemType = MEM_MGR_MemType_Enum_t.MemType_NONVOL
    ∧ refPlatform.built (nonvolPokeCmd 1000 7).MemSize = true
    ∧ (nonvolPokeCmd 1000 7).Data < 2 ^ 32
    ∧ (initWorld (fun _ => 0) 2048).Memory.EepromWriteEna = false
    ∧ (MEMORY_PokeCmd refPlatform (nonvolPokeCmd 1000 7) false
        (initWorld (fun _ => 0) 2048)).1 = true
    ∧ (MEMORY_PokeCmd refPlatform (nonvolPokeCmd 1000 7) false
        (initWorld (fun _ => 0) 2048)).2.Memory.EepromWriteEna = false :=
  ⟨rfl, rfl, by decide, rfl,
    (C19_nonvol_poke_not_gated refPlatform (nonvolPokeCmd 1000 7) false
      (initWorld (fun _ => 0) 2048) _ _ rfl rfl (by decide) rfl).1,
    (C19_nonvol_poke_not_gated refPlatform (nonvolPokeCmd 1000 7) false
      (initWorld (fun _ => 0) 2048) _ _ rfl rfl (by decide) rfl).2.2⟩

/-- C20 witness: on the reference platform the enable command sets the flag and the disable
command clears it again; on a platform whose bank switching fails both commands return
false and the flag keeps its value. -/
theorem C20_eeprom_write_flag_witness :
    (MEMORY_EnaEepromWriteCmd refPlatform { Bank := 1 } (initWorld (fun _ => 0) 2048)).1 = true
    ∧ (MEMORY_EnaEepromWriteCmd refPlatform { Bank := 1 }
        (initWorld (fun _ => 0) 2048)).2.Memory.EepromWriteEna = true
    ∧ (MEMORY_DisEepromWriteCmd refPlatform { Bank := 1 }
        (MEMORY_EnaEepromWriteCmd refPlatform { Bank := 1 }
          (initWorld (fun _ => 0) 2048)).2).2.Memory.EepromWriteEna = false
    ∧ (MEMORY_EnaEepromWriteCmd bankFailPlatform { Bank := 1 }
        (initWorld (fun _ => 0) 2048)).1 = false
    ∧ (MEMORY_EnaEepromWriteCmd bankFailPlatform { Bank := 1 }
        (initWorld (fun _ => 0) 2048)).2.Memory.EepromWriteEna = false
    ∧ (MEMORY_DisEepromWriteCmd bankFailPlatform { Bank := 1 }
        (MEMORY_EnaEepromWriteCmd refPlatform { Bank := 1 }
          (initWorld (fun _ => 0) 2048)).2).2.Memory.EepromWriteEna = true :=
  ⟨(C20_eeprom_write_flag refPlatform { Bank := 1 } { Bank := 1 }
      (initWorld (fun _ => 0) 2048)).2.1,
    (C20_eeprom_write_flag refPlatform { Bank := 1 } { Bank := 1 }
      (initWorld (fun _ => 0) 2048)).2.2.1,
    (C20_eeprom_write_flag refPlatform { Bank := 1 } { Bank := 1 }
      (MEMORY_EnaEepromWriteCmd refPlatform { Bank := 1 }
        (initWorld (fun _ => 0) 2048)).2).2.2.2.2,
    (C20_eeprom_write_flag bankFailPlatform { Bank := 1 } { Bank := 1 }
      (initWorld (fun _ => 0) 2048)).2.1,
    (C20_eeprom_write_flag bankFailPlatform { Bank := 1 } { Bank := 1 }
      (initWorld (fun _ => 0) 2048)).2.2.1,
    (C20_eeprom_write_flag bankFailPlatform { Bank := 1 } { Bank := 1 }
      (MEMORY_EnaEepromWriteCmd refPlatform { Bank := 1 }
        (initWorld (fun _ => 0) 2048)).2).2.2.2.2⟩

/-! ## Concrete runs: commands of memory.c and the load loop -/

/-- C21 at a failing input: a poke of the byte 7 at the RAM address 1000 succeeds and
stores the byte; the command status then holds the type, the width, the address, the data
and the byte count of the poke, but its function is `PEEK`, not `POKE`. -/
theorem C21_poke_recorded_as_peek :
    (MEMORY_PokeCmd refPlatform (ramPokeCmd 1000 7) false (initWorld (fun _ => 0) 2048)).1 = true
    ∧ (MEMORY_PokeCmd refPlatform (ramPokeCmd 1000 7) false
        (initWorld (fun _ => 0) 2048)).2.mem 1000 = 7
    ∧ (MEMORY_PokeCmd refPlatform (ramPokeCmd 1000 7) false
        (initWorld (fun _ => 0) 2048)).2.Memory.CmdStatus
      = { Function := MEM_MGR_MemFunction_Enum_t.PEEK
          Type_ := MEM_MGR_MemType_Enum_t.MemType_RAM
          Size := MEM_MGR_MemSize_Enum_t.MemSize_8
          Addr := 1000, Data := 7, ByteCnt := 1 }
    ∧ (MEMORY_PokeCmd refPlatform (ramPokeCmd 1000 7) false
        (initWorld (fun _ => 0) 2048)).2.Memory.CmdStatus.Function
      ≠ MEM_MGR_MemFunction_Enum_t.POKE := by
  decide!

/-- C23 at a failing input: with an event text of 122 characters `DumpToEventBuf` has 4
words, 16 bytes.  A dump to event of 20 bytes from address 1000, where memory holds 170
everywhere, makes 20 memory reads and stores 20 bytes from the start of the zeroed array:
the bytes at offsets 16 to 19, behind the array, hold 170 afterwards. -/
theorem C23_dump_to_event_not_capped :
    MEMORY_DUMP_TOEVENT_MAX_DWORDS refPlatform * 4 = 16
    ∧ ((MEMORY_DumpToEventCmd refPlatform (ramDumpToEventCmd 1000 20) (fun _ => 0)
        (initWorld (fun _ => 170) 2048)).2.2.trace.filter Ev.isMemRead).length = 20
    ∧ bytesAt (MEMORY_DumpToEventCmd refPlatform (ramDumpToEventCmd 1000 20) (fun _ => 0)
        (initWorld (fun _ => 170) 2048)).2.1 16 4 = [170, 170, 170, 170] := by
  decide!

/-- C26 at a failing input: a dump to event of the four bytes 1, 2, 3, 4 at the RAM address
1000 passes the address verification, reads the block and sends the event with the four
bytes, but the command returns false and the command status keeps the function
`NONE_PERFORMED`. -/
theorem C26_dump_to_event_returns_false :
    (MEMORY_DumpToEventCmd refPlatform (ramDumpToEventCmd 1000 4) (fun _ => 0)
        (initWorld (ramAt 1000 [1, 2, 3, 4]) 2048)).1 = false
    ∧ (MEMORY_DumpToEventCmd refPlatform (ramDumpToEventCmd 1000 4) (fun _ => 0)
        (initWorld (ramAt 1000 [1, 2, 3, 4]) 2048)).2.2.trace.head?
      = some (Ev.SendEvent "MEMORY_DUMP_TO_EVENT_EID" EventType.INFORMATION [1, 2, 3, 4, 1000])
    ∧ ((MEMORY_DumpToEventCmd refPlatform (ramDumpToEventCmd 1000 4) (fun _ => 0)
        (initWorld (ramAt 1000 [1, 2, 3, 4]) 2048)).2.2.trace.filter Ev.isMemRead).length = 4
    ∧ (MEMORY_DumpToEventCmd refPlatform (ramDumpToEventCmd 1000 4) (fun _ => 0)
        (initWorld (ramAt 1000 [1, 2, 3, 4]) 2048)).2.2.Memory.CmdStatus.Function
      = MEM_MGR_MemFunction_Enum_t.NONE_PERFORMED := by
  decide!

/-- C27 at a failing input: the payload of the file is 1, 2, 3, 4, the load block size is 2
and the first memory write faults.  The block write of the first block fails, yet
`LoadMemFromFile` reads the second block and writes it at address 2000: three memory
writes are attempted, memory holds 3, 4 afterwards, and the function returns false only
when the next file read meets the end of the file. -/
theorem C27_load_continues_after_failed_write :
    (LoadMemFromFile firstWriteFaultPlatform 4 2000 MEM_MGR_MemSize_Enum_t.MemSize_8 4
        ((initWorld (fun _ => 0) 2).withFile refFile
          (refLoadFile (refSecFileHdr 2000 4 0) [1, 2, 3, 4])).opened).map
      (fun r => (r.1, bytesAt r.2.mem 2000 4, r.2.trace.filter Ev.isMemWrite))
      = some (false, [3, 4, 0, 0],
          [Ev.MemWrite 1 2001 4, Ev.MemWrite 1 2000 3, Ev.MemWrite 1 2000 1]) := by
  decide!

/-! ## Runs of the transfer loops that never return -/

theorem DumpMemToFile_ReadBlock_empty (P : Platform) (sz : MEM_MGR_MemSize_Enum_t)
    (hb : P.built sz = true) (A : Nat) (r : Bool) (w : World) :
    DumpMemToFile_ReadBlock P A sz 0 r w = (true, w.setIoBuf w.MemFile.IoBuf) := by
  cases sz <;> simp [Platform.built] at hb <;>
    simp [DumpMemToFile_ReadBlock, MEM_SIZE8_ReadBlock, MEM_SIZE16_ReadBlock,
      MEM_SIZE32_ReadBlock, hb, ReadBlockLoop]

theorem LoadMemFromFile_WriteBlock_empty (P : Platform) (sz : MEM_MGR_MemSize_Enum_t)
    (hb : P.built sz = true) (A : Nat) (r : Bool) (w : World) :
    LoadMemFromFile_WriteBlock P A sz 0 r w = (true, w) := by
  cases sz <;> simp [Platform.built] at hb <;>
    simp [LoadMemFromFile_WriteBlock, MEM_SIZE8_WriteBlock, MEM_SIZE16_WriteBlock,
      MEM_SIZE32_WriteBlock, hb, WriteBlockLoop]

theorem DumpMemToFileLoop_block_zero (P : Platform) (sz : MEM_MGR_MemSize_Enum_t)
    (hb : P.built sz = true) (A : Nat) :
    ∀ (fuel : Nat) (r : Bool) (Rem BP : Nat) (w : World), 0 < Rem →
      DumpMemToFileLoop P A sz fuel r Rem 0 BP w = none := by
  intro fuel
  induction fuel with
  | zero => intro r Rem BP w _; rfl
  | succ fuel ih =>
    intro r Rem BP w hRem
    rw [DumpMemToFileLoop]
    have h0 : ¬ (Rem = 0) := by omega
    have h1 : ¬ (Rem < 0) := by omega
    simp only [h0, h1, if_false, DumpMemToFile_ReadBlock_empty P sz hb]
    generalize OS_write P _ _ = x
    obtain ⟨len, w2⟩ := x
    dsimp only
    split
    · exact ih _ _ _ _ (by omega)
    · exact ih _ _ _ _ hRem

theorem OS_read_zero (P : Platform) (hread : ∀ t, P.readOutcome t ≠ IoOutcome.fail) (w : World) :
    ∃ w1, OS_read P 0 w = (0, [], w1) := by
  unfold OS_read
  have h := hread w.trace
  cases ho : P.readOutcome w.trace with
  | fail => exact absurd ho h
  | full => simp [IoOutcome.count]
  | short k => simp [IoOutcome.count]

theorem LoadMemFromFileLoop_block_zero (P : Platform)
    (hread : ∀ t, P.readOutcome t ≠ IoOutcome.fail) (sz : MEM_MGR_MemSize_Enum_t)
    (hb : P.built sz = true) (A : Nat) :
    ∀ (fuel : Nat) (r : Bool) (Rem BP : Nat) (w : World), 0 < Rem →
      LoadMemFromFileLoop P A sz fuel r Rem 0 BP w = none := by
  intro fuel
  induction fuel with
  | zero => intro r Rem BP w _; rfl
  | succ fuel ih =>
    intro r Rem BP w hRem
    rw [LoadMemFromFileLoop]
    have h0 : ¬ (Rem = 0) := by omega
    have h1 : ¬ (Rem < 0) := by omega
    obtain ⟨w1, e1⟩ := OS_read_zero P hread w
    simp only [h0, h1, if_false, e1, Nat.cast_zero, if_true,
      LoadMemFromFile_WriteBlock_empty P sz hb]
    exact ih _ _ _ _ (by omega)

theorem OS_write_short_one (data : List Nat) (h : data.length = 4) (w : World) :
    ∃ w1, OS_write allShortWritePlatform data w = (1, w1) := by
  have ho : allShortWritePlatform.writeOutcome w.trace = IoOutcome.short 1 := rfl
  simp [OS_write, ho, IoOutcome.count, h]

theorem DumpMemToFileLoop_short_writes (A : Nat) :
    ∀ (fuel : Nat) (r : Bool) (BP : Nat) (w : World),
      DumpMemToFileLoop allShortWritePlatform A MEM_MGR_MemSize_Enum_t.MemSize_8 fuel r 4 4 BP w
        = none := by
  intro fuel
  induction fuel with
  | zero => intro r BP w; rfl
  | succ fuel ih =>
    intro r BP w
    rw [DumpMemToFileLoop]
    have hr : ∀ t b a, allShortWritePlatform.memReadOk t b a = true := fun _ _ _ => rfl
    have e1 : ∃ w1, DumpMemToFile_ReadBlock allShortWritePlatform A
        MEM_MGR_MemSize_Enum_t.MemSize_8 4 r w = (true, w1) :=
      ⟨_, by
        simp only [DumpMemToFile_ReadBlock, MEM_SIZE8_ReadBlock, ReadBlockLoop_ok _ hr]
        rfl⟩
    obtain ⟨w1, e1⟩ := e1
    obtain ⟨w2, e2⟩ := OS_write_short_one (bytesAt w1.MemFile.IoBuf 0 4) (bytesAt_length _ _ _) w1
    have h0 : ¬ (4 = 0) := by decide
    have h1 : ¬ (4 < 4) := by decide
    have hc : ¬ ((1 : Int) = ((4 : Nat) : Int)) := by decide
    simp only [h0, h1, if_false, e1, e2, hc]
    exact ih _ _ _

/-- C30 at failing inputs: with the block size 0, which `MEM_FILE_Constructor` accepts, a
dump and a load of four bytes return for no bound on the number of loop iterations; the
same holds for a dump with the block size 4 when every file write transfers one byte. -/
theorem C30_transfer_loops_never_return :
    (initWorld (fun _ => 0) 0).MemFile.DumpBlockSize = 0
    ∧ (initWorld (fun _ => 0) 0).MemFile.LoadBlockSize = 0
    ∧ (∀ fuel, DumpMemToFile refPlatform fuel 1000 MEM_MGR_MemSize_Enum_t.MemSize_8 4
        (initWorld (fun _ => 0) 0).opened = none)
    ∧ (∀ fuel, LoadMemFromFile refPlatform fuel 2000 MEM_MGR_MemSize_Enum_t.MemSize_8 4
        ((initWorld (fun _ => 0) 0).withFile refFile
          (refLoadFile (refSecFileHdr 2000 4 0) [1, 2, 3, 4])).opened = none)
    ∧ (∀ fuel, DumpMemToFile allShortWritePlatform fuel 1000 MEM_MGR_MemSize_Enum_t.MemSize_8 4
        (initWorld (ramAt 1000 [1, 2, 3, 4]) 4).opened = none) := by
  refine ⟨rfl, rfl, ?_, ?_, ?_⟩
  · intro fuel
    unfold DumpMemToFile
    have h : ((initWorld (fun _ => 0) 0).opened).MemFile.DumpBlockSize = 0 := rfl
    rw [h, DumpMemToFileLoop_block_zero refPlatform MEM_MGR_MemSize_Enum_t.MemSize_8 rfl 1000 fuel
      false 4 0 _ (by decide)]
  · intro fuel
    unfold LoadMemFromFile
    have h : (((initWorld (fun _ => 0) 0).withFile refFile
        (refLoadFile (refSecFileHdr 2000 4 0) [1, 2, 3, 4])).opened).MemFile.LoadBlockSize = 0 :=
      rfl
    rw [h]
    simp only [OS_lseek]
    have hl : refPlatform.lseekOk = fun _ => true := rfl
    simp only [hl, if_true]
    rw [LoadMemFromFileLoop_block_zero refPlatform (fun _ => by simp [refPlatform])
      MEM_MGR_MemSize_Enum_t.MemSize_8 rfl 2000 fuel false 4 0 _ (by decide)]
  · intro fuel
    unfold DumpMemToFile
    have h : ((initWorld (ramAt 1000 [1, 2, 3, 4]) 4).opened).MemFile.DumpBlockSize = 4 := rfl
    rw [h, DumpMemToFileLoop_short_writes 1000 fuel false 0 _]

/-! ## Peek, fill and the widths that are not built -/

theorem loadLE_lt (m : Nat → Nat) :
    ∀ (n a : Nat), (∀ y, a ≤ y → y < a + n → m y < 256) → loadLE m a n < 256 ^ n := by
  intro n
  induction n with
  | zero => intro a _; simp [loadLE]
  | succ n ih =>
    intro a h
    have h0 := h a (Nat.le_refl a) (by omega)
    have h1 := ih (a + 1) (fun y hy1 hy2 => h y (by omega) (by omega))
    simp only [loadLE, pow_succ]
    nlinarith

theorem storeLE_outside :
    ∀ (n : Nat) (m : Nat → Nat) (a v x : Nat), (x < a ∨ a + n ≤ x) → storeLE m a n v x = m x := by
  intro n
  induction n with
  | zero => intro m a v x _; rfl
  | succ n ih =>
    intro m a v x hx
    rw [storeLE, ih _ _ _ _ (by omega)]
    have h : ¬ (x = a) := by omega
    simp [h]

theorem loadLE_storeLE :
    ∀ (n : Nat) (m : Nat → Nat) (a v : Nat), loadLE (storeLE m a n v) a n = v % 256 ^ n := by
  intro n
  induction n with
  | zero => intro m a v; simp [loadLE, Nat.mod_one]
  | succ n ih =>
    intro m a v
    rw [storeLE, loadLE, ih, storeLE_outside n _ (a + 1) _ a (Or.inl (Nat.lt_succ_self a))]
    simp only [if_true]
    rw [pow_succ, Nat.mul_comm (256 ^ n) 256, Nat.mod_mul]

theorem blockFill_outside (bytes v : Nat) :
    ∀ (n : Nat) (D : Nat → Nat) (d x : Nat), (x < d ∨ d + n * bytes ≤ x) →
      blockFill D bytes n d v x = D x := by
  intro n
  induction n with
  | zero => intro D d x _; rfl
  | succ n ih =>
    intro D d x hx
    have e : (n + 1) * bytes = n * bytes + bytes := by ring
    rw [e] at hx
    rw [blockFill, ih _ _ _ (by omega), storeLE_outside _ _ _ _ _ (by omega)]

theorem blockFill_elem (bytes v : Nat) :
    ∀ (n : Nat) (D : Nat → Nat) (d i : Nat), i < n →
      loadLE (blockFill D bytes n d v) (d + i * bytes) bytes = v % 256 ^ bytes := by
  intro n
  induction n with
  | zero => intro D d i hi; omega
  | succ n ih =>
    intro D d i hi
    rw [blockFill]
    cases i with
    | zero =>
      rw [Nat.zero_mul, Nat.add_zero, ← loadLE_storeLE bytes D d v]
      apply loadLE_congr
      intro y hy1 hy2
      exact blockFill_outside bytes v n _ (d + bytes) y (Or.inl hy2)
    | succ i =>
      have e : d + (i + 1) * bytes = d + bytes + i * bytes := by ring
      rw [e]
      exact ih _ _ i (by omega)

theorem FillBlockLoop_true (P : Platform) (bytes : Nat) (eid : String) (v : Nat) :
    ∀ (n i a : Nat) (w : World), (FillBlockLoop P bytes eid n i a v w).1 = true →
      (FillBlockLoop P bytes eid n i a v w).2.mem = blockFill w.mem bytes n a v
        ∧ (FillBlockLoop P bytes eid n i a v w).2.Memory = w.Memory := by
  intro n
  induction n with
  | zero => intro i a w _; exact ⟨rfl, rfl⟩
  | succ n ih =>
    intro i a w h
    rw [FillBlockLoop] at h ⊢
    unfold CFE_PSP_MemWrite at h ⊢
    by_cases hok : P.memWriteOk w.trace bytes a = true
    · simp only [hok, if_true] at h ⊢
      exact ih _ _ _ h
    · simp [hok] at h

theorem FillMemBlock_loop (P : Platform) (sz : MEM_MGR_MemSize_Enum_t) (hb : P.built sz = true)
    (A Data N : Nat) (w : World) :
    ∃ eid v, FillMemBlock P A sz Data N w = FillBlockLoop P sz.bytes eid (N / sz.bytes) 0 A v w
      ∧ v % 256 ^ sz.bytes = Data % 256 ^ sz.bytes := by
  cases sz <;> simp [Platform.built] at hb
  · exact ⟨"MEM_SIZE8_FILL_BLOCK_EID", Data % 256,
      by simp [FillMemBlock, MEM_SIZE8_FillBlock, hb, MEM_MGR_MemSize_Enum_t.bytes],
      by simp [MEM_MGR_MemSize_Enum_t.bytes]⟩
  · exact ⟨"MEM_SIZE16_READ_BLOCK_EID", Data % 65536,
      by simp [FillMemBlock, MEM_SIZE16_FillBlock, hb, MEM_MGR_MemSize_Enum_t.bytes],
      by simp [MEM_MGR_MemSize_Enum_t.bytes]⟩
  · exact ⟨"MEM_SIZE32_READ_BLOCK_EID", Data,
      by simp [FillMemBlock, MEM_SIZE32_FillBlock, hb, MEM_MGR_MemSize_Enum_t.bytes], rfl⟩

/-- C24: for a built width 8, 16 or 32 and a byte count that is a multiple of the element
size, when `MEMORY_FillCmd` returns true with the verified address `A`: every element of
the region of `ByteCnt` bytes at `A` holds the fill data reduced to the width, memory
outside the region is unchanged, and the command status holds `FILL`, the commanded type
and width, `A`, the commanded data and the commanded byte count. -/
theorem C24_fill_cmd (P : Platform) (FillCmd : MEM_MGR_Fill_CmdPayload_t) (w w1 : World)
    (VerifiedMemory : MEMORY_VerifiedMemory_t)
    (hb : P.built FillCmd.MemSize = true)
    (hdiv : FillCmd.MemSize.bytes ∣ FillCmd.ByteCnt)
    (hver : MEMORY_VerifyAddr P FillCmd.SymbolAddr FillCmd.MemType FillCmd.MemSize
      FillCmd.ByteCnt w = (true, VerifiedMemory, w1))
    (hok : (MEMORY_FillCmd P FillCmd w).1 = true) :
    (∀ i, i < FillCmd.ByteCnt / FillCmd.MemSize.bytes →
        loadLE (MEMORY_FillCmd P FillCmd w).2.mem
            (VerifiedMemory.CpuAddr + i * FillCmd.MemSize.bytes) FillCmd.MemSize.bytes
          = FillCmd.Data % 256 ^ FillCmd.MemSize.bytes)
      ∧ (∀ x, (x < VerifiedMemory.CpuAddr ∨ VerifiedMemory.CpuAddr + FillCmd.ByteCnt ≤ x) →
          (MEMORY_FillCmd P FillCmd w).2.mem x = w.mem x)
      ∧ (MEMORY_FillCmd P FillCmd w).2.Memory.CmdStatus
        = { Function := MEM_MGR_MemFunction_Enum_t.FILL
            Type_ := FillCmd.MemType
            Size := FillCmd.MemSize
            Addr := VerifiedMemory.CpuAddr
            Data := FillCmd.Data
            ByteCnt := FillCmd.ByteCnt } := by
  have hf := MEMORY_VerifyAddr_frame P FillCmd.SymbolAddr FillCmd.MemType FillCmd.MemSize
    FillCmd.ByteCnt w
  rw [hver] at hf
  dsimp only at hf
  obtain ⟨eid, v, hl, hv⟩ := FillMemBlock_loop P FillCmd.MemSize hb VerifiedMemory.CpuAddr
    FillCmd.Data FillCmd.ByteCnt w1
  have ht := FillBlockLoop_true P FillCmd.MemSize.bytes eid v
    (FillCmd.ByteCnt / FillCmd.MemSize.bytes) 0 VerifiedMemory.CpuAddr w1
  rw [← hl] at ht
  unfold MEMORY_FillCmd at hok ⊢
  rw [hver] at hok ⊢
  dsimp only at hok ⊢
  generalize FillMemBlock P VerifiedMemory.CpuAddr FillCmd.MemSize FillCmd.Data FillCmd.ByteCnt
    w1 = x at ht hok ⊢
  obtain ⟨r, w2⟩ := x
  cases r
  · simp at hok
  · obtain ⟨hm, _⟩ := ht rfl
    dsimp only at hm ⊢
    simp only [CFE_EVS_SendEvent, World.log]
    rw [hm, hf.mem]
    refine ⟨?_, ?_, trivial⟩
    · intro i hi
      rw [blockFill_elem _ _ _ _ _ _ hi, hv]
    · intro x hx
      apply blockFill_outside
      rw [Nat.div_mul_cancel hdiv]
      exact hx

/-- Value of a zeroed 32-bit object after an element of `b` bytes is stored at its first
byte: the element on a little-endian CPU, the element moved to the high-order bytes on a
big-endian CPU. -/
theorem peekWord (be : Bool) (b v : Nat) (hb : b = 1 ∨ b = 2 ∨ b = 4) :
    loadObj be (storeObj be (fun _ => 0) 0 b v) 0 4
      = v % 256 ^ b * (if be = true then 256 ^ (4 - b) else 1) := by
  cases be <;> rcases hb with rfl | rfl | rfl <;>
    simp [loadObj, storeObj, loadLE, storeLE, loadBE, storeBE] <;> omega

theorem Peek_status (P : Platform) (A : Nat) (ty : MEM_MGR_MemType_Enum_t)
    (sz : MEM_MGR_MemSize_Enum_t) (w : World) :
    ((Peek P A ty sz w).1 = true →
        (Peek P A ty sz w).2.Memory.CmdStatus
          = { Function := MEM_MGR_MemFunction_Enum_t.PEEK, Type_ := ty, Size := sz, Addr := A,
              Data := loadLE w.mem A sz.bytes % 256 ^ sz.bytes
                * (if P.bigEndian = true then 256 ^ (4 - sz.bytes) else 1)
              ByteCnt := sz.bytes })
      ∧ ((Peek P A ty sz w).1 = false → (Peek P A ty sz w).2.Memory = w.Memory) := by
  cases sz
  · exact ⟨fun h => by simp [Peek] at h, fun _ => rfl⟩
  · unfold Peek MEM_SIZE8_Peek CFE_PSP_MemRead
    by_cases hi : P.INCL_MEM_SIZE8 = true <;> by_cases hr : P.memReadOk w.trace 1 A = true <;>
      simp [hi, hr, CFE_EVS_SendEvent, World.log, MEM_MGR_MemSize_Enum_t.bytes,
        peekWord P.bigEndian 1 _ (Or.inl rfl)]
  · unfold Peek MEM_SIZE16_Peek CFE_PSP_MemRead
    by_cases hi : P.INCL_MEM_SIZE16 = true <;> by_cases hr : P.memReadOk w.trace 2 A = true <;>
      simp [hi, hr, CFE_EVS_SendEvent, World.log, MEM_MGR_MemSize_Enum_t.bytes,
        peekWord P.bigEndian 2 _ (Or.inr (Or.inl rfl))]
  · unfold Peek MEM_SIZE32_Peek CFE_PSP_MemRead
    by_cases hi : P.INCL_MEM_SIZE32 = true <;> by_cases hr : P.memReadOk w.trace 4 A = true <;>
      simp [hi, hr, CFE_EVS_SendEvent, World.log, MEM_MGR_MemSize_Enum_t.bytes,
        peekWord P.bigEndian 4 _ (Or.inr (Or.inr rfl))]
  · exact ⟨fun h => by simp [Peek] at h, fun _ => rfl⟩
  · exact ⟨fun h => by simp [Peek] at h, fun _ => rfl⟩

/-- Command status after `MEMORY_PeekCmd`.  When the command returns true (which it does
for the widths 8, 16 and 32 only), the status holds `PEEK`, the commanded type and width,
the verified address, the element size in bytes, and as data the value `v` of the element
read at that address on a little-endian CPU, but `v` moved to the high-order bytes of the
word, `v * 256 ^ (4 - size)`, on a big-endian CPU.  When the command returns false the
status is unchanged. -/
theorem MEMORY_PeekCmd_status (P : Platform) (PeekCmd : MEM_MGR_Peek_CmdPayload_t) (w : World)
    (hmem : ∀ y, (MEMORY_VerifyAddr P PeekCmd.SymbolAddr PeekCmd.MemType PeekCmd.MemSize
        (P.MemSizeValue PeekCmd.MemSize) w).2.1.CpuAddr ≤ y →
      y < (MEMORY_VerifyAddr P PeekCmd.SymbolAddr PeekCmd.MemType PeekCmd.MemSize
        (P.MemSizeValue PeekCmd.MemSize) w).2.1.CpuAddr + PeekCmd.MemSize.bytes →
      w.mem y < 256) :
    ((MEMORY_PeekCmd P PeekCmd w).1 = true →
        (MEMORY_PeekCmd P PeekCmd w).2.Memory.CmdStatus
          = { Function := MEM_MGR_MemFunction_Enum_t.PEEK
              Type_ := PeekCmd.MemType
              Size := PeekCmd.MemSize
              Addr := (MEMORY_VerifyAddr P PeekCmd.SymbolAddr PeekCmd.MemType PeekCmd.MemSize
                (P.MemSizeValue PeekCmd.MemSize) w).2.1.CpuAddr
              Data := loadLE w.mem (MEMORY_VerifyAddr P PeekCmd.SymbolAddr PeekCmd.MemType
                PeekCmd.MemSize (P.MemSizeValue PeekCmd.MemSize) w).2.1.CpuAddr
                PeekCmd.MemSize.bytes
                * (if P.bigEndian = true then 256 ^ (4 - PeekCmd.MemSize.bytes) else 1)
              ByteCnt := PeekCmd.MemSize.bytes })
      ∧ ((MEMORY_PeekCmd P PeekCmd w).1 = false →
          (MEMORY_PeekCmd P PeekCmd w).2.Memory.CmdStatus = w.Memory.CmdStatus) := by
  have hf := MEMORY_VerifyAddr_frame P PeekCmd.SymbolAddr PeekCmd.MemType PeekCmd.MemSize
    (P.MemSizeValue PeekCmd.MemSize) w
  unfold MEMORY_PeekCmd
  generalize MEMORY_VerifyAddr P PeekCmd.SymbolAddr PeekCmd.MemType PeekCmd.MemSize
    (P.MemSizeValue PeekCmd.MemSize) w = x at hf hmem ⊢
  obtain ⟨r, V, w1⟩ := x
  dsimp only at hf hmem ⊢
  cases r
  · exact ⟨fun h => by simp at h, fun _ => by rw [hf.Memory]⟩
  · have hp := Peek_status P V.CpuAddr PeekCmd.MemType PeekCmd.MemSize w1
    have hv : loadLE w.mem V.CpuAddr PeekCmd.MemSize.bytes % 256 ^ PeekCmd.MemSize.bytes
        = loadLE w.mem V.CpuAddr PeekCmd.MemSize.bytes :=
      Nat.mod_eq_of_lt (loadLE_lt w.mem _ _ hmem)
    rw [hf.mem, hv] at hp
    dsimp only
    generalize Peek P V.CpuAddr PeekCmd.MemType PeekCmd.MemSize w1 = y at hp ⊢
    obtain ⟨r2, w2⟩ := y
    cases r2
    · refine ⟨fun h => by simp at h, fun _ => ?_⟩
      simp only [CFE_EVS_SendEvent, World.log]
      rw [hp.2 rfl, hf.Memory]
    · exact ⟨fun _ => hp.1 rfl, fun h => by simp at h⟩

/-- C25: when the build option of a width is not defined, each of the six functions of the
width returns false for every argument, leaves its output buffer alone and changes the
state by one trace entry only, the error event `MEM_SIZEn_OPT_INCL_EID`: no platform
memory primitive is called. -/
theorem C25_width_not_built (P : Platform) (MemAddr n v : Nat) (buf : Nat → Nat)
    (ty : MEM_MGR_MemType_Enum_t) (t : PspMemType) (s : Bool) (w : World) :
    (P.INCL_MEM_SIZE8 = false →
        MEM_SIZE8_FillBlock P MemAddr v n w
            = (false, CFE_EVS_SendEvent "MEM_SIZE8_OPT_INCL_EID" EventType.ERROR [] w)
          ∧ MEM_SIZE8_Peek P MemAddr buf w
            = (false, buf, CFE_EVS_SendEvent "MEM_SIZE8_OPT_INCL_EID" EventType.ERROR [] w)
          ∧ MEM_SIZE8_Poke P MemAddr ty v s w
            = (false, CFE_EVS_SendEvent "MEM_SIZE8_OPT_INCL_EID" EventType.ERROR [] w)
          ∧ MEM_SIZE8_ReadBlock P MemAddr buf n w
            = (false, buf, CFE_EVS_SendEvent "MEM_SIZE8_OPT_INCL_EID" EventType.ERROR [] w)
          ∧ MEM_SIZE8_VerifyCpuAddr P MemAddr t n w
            = (false, CFE_EVS_SendEvent "MEM_SIZE8_OPT_INCL_EID" EventType.ERROR [] w)
          ∧ MEM_SIZE8_WriteBlock P MemAddr buf n w
            = (false, CFE_EVS_SendEvent "MEM_SIZE8_OPT_INCL_EID" EventType.ERROR [] w))
      ∧ (P.INCL_MEM_SIZE16 = false →
        MEM_SIZE16_FillBlock P MemAddr v n w
            = (false, CFE_EVS_SendEvent "MEM_SIZE16_OPT_INCL_EID" EventType.ERROR [] w)
          ∧ MEM_SIZE16_Peek P MemAddr buf w
            = (false, buf, CFE_EVS_SendEvent "MEM_SIZE16_OPT_INCL_EID" EventType.ERROR [] w)
          ∧ MEM_SIZE16_Poke P MemAddr ty v s w
            = (false, CFE_EVS_SendEvent "MEM_SIZE16_OPT_INCL_EID" EventType.ERROR [] w)
          ∧ MEM_SIZE16_ReadBlock P MemAddr buf n w
            = (false, buf, CFE_EVS_SendEvent "MEM_SIZE16_OPT_INCL_EID" EventType.ERROR [] w)
          ∧ MEM_SIZE16_VerifyCpuAddr P MemAddr t n w
            = (false, CFE_EVS_SendEvent "MEM_SIZE16_OPT_INCL_EID" EventType.ERROR [] w)
          ∧ MEM_SIZE16_WriteBlock P MemAddr buf n w
            = (false, CFE_EVS_SendEvent "MEM_SIZE16_OPT_INCL_EID" EventType.ERROR [] w))
      ∧ (P.INCL_MEM_SIZE32 = false →
        MEM_SIZE32_FillBlock P MemAddr v n w
            = (false, CFE_EVS_SendEvent "MEM_SIZE32_OPT_INCL_EID" EventType.ERROR [] w)
          ∧ MEM_SIZE32_Peek P MemAddr buf w
            = (false, buf, CFE_EVS_SendEvent "MEM_SIZE32_OPT_INCL_EID" EventType.ERROR [] w)
          ∧ MEM_SIZE32_Poke P MemAddr ty v s w
            = (false, CFE_EVS_SendEvent "MEM_SIZE32_OPT_INCL_EID" EventType.ERROR [] w)
          ∧ MEM_SIZE32_ReadBlock P MemAddr buf n w
            = (false, buf, CFE_EVS_SendEvent "MEM_SIZE32_OPT_INCL_EID" EventType.ERROR [] w)
          ∧ MEM_SIZE32_VerifyCpuAddr P MemAddr t n w
            = (false, CFE_EVS_SendEvent "MEM_SIZE32_OPT_INCL_EID" EventType.ERROR [] w)
          ∧ MEM_SIZE32_WriteBlock P MemAddr buf n w
            = (false, CFE_EVS_SendEvent "MEM_SIZE32_OPT_INCL_EID" EventType.ERROR [] w)) := by
  refine ⟨fun h => ?_, fun h => ?_, fun h => ?_⟩
  · simp [MEM_SIZE8_FillBlock, MEM_SIZE8_Peek, MEM_SIZE8_Poke, MEM_SIZE8_ReadBlock,
      MEM_SIZE8_VerifyCpuAddr, MEM_SIZE8_WriteBlock, h]
  · simp [MEM_SIZE16_FillBlock, MEM_SIZE16_Peek, MEM_SIZE16_Poke, MEM_SIZE16_ReadBlock,
      MEM_SIZE16_VerifyCpuAddr, MEM_SIZE16_WriteBlock, h]
  · simp [MEM_SIZE32_FillBlock, MEM_SIZE32_Peek, MEM_SIZE32_Poke, MEM_SIZE32_ReadBlock,
      MEM_SIZE32_VerifyCpuAddr, MEM_SIZE32_WriteBlock, h]

/-! ## Trace entries added by the transfer functions -/

/-- C24 witness: a fill of four bytes at the RAM address 1000 with 16-bit elements and the
data 0x1234AB leaves the element 0x34AB = 13483 twice. -/
theorem C24_fill_cmd_witness :
    refPlatform.built (ramFillCmd 1000 4 1193131 MEM_MGR_MemSize_Enum_t.MemSize_16).MemSize = true
    ∧ (ramFillCmd 1000 4 1193131 MEM_MGR_MemSize_Enum_t.MemSize_16).MemSize.bytes
        ∣ (ramFillCmd 1000 4 1193131 MEM_MGR_MemSize_Enum_t.MemSize_16).ByteCnt
    ∧ (MEMORY_FillCmd refPlatform (ramFillCmd 1000 4 1193131 MEM_MGR_MemSize_Enum_t.MemSize_16)
        (initWorld (fun _ => 0) 2048)).1 = true
    ∧ bytesAt (MEMORY_FillCmd refPlatform
        (ramFillCmd 1000 4 1193131 MEM_MGR_MemSize_Enum_t.MemSize_16)
        (initWorld (fun _ => 0) 2048)).2.mem 999 6 = [0, 171, 52, 171, 52, 0]
    ∧ (MEMORY_FillCmd refPlatform (ramFillCmd 1000 4 1193131 MEM_MGR_MemSize_Enum_t.MemSize_16)
        (initWorld (fun _ => 0) 2048)).2.Memory.CmdStatus
      = { Function := MEM_MGR_MemFunction_Enum_t.FILL
          Type_ := MEM_MGR_MemType_Enum_t.MemType_RAM
          Size := MEM_MGR_MemSize_Enum_t.MemSize_16
          Addr := 1000, Data := 1193131, ByteCnt := 4 } :=
  ⟨rfl, by decide, by decide!, by decide!,
    (C24_fill_cmd refPlatform (ramFillCmd 1000 4 1193131 MEM_MGR_MemSize_Enum_t.MemSize_16)
      (initWorld (fun _ => 0) 2048) _ _ rfl (by decide) rfl (by decide!)).2.2⟩

/-- C25 witness: on a platform built without the three widths, the 8-bit fill, the 16-bit
peek and the 32-bit block write return false and add the not-included event of the width. -/
theorem C25_width_not_built_witness :
    MEM_SIZE8_FillBlock noWidthPlatform 1000 7 4 (initWorld (fun _ => 0) 2048)
        = (false, CFE_EVS_SendEvent "MEM_SIZE8_OPT_INCL_EID" EventType.ERROR []
            (initWorld (fun _ => 0) 2048))
    ∧ MEM_SIZE16_Peek noWidthPlatform 1000 (fun _ => 0) (initWorld (fun _ => 0) 2048)
        = (false, fun _ => 0, CFE_EVS_SendEvent "MEM_SIZE16_OPT_INCL_EID" EventType.ERROR []
            (initWorld (fun _ => 0) 2048))
    ∧ MEM_SIZE32_WriteBlock noWidthPlatform 1000 (fun _ => 0) 4 (initWorld (fun _ => 0) 2048)
        = (false, CFE_EVS_SendEvent "MEM_SIZE32_OPT_INCL_EID" EventType.ERROR []
            (initWorld (fun _ => 0) 2048)) :=
  ⟨((C25_width_not_built noWidthPlatform 1000 4 7 (fun _ => 0)
      MEM_MGR_MemType_Enum_t.MemType_RAM PspMemType.CFE_PSP_MEM_RAM false
      (initWorld (fun _ => 0) 2048)).1 rfl).1,
    ((C25_width_not_built noWidthPlatform 1000 4 7 (fun _ => 0)
      MEM_MGR_MemType_Enum_t.MemType_RAM PspMemType.CFE_PSP_MEM_RAM false
      (initWorld (fun _ => 0) 2048)).2.1 rfl).2.1,
    ((C25_width_not_built noWidthPlatform 1000 4 7 (fun _ => 0)
      MEM_MGR_MemType_Enum_t.MemType_RAM PspMemType.CFE_PSP_MEM_RAM false
      (initWorld (fun _ => 0) 2048)).2.2 rfl).2.2.2.2.2⟩

/-- C22 at a failing input: memory holds 7 in every byte and the CPU is big-endian.  The
peeks of width 8 and 16 at the RAM address 1000 return true and record `PEEK`, the type,
the width, the address and the byte count, but the data recorded is the element moved to
the high-order bytes of the word: 0x07000000 for the byte 0x07 and 0x07070000 for the
element 0x0707.  The peek of width 32 records the element, and on the little-endian
reference platform all three widths do. -/
theorem C22_peek_big_endian_shifted :
    (MEMORY_PeekCmd bigEndianPlatform (ramPeekCmd 1000 MEM_MGR_MemSize_Enum_t.MemSize_8)
        (initWorld (fun _ => 7) 2048)).1 = true
    ∧ (MEMORY_PeekCmd bigEndianPlatform (ramPeekCmd 1000 MEM_MGR_MemSize_Enum_t.MemSize_8)
        (initWorld (fun _ => 7) 2048)).2.Memory.CmdStatus
      = { Function := MEM_MGR_MemFunction_Enum_t.PEEK
          Type_ := MEM_MGR_MemType_Enum_t.MemType_RAM
          Size := MEM_MGR_MemSize_Enum_t.MemSize_8
          Addr := 1000, Data := 117440512, ByteCnt := 1 }
    ∧ (MEMORY_PeekCmd bigEndianPlatform (ramPeekCmd 1000 MEM_MGR_MemSize_Enum_t.MemSize_16)
        (initWorld (fun _ => 7) 2048)).1 = true
    ∧ (MEMORY_PeekCmd bigEndianPlatform (ramPeekCmd 1000 MEM_MGR_MemSize_Enum_t.MemSize_16)
        (initWorld (fun _ => 7) 2048)).2.Memory.CmdStatus
      = { Function := MEM_MGR_MemFunction_Enum_t.PEEK
          Type_ := MEM_MGR_MemType_Enum_t.MemType_RAM
          Size := MEM_MGR_MemSize_Enum_t.MemSize_16
          Addr := 1000, Data := 117899264, ByteCnt := 2 }
    ∧ (MEMORY_PeekCmd bigEndianPlatform (ramPeekCmd 1000 MEM_MGR_MemSize_Enum_t.MemSize_32)
        (initWorld (fun _ => 7) 2048)).2.Memory.CmdStatus.Data = 117901063
    ∧ (MEMORY_PeekCmd refPlatform (ramPeekCmd 1000 MEM_MGR_MemSize_Enum_t.MemSize_8)
        (initWorld (fun _ => 7) 2048)).2.Memory.CmdStatus.Data = 7
    ∧ (MEMORY_PeekCmd refPlatform (ramPeekCmd 1000 MEM_MGR_MemSize_Enum_t.MemSize_16)
        (initWorld (fun _ => 7) 2048)).2.Memory.CmdStatus.Data = 1799
    ∧ (MEMORY_PeekCmd refPlatform (ramPeekCmd 1000 MEM_MGR_MemSize_Enum_t.MemSize_32)
        (initWorld (fun _ => 7) 2048)).2.Memory.CmdStatus.Data = 117901063 := by
  decide!

/-! ## Size check of `ValidLoadFile` beyond 32 bits -/

end MemMgr
